import Mathlib

/-!
# FETRIS (src/main4.go): a shallow embedding of the piece/grid simulation

Conventions of the embedding.

* Go `int` values are modelled as `Int`; every quantity of the game (cell
  coordinates, piece identifiers, score, level, speed, timer) stays far away
  from the machine word limit, so no wrap-around is modelled.
* `g.grid` (`[GridHeight][GridWidth]int`) is a list of rows, each a list of
  cells; `Grid.WF` states the fixed dimensions 17 x 10 of the Go array type.
* A Go run-time panic (index out of range) is the `.error` result of `Exec`;
  it carries the receiver's state at the moment of the panic, because the
  fields written through the pointer receiver before the panic stay written.
* Sound playback, drawing and file output are not modelled.  The wall clock
  (`time.Now`) and the random source (`rand.Intn`, `rand.Float64`) are inputs.
-/

namespace Fetris

set_option maxRecDepth 100000

/-! ## Constants (main4.go, lines 61-88) -/

def GridWidth : Int := 10
def GridHeight : Int := 17
def VelocidadInicial : Int := 60
def LevelTimeLimitSeconds : Int := 122

/-! The session states are successive values of `iota`; `EstadoCompany` is the
tenth constant of the block, hence 9. -/

def EstadoCompany : Int := 9
def EstadoStart : Int := 10
def EstadoPlayerName : Int := 11
def EstadoPlayMenu : Int := 12
def EstadoReglas : Int := 13
def EstadoHistoria : Int := 14
def EstadoMenu : Int := 15
def EstadoGame : Int := 16
def EstadoPause : Int := 17
def EstadoGameOver : Int := 18
def EstadoHighScores : Int := 19

/-! ## Data model (lines 91-151) -/

/-- One high-score record.  The `Date` field of the source (a formatted
wall-clock reading) is not modelled. -/
structure HighScore where
  Name : String
  Score : Int
  Level : Int
deriving DecidableEq, Repr

/-- The occupancy grid `[GridHeight][GridWidth]int`: rows from top to bottom. -/
abbrev Grid := List (List Int)

/-- The dimensions fixed by the Go array type: 17 rows of 10 cells. -/
def Grid.WF (grid : Grid) : Prop :=
  grid.length = 17 ∧ ∀ row ∈ grid, row.length = 10

instance (grid : Grid) : Decidable grid.WF := by
  unfold Grid.WF; infer_instance

/-- The fields of `Game` that the simulation reads or writes. -/
structure Game where
  Estado : Int
  grid : Grid
  fallingX : Int
  fallingY : Int
  fallingCol : Int
  fallingSpecial : Bool
  fallingRotation : Int
  score : Int
  level : Int
  speed : Int
  framesCounter : Int
  timer : Int
  timeLimit : Int
  nextPieces : List Int
  nextSpecial : List Bool
  moveDelayCounter : Int
  moveDelay : Int
  initialMoveDelay : Int
  keyHeldFrames : Int
  lastMoveDir : Int
  highScores : List HighScore
  playerName : String
  currentBgm : Int
deriving DecidableEq

/-- Result of running a method of `*Game`: `.ok` on normal return, `.error s`
when the Go run time panics, `s` being the state reached at that moment. -/
abbrev Exec (α : Type) := Except Game α

instance {α : Type} [DecidableEq α] : DecidableEq (Exec α) := fun a b =>
  match a, b with
  | .ok x, .ok y =>
    if h : x = y then isTrue (by rw [h]) else isFalse (fun e => h (Except.ok.inj e))
  | .error x, .error y =>
    if h : x = y then isTrue (by rw [h]) else isFalse (fun e => h (Except.error.inj e))
  | .ok _, .error _ => isFalse (fun e => by cases e)
  | .error _, .ok _ => isFalse (fun e => by cases e)

/-- The state the receiver is left in, whether the call returned or panicked. -/
def Exec.state : Exec Game → Game
  | .ok g => g
  | .error g => g

/-- Whether the call returned normally. -/
def Exec.returned {α : Type} : Exec α → Bool
  | .ok _ => true
  | .error _ => false

/-- Read of `grid[y][x]` for indices inside the array. -/
def cell (grid : Grid) (y x : Nat) : Int :=
  (grid.getD y []).getD x 0

/-- Write `grid[y][x] = v` for indices inside the array. -/
def setCell (grid : Grid) (y x : Nat) (v : Int) : Grid :=
  grid.set y ((grid.getD y []).set x v)

/-! ## Shape table (the literal of `canMove`, lines 1080-1147) -/

/-- The values of the map literal `tetrominos`, keys 1 to 11 in order.  The
source repeats the literal in `lockPiece` (lines 1256-1323) and in `drawGame`
(lines 1839-1906) with the same entries; the three methods are modelled over
this one table. -/
def tetrominosTable : List (List (List (Int × Int))) :=
  [ -- 1: I
    [ [(0, 0), (1, 0), (2, 0), (3, 0)],
      [(1, -1), (1, 0), (1, 1), (1, 2)],
      [(0, 1), (1, 1), (2, 1), (3, 1)],
      [(2, -1), (2, 0), (2, 1), (2, 2)] ],
    -- 2: O
    [ [(0, 0), (1, 0), (0, 1), (1, 1)],
      [(0, 0), (1, 0), (0, 1), (1, 1)],
      [(0, 0), (1, 0), (0, 1), (1, 1)],
      [(0, 0), (1, 0), (0, 1), (1, 1)] ],
    -- 3: T
    [ [(1, 0), (0, 1), (1, 1), (2, 1)],
      [(1, 0), (1, 1), (2, 1), (1, 2)],
      [(0, 1), (1, 1), (2, 1), (1, 2)],
      [(1, 0), (0, 1), (1, 1), (1, 2)] ],
    -- 4: L
    [ [(0, 0), (0, 1), (0, 2), (1, 2)],
      [(0, 0), (1, 0), (2, 0), (0, 1)],
      [(0, 0), (1, 0), (1, 1), (1, 2)],
      [(2, 0), (0, 1), (1, 1), (2, 1)] ],
    -- 5: J
    [ [(1, 0), (1, 1), (0, 2), (1, 2)],
      [(0, 0), (0, 1), (1, 1), (2, 1)],
      [(0, 0), (1, 0), (0, 1), (0, 2)],
      [(0, 0), (1, 0), (2, 0), (2, 1)] ],
    -- 6: Z
    [ [(0, 0), (1, 0), (1, 1), (2, 1)],
      [(2, 0), (1, 1), (2, 1), (1, 2)],
      [(0, 1), (1, 1), (1, 2), (2, 2)],
      [(1, 0), (0, 1), (1, 1), (0, 2)] ],
    -- 7: S
    [ [(1, 0), (2, 0), (0, 1), (1, 1)],
      [(1, 0), (1, 1), (2, 1), (2, 2)],
      [(1, 1), (2, 1), (0, 2), (1, 2)],
      [(0, 0), (0, 1), (1, 1), (1, 2)] ],
    -- 8: U
    [ [(1, 0), (0, 0), (0, 1), (0, 2), (1, 2)],
      [(0, 1), (0, 0), (1, 0), (2, 0), (2, 1)],
      [(0, 0), (1, 0), (1, 1), (1, 2), (0, 2)],
      [(0, 0), (0, 1), (1, 1), (2, 1), (2, 0)] ],
    -- 9: special piece 1
    [ [(2, 0), (2, 1), (1, 1), (1, 2), (0, 2)],
      [(1, 0), (1, 1), (1, 2), (0, 1), (2, 1)],
      [(0, 0), (0, 1), (1, 1), (2, 1), (2, 2)],
      [(2, 0), (2, 1), (1, 1), (0, 1), (0, 2)] ],
    -- 10: long bar
    [ [(0, 0), (1, 0), (2, 0), (3, 0), (4, 0)],
      [(2, 0), (2, 1), (2, 2), (2, 3), (2, 4)],
      [(0, 0), (1, 0), (2, 0), (3, 0), (4, 0)],
      [(2, 0), (2, 1), (2, 2), (2, 3), (2, 4)] ],
    -- 11: other
    [ [(0, 2), (1, 2), (2, 2), (0, 1), (0, 0)],
      [(0, 0), (1, 0), (2, 0), (0, 1), (0, 2)],
      [(0, 0), (1, 0), (2, 0), (2, 1), (2, 2)],
      [(0, 2), (1, 2), (2, 2), (2, 1), (2, 0)] ] ]

/-- The map lookup `tetrominos[col]`: a missing key yields the nil slice. -/
def tetrominos (col : Int) : List (List (Int × Int)) :=
  if 1 ≤ col then tetrominosTable.getD (col - 1).toNat [] else []

/-- The slice index `tetrominos[col][rot]`; `none` when Go panics with an
index out of range. -/
def shapeAt (col rot : Int) : Option (List (Int × Int)) :=
  if 0 ≤ rot then (tetrominos col)[rot.toNat]? else none

/-! ## canMove (lines 1078-1170) -/

/-- The loop of `canMove` over the blocks of the shape (lines 1151-1166). -/
def canMoveBlocks (g : Game) (dx dy : Int) : List (Int × Int) → Bool
  | [] => true
  | block :: rest =>
    let x := g.fallingX + block.1 + dx
    let y := g.fallingY + block.2 + dy
    if x < 0 ∨ x ≥ GridWidth ∨ y ≥ GridHeight then false
    else if y ≥ 0 ∧ cell g.grid y.toNat x.toNat ≠ 0 then false
    else canMoveBlocks g dx dy rest

/-- The method `canMove(dx, dy)`. -/
def canMove (g : Game) (dx dy : Int) : Exec Bool :=
  match shapeAt g.fallingCol g.fallingRotation with
  | none => .error g
  | some blocks =>
    if blocks.length > 0 then .ok (canMoveBlocks g dx dy blocks) else .ok false

/-! ## Rotation (drawGame, lines 1911-1926) and isValidPosition (lines 1976-1995) -/

/-- The method `isValidPosition(blocks)`. -/
def isValidPosition (g : Game) : List (Int × Int) → Bool
  | [] => true
  | block :: rest =>
    let x := g.fallingX + block.1
    let y := g.fallingY + block.2
    if x < 0 ∨ x ≥ GridWidth ∨ y ≥ GridHeight then false
    else if y ≥ 0 ∧ cell g.grid y.toNat x.toNat ≠ 0 then false
    else isValidPosition g rest

/-- Go's remainder operator `%` on `int` (truncated division). -/
def goMod (a b : Int) : Int := Int.tmod a b

/-- The body run by `drawGame` when Z or Up has just been pressed
(lines 1913-1925). -/
def rotatePiece (g : Game) : Exec Game :=
  let g1 := { g with fallingRotation := goMod (g.fallingRotation + 1) 4 }
  match shapeAt g1.fallingCol g1.fallingRotation with
  | none => .error g1
  | some blocks1 =>
    if !isValidPosition g1 blocks1 then
      let g2 := { g1 with fallingRotation := goMod (g1.fallingRotation + 3) 4 }
      match shapeAt g2.fallingCol g2.fallingRotation with
      | none => .error g2
      | some blocks2 =>
        if !isValidPosition g2 blocks2 then
          .ok { g2 with fallingRotation := goMod (g2.fallingRotation + 1) 4 }
        else .ok g2
    else .ok g1

/-! ## Line clearing and scoring (lines 1424-1498) -/

/-- The fullness test of `checkAndClearMatches` for row `y` (lines 1444-1450). -/
def rowFull (grid : Grid) (y : Nat) : Bool :=
  (List.range GridWidth.toNat).all (fun x => cell grid y x != 0)

/-- The method `checkSpecialLine(y)`, on the grid of the receiver. -/
def checkSpecialLine (grid : Grid) (y : Nat) : Bool :=
  (List.range GridWidth.toNat).all (fun x => cell grid y x != 0)

/-- The inner loop of line 1459: `grid[y2][x] = grid[y2-1][x]` for every `x`. -/
def copyRowAbove (grid : Grid) (y2 : Nat) : Grid :=
  (List.range GridWidth.toNat).foldl
    (fun gr x => setCell gr y2 x (cell gr (y2 - 1) x)) grid

/-- The loop `for y2 := y; y2 > 0; y2--` of lines 1458-1462. -/
def shiftDown (grid : Grid) : Nat → Grid
  | 0 => grid
  | y2 + 1 => shiftDown (copyRowAbove grid (y2 + 1)) y2

/-- The local variables of the scan of `checkAndClearMatches`. -/
structure ClearState where
  grid : Grid
  lines : Int
  specialLines : Int
deriving DecidableEq, Repr

/-- One iteration of the scan `for y := 0; y < GridHeight; y++`
(lines 1443-1465). -/
def clearStep (st : ClearState) (y : Nat) : ClearState :=
  if rowFull st.grid y then
    { grid := shiftDown st.grid y
      lines := st.lines + 1
      specialLines :=
        if checkSpecialLine st.grid y then st.specialLines + 1 else st.specialLines }
  else st

/-- The whole scan of lines 1441-1465, from `lines = 0`, `specialLines = 0`. -/
def clearLoop (grid : Grid) : ClearState :=
  (List.range GridHeight.toNat).foldl clearStep
    { grid := grid, lines := 0, specialLines := 0 }

/-- The points computed by lines 1468-1492, for `lines > 0`. -/
def linePoints (lines specialLines : Int) : Int :=
  let points : Int :=
    if lines = 1 then 100
    else if lines = 2 then 300
    else if lines = 3 then 500
    else if lines = 4 then 800
    else 1200
  let points := if specialLines > 0 then points + specialLines * 200 else points
  let points :=
    if specialLines > 0 ∧ lines > 0 then points + specialLines * 200 else points
  points

/-- The method `checkAndClearMatches`. -/
def checkAndClearMatches (g : Game) : Game :=
  let st := clearLoop g.grid
  let g1 := { g with grid := st.grid }
  if st.lines > 0 then
    { g1 with score := g1.score + linePoints st.lines st.specialLines }
  else g1

/-! ## lockPiece (lines 1254-1377) -/

/-- The placement test of `lockPiece` (lines 1329-1343): the value of
`canLock` after the loop. -/
def lockPieceCanLock (g : Game) : List (Int × Int) → Bool
  | [] => true
  | block :: rest =>
    let newX := g.fallingX + block.1
    let newY := g.fallingY + block.2
    if newX < 0 ∨ newX ≥ GridWidth ∨ newY ≥ GridHeight then false
    else if newY ≥ 0 ∧ cell g.grid newY.toNat newX.toNat ≠ 0 then false
    else lockPieceCanLock g rest

/-- The commit loop of `lockPiece` (lines 1351-1359).  The write
`g.grid[newY][newX]` panics when the index is outside the array. -/
def lockPieceCommit (g : Game) : List (Int × Int) → Exec Game
  | [] => .ok g
  | block :: rest =>
    let newX := g.fallingX + block.1
    let newY := g.fallingY + block.2
    if newY ≥ 0 then
      if newY ≥ GridHeight ∨ newX < 0 ∨ newX ≥ GridWidth then .error g
      else
        lockPieceCommit
          { g with grid := setCell g.grid newY.toNat newX.toNat g.fallingCol } rest
    else lockPieceCommit g rest

/-- The state of `lockPiece` just before the commit loop (lines 1326-1348):
the anchor moved up by one row when the placement test failed. -/
def lockPieceAdjust (g : Game) (currentShape : List (Int × Int)) : Game :=
  if !lockPieceCanLock g currentShape then { g with fallingY := g.fallingY - 1 }
  else g

/-- The score awarded by `lockPiece` itself (lines 1366-1372). -/
def lockPieceScore (g : Game) : Game :=
  let g1 := if g.fallingSpecial then { g with score := g.score + 100 } else g
  { g1 with score := g1.score + 10 }

/-- The method `lockPiece`. -/
def lockPiece (g : Game) : Exec Game :=
  match shapeAt g.fallingCol g.fallingRotation with
  | none => .error g
  | some currentShape =>
    match lockPieceCommit (lockPieceAdjust g currentShape) currentShape with
    | .error s => .error s
    | .ok g1 => .ok (checkAndClearMatches (lockPieceScore g1))

/-! ## Level logic (lines 894-914, 1380-1421, 2133-2138) -/

/-- The number of cells counted by the two loops of `checkLevelComplete`. -/
def countOccupied (grid : Grid) : Int :=
  (List.range GridHeight.toNat).foldl
    (fun occ y =>
      (List.range GridWidth.toNat).foldl
        (fun occ x => if cell grid y x ≠ 0 then occ + 1 else occ) occ) 0

/-- The method `checkLevelComplete`.  The source compares
`float64(occupied)/float64(total)` with `0.99`; `occupied` is an integer
between 0 and 170, for which the floating-point comparison and the exact one
agree, and the exact one is used here. -/
def checkLevelComplete (g : Game) : Bool :=
  let occupied := countOccupied g.grid
  let total := GridWidth * GridHeight
  decide ((occupied : ℚ) / (total : ℚ) < 99 / 100)

/-- The function `max` of the source (lines 2133-2138). -/
def maxInt (a b : Int) : Int :=
  if a > b then a else b

/-- The length of `g.bgms` (`make([]*audio.Player, 6)`, line 509). -/
def bgmsLen : Int := 6

/-- The method `changeBgmForLevel`: the accesses `g.bgms[g.currentBgm]` of
lines 896 and 911 panic when the index is outside the slice. -/
def changeBgmForLevel (g : Game) : Exec Game :=
  if g.currentBgm < 0 ∨ g.currentBgm ≥ bgmsLen then .error g
  else
    let newBgm := goMod (g.level - 1) 8
    let g1 := if newBgm ≠ g.currentBgm then { g with currentBgm := newBgm } else g
    if g1.currentBgm < 0 ∨ g1.currentBgm ≥ bgmsLen then .error g1 else .ok g1

/-- The method `nextLevel`. -/
def nextLevel (g : Game) : Exec Game :=
  let g1 := { g with level := g.level + 1 }
  let g2 := { g1 with timer := g1.timeLimit }
  let g3 := { g2 with speed := maxInt 5 (VelocidadInicial - g2.level * 6) }
  changeBgmForLevel g3

/-- The method `saveHighScore` (lines 581-601).  `sort.Slice` with the
comparison `Score_i > Score_j` is modelled by an insertion sort into
non-increasing score order. -/
def saveHighScore (g : Game) : Game :=
  let newScore : HighScore := { Name := g.playerName, Score := g.score, Level := g.level }
  let appended := g.highScores ++ [newScore]
  let sorted := appended.insertionSort (fun a b => a.Score ≥ b.Score)
  { g with highScores := if sorted.length > 10 then sorted.take 10 else sorted }

/-- The method `gameOver`. -/
def gameOver (g : Game) : Exec Game :=
  let g1 := { g with Estado := EstadoGameOver }
  if g1.currentBgm < 0 ∨ g1.currentBgm ≥ bgmsLen then .error g1
  else .ok (saveHighScore g1)

/-- The timer block of `updateGame` (lines 986-997); `secondElapsed` is the
outcome of `now.Sub(g.lastTimerUpdate) >= time.Second`. -/
def updateGameTimer (g : Game) (secondElapsed : Bool) : Exec Game :=
  if secondElapsed then
    let g1 := { g with timer := g.timer - 1 }
    if g1.timer ≤ 0 then
      if !checkLevelComplete g1 then gameOver g1 else nextLevel g1
    else .ok g1
  else .ok g

/-! ## spawnPiece (lines 1564-1586) -/

/-- The two random draws of one generated piece: `rand.Intn(11)` and the
outcome of `rand.Float64() < ProbabiliSpecialPiece`. -/
structure Draw where
  intn : Fin 11
  special : Bool
deriving DecidableEq, Repr

/-- One iteration of the loop of lines 1573-1576. -/
def shiftQueue (g : Game) (i : Nat) : Game :=
  let g1 := { g with nextPieces := g.nextPieces.set i (g.nextPieces.getD (i + 1) 0) }
  { g1 with nextSpecial := g1.nextSpecial.set i (g1.nextSpecial.getD (i + 1) false) }

/-- The assignments of `spawnPiece` before the Game Over test
(lines 1565-1580). -/
def spawnPieceAssign (g : Game) (d : Draw) : Game :=
  let g1 := { g with fallingX := GridWidth / 2 }
  let g2 := { g1 with fallingY := 0 }
  let g3 := { g2 with fallingCol := g2.nextPieces.getD 0 0 }
  let g4 := { g3 with fallingSpecial := g3.nextSpecial.getD 0 false }
  let g5 := (List.range 2).foldl shiftQueue g4
  let g6 := { g5 with nextPieces := g5.nextPieces.set 2 ((d.intn.val : Int) + 1) }
  { g6 with nextSpecial := g6.nextSpecial.set 2 d.special }

/-- The method `spawnPiece`. -/
def spawnPiece (g : Game) (d : Draw) : Exec Game :=
  let g1 := spawnPieceAssign g d
  match canMove g1 0 0 with
  | .error s => .error s
  | .ok fits => if !fits then gameOver g1 else .ok g1

/-! ## Auxiliary predicates and concrete states used in the statements -/

/-- The condition under which one block stops `canMove`, `isValidPosition`
or the placement test of `lockPiece`: outside the side walls or below the
floor, or on an occupied cell of a visible row. -/
def blocked (grid : Grid) (x y : Int) : Prop :=
  x < 0 ∨ x ≥ 10 ∨ y ≥ 17 ∨ (y ≥ 0 ∧ cell grid y.toNat x.toNat ≠ 0)

instance (grid : Grid) (x y : Int) : Decidable (blocked grid x y) := by
  unfold blocked; infer_instance

/-- A row of ten empty cells. -/
def emptyRow : List Int := List.replicate 10 0

/-- A row of ten occupied cells. -/
def fullRow : List Int := List.replicate 10 1

/-- The grid of a fresh session. -/
def emptyGrid : Grid := List.replicate 17 emptyRow

/-- A running session on an empty grid: the I piece at the spawn anchor. -/
def sampleGame : Game :=
  { Estado := EstadoGame, grid := emptyGrid, fallingX := 5, fallingY := 0,
    fallingCol := 1, fallingSpecial := false, fallingRotation := 0, score := 0,
    level := 1, speed := 60, framesCounter := 0, timer := 122, timeLimit := 122,
    nextPieces := [1, 2, 3], nextSpecial := [false, true, false],
    moveDelayCounter := 0, moveDelay := 4, initialMoveDelay := 10,
    keyHeldFrames := 0, lastMoveDir := 0, highScores := [], playerName := "",
    currentBgm := 0 }

/-- A row is full when every one of its cells is non-zero. -/
def rowIsFull (row : List Int) : Bool := row.all (fun v => v != 0)

/-- The first `y` rows of the grid once the scan of `checkAndClearMatches` has
passed rows `0 .. y-1` of `orig`: one copy of the top row per full row met,
followed by the rows that were not full. -/
def compacted (orig : Grid) (y : Nat) : Grid :=
  List.replicate ((orig.take y).countP rowIsFull) (orig.getD 0 []) ++
    (orig.take y).filter (fun r => !rowIsFull r)

/-- A grid whose rows 2 and 5 are full; cell (0,0) and three other cells are
occupied as well. -/
def twoFullGrid : Grid :=
  [[1, 0, 0, 0, 0, 0, 0, 0, 0, 0], emptyRow, fullRow, [0, 2, 0, 0, 0, 0, 0, 0, 0, 0],
    [0, 0, 3, 0, 0, 0, 0, 0, 0, 0], fullRow] ++ List.replicate 10 emptyRow ++
    [[4, 4, 4, 4, 0, 0, 0, 0, 0, 0]]

/-- A grid with column 0 occupied in every row and a full bottom row. -/
def towerGrid : Grid :=
  List.replicate 16 [1, 0, 0, 0, 0, 0, 0, 0, 0, 0] ++ [fullRow]

/-- The I piece lying on the floor of the empty grid. -/
def floorGame : Game := { sampleGame with fallingY := 16 }

/-- The I piece about to complete the bottom row: row 16 is occupied except
in columns 5 to 8. -/
def lineGame : Game :=
  { sampleGame with
    fallingY := 16
    grid := List.replicate 16 emptyRow ++ [[2, 2, 2, 2, 2, 0, 0, 0, 0, 2]] }

/-- The I piece at anchor (3,5), rotation 0, next to one occupied cell in
row 6, column 4. -/
def rotGame : Game :=
  { sampleGame with fallingX := 3, fallingY := 5, grid := setCell emptyGrid 6 4 1 }

/-- A running session whose level timer shows its last second. -/
def expiringGame : Game := { sampleGame with timer := 1 }

/-- One outcome of the random source: identifier 8, special. -/
def sampleDraw : Draw := { intn := 7, special := true }

/-! ## updateGame: movement, drops, gravity, keys (lines 999-1076) -/

/-- Sequencing of two steps of a method: a panic of the first step ends the
run. -/
def Exec.next (r : Exec Game) (f : Game → Exec Game) : Exec Game :=
  match r with
  | .ok g => f g
  | .error s => .error s

/-- The statement `if g.canMove(moveDir, 0) { g.fallingX += moveDir }`
(lines 1010-1012 and 1021-1023). -/
def moveAttempt (g : Game) (moveDir : Int) : Exec Game :=
  match canMove g moveDir 0 with
  | .error s => .error s
  | .ok fits => if fits then .ok { g with fallingX := g.fallingX + moveDir } else .ok g

/-- The horizontal movement block of `updateGame` (lines 999-1032); `left`
and `right` are the outcomes of `ebiten.IsKeyPressed` for the two arrow keys. -/
def updateGameMove (g : Game) (left right : Bool) : Exec Game :=
  let moveDir : Int := if left then -1 else if right then 1 else 0
  if moveDir ≠ 0 then
    if moveDir ≠ g.lastMoveDir then
      (moveAttempt g moveDir).next fun g1 =>
        .ok { g1 with moveDelayCounter := 0, keyHeldFrames := 1, lastMoveDir := moveDir }
    else
      let g1 := { g with keyHeldFrames := g.keyHeldFrames + 1 }
      if g1.keyHeldFrames > g1.initialMoveDelay then
        let g2 := { g1 with moveDelayCounter := g1.moveDelayCounter + 1 }
        if g2.moveDelayCounter ≥ g2.moveDelay then
          (moveAttempt g2 moveDir).next fun g3 => .ok { g3 with moveDelayCounter := 0 }
        else .ok g2
      else .ok g1
  else .ok { g with moveDelayCounter := 0, keyHeldFrames := 0, lastMoveDir := 0 }

/-- Go's quotient operator `/` on `int` (truncated division). -/
def goDiv (a b : Int) : Int := Int.tdiv a b

/-- The soft-drop statement of lines 1035-1037; `down` is the outcome of
`ebiten.IsKeyPressed(ebiten.KeyDown)`. -/
def updateGameSoftDrop (g : Game) (down : Bool) : Game :=
  if down then { g with framesCounter := g.framesCounter + goDiv g.speed 4 } else g

/-- The loop `for g.canMove(0, 1) { g.fallingY++ }` (lines 1041-1043), run for
at most `fuel` iterations. -/
def hardDropLoop : Nat → Game → Exec Game
  | 0, g => .ok g
  | fuel + 1, g =>
    match canMove g 0 1 with
    | .error s => .error s
    | .ok fits =>
      if fits then hardDropLoop fuel { g with fallingY := g.fallingY + 1 } else .ok g

/-- The descent of the hard drop.  No shape has an offset above row -1, so
`canMove(0, 1)` is not true once the anchor row has reached 17: the loop is
left after at most `18 - fallingY` successful tests, or at its first test
(`hardDropDescent_loop` below proves the equation of the `for` loop for every
state); that many iterations plus one are the fuel given here. -/
def hardDropDescent (g : Game) : Exec Game :=
  hardDropLoop ((18 - g.fallingY).toNat + 1) g

/-- The hard-drop block of `updateGame` (lines 1040-1046); `pressed` is the
outcome of the two `inpututil.IsKeyJustPressed` tests, `d` the random draw of
the spawn. -/
def updateGameHardDrop (g : Game) (pressed : Bool) (d : Draw) : Exec Game :=
  if pressed then
    ((hardDropDescent g).next lockPiece).next fun g2 => spawnPiece g2 d
  else .ok g

/-- The gravity block of `updateGame` (lines 1049-1058). -/
def updateGameGravity (g : Game) (d : Draw) : Exec Game :=
  let g1 := { g with framesCounter := g.framesCounter + 1 }
  if g1.framesCounter ≥ g1.speed then
    let g2 := { g1 with framesCounter := 0 }
    match canMove g2 0 1 with
    | .error s => .error s
    | .ok fits =>
      if fits then .ok { g2 with fallingY := g2.fallingY + 1 }
      else (lockPiece g2).next fun g3 => spawnPiece g3 d
  else .ok g1

/-- The pause and escape keys (lines 1061-1073); the accesses
`g.bgms[g.currentBgm]` panic when the index is outside the slice. -/
def updateGameKeys (g : Game) (pause escape : Bool) : Exec Game :=
  let r1 : Exec Game :=
    if pause then
      let g1 := { g with Estado := EstadoPause }
      if g1.currentBgm < 0 ∨ g1.currentBgm ≥ bgmsLen then .error g1 else .ok g1
    else .ok g
  r1.next fun g2 =>
    if escape then
      let g3 := { g2 with Estado := EstadoMenu }
      if g3.currentBgm < 0 ∨ g3.currentBgm ≥ bgmsLen then .error g3 else .ok g3
    else .ok g2

/-- What one call of `updateGame` reads from its environment: the clock test
of line 986, the keys, and the random draws of the two possible spawns. -/
structure Input where
  secondElapsed : Bool
  left : Bool
  right : Bool
  down : Bool
  hardDrop : Bool
  pause : Bool
  escape : Bool
  drawHardDrop : Draw
  drawGravity : Draw
deriving DecidableEq

/-- The method `updateGame`. -/
def updateGame (g : Game) (inp : Input) : Exec Game :=
  ((((updateGameTimer g inp.secondElapsed).next fun g1 =>
      updateGameMove g1 inp.left inp.right).next fun g2 =>
      updateGameHardDrop (updateGameSoftDrop g2 inp.down) inp.hardDrop inp.drawHardDrop).next
    fun g3 => updateGameGravity g3 inp.drawGravity).next fun g4 =>
      updateGameKeys g4 inp.pause inp.escape

/-- A running session whose active I piece (rotation 0, anchor (5,0)) overlaps
an occupied cell, with rotations 1 and 3 obstructed as well: cells (0,5),
(1,6) and (1,7) (row, column) are occupied. -/
def jammedGame : Game :=
  { sampleGame with grid := setCell (setCell (setCell emptyGrid 0 5 3) 1 6 3) 1 7 3 }

/-- A session whose previous piece was left at rotation 1. -/
def turnedGame : Game := { sampleGame with fallingRotation := 1, fallingX := 2, fallingY := 9 }

/-- The number of occupied cells of row `y`, as counted by the inner loop of
`checkLevelComplete`. -/
def occRow (grid : Grid) (y : Nat) : Nat :=
  (List.range 10).countP (fun x => decide (cell grid y x ≠ 0))


/-- The I piece (rotation 0) at anchor (8,16): its cells reach column 11. -/
def wallGame : Game := { sampleGame with fallingX := 8, fallingY := 16 }

/-- The I piece (rotation 0) at anchor (5,17): one row below the floor. -/
def sunkGame : Game := { sampleGame with fallingY := 17 }

/-! ## Connectedness of a shape -/

/-- Two cells are adjacent when they share an edge. -/
def adjacentCells (a b : Int × Int) : Prop :=
  (a.1 = b.1 ∧ (a.2 - b.2 = 1 ∨ b.2 - a.2 = 1)) ∨
  (a.2 = b.2 ∧ (a.1 - b.1 = 1 ∨ b.1 - a.1 = 1))

instance (a b : Int × Int) : Decidable (adjacentCells a b) := by
  unfold adjacentCells; infer_instance

/-- One step between adjacent cells of the shape `s`. -/
def shapeStep (s : List (Int × Int)) (p q : Int × Int) : Prop :=
  p ∈ s ∧ q ∈ s ∧ adjacentCells p q

/-- A shape is edge-connected when every cell of it is reachable from every
other one through steps between adjacent cells of the shape. -/
def EdgeConnected (s : List (Int × Int)) : Prop :=
  ∀ a ∈ s, ∀ b ∈ s, Relation.ReflTransGen (shapeStep s) a b

/-- The cells of `s` seen so far, together with the cells of `s` adjacent to
one of them. -/
def growReach (s seen : List (Int × Int)) : List (Int × Int) :=
  seen ++ s.filter (fun q => decide (∃ p ∈ seen, adjacentCells p q))

/-- The result of `n` rounds of `growReach`. -/
def reachN (s : List (Int × Int)) : Nat → List (Int × Int) → List (Int × Int)
  | 0, seen => seen
  | n + 1, seen => reachN s n (growReach s seen)

/-- A search from the first cell of `s` that reaches every cell of `s`. -/
def connectedCheck (s : List (Int × Int)) : Bool :=
  match s with
  | [] => true
  | a :: _ => s.all (fun b => decide (b ∈ reachN s s.length [a]))

/-- A grid with columns 5 and 6 occupied from row 2 down to the floor. -/
def stackGrid : Grid :=
  [emptyRow, emptyRow] ++ List.replicate 15 [0, 0, 0, 0, 0, 7, 7, 0, 0, 0]

/-- A running session on `stackGrid`: the O piece (identifier 2) sits at the
spawn anchor on top of the stack, the L piece (identifier 4) is next, and the
gravity counter is one frame short of the fall speed. -/
def stackGame : Game :=
  { sampleGame with grid := stackGrid, fallingCol := 2, nextPieces := [4, 2, 3],
                    framesCounter := 59 }

/-- A tick in which only the hard-drop key has just been pressed. -/
def hardDropInput : Input :=
  { secondElapsed := false, left := false, right := false, down := false, hardDrop := true,
    pause := false, escape := false, drawHardDrop := sampleDraw, drawGravity := sampleDraw }

/-! ## The other copies of the shape table -/

/-- The values of the map literal `tetrominos` of `rotationFromGrid` (lines 1175-1242),
keys 1 to 11 in order. -/
def tetrominosTableRotationFromGrid : List (List (List (Int × Int))) :=
  [ -- 1: I
    [ [(0, 0), (1, 0), (2, 0), (3, 0)],
      [(1, -1), (1, 0), (1, 1), (1, 2)],
      [(0, 1), (1, 1), (2, 1), (3, 1)],
      [(2, -1), (2, 0), (2, 1), (2, 2)] ],
    -- 2: O
    [ [(0, 0), (1, 0), (0, 1), (1, 1)],
      [(0, 0), (1, 0), (0, 1), (1, 1)],
      [(0, 0), (1, 0), (0, 1), (1, 1)],
      [(0, 0), (1, 0), (0, 1), (1, 1)] ],
    -- 3: T
    [ [(1, 0), (0, 1), (1, 1), (2, 1)],
      [(1, 0), (1, 1), (2, 1), (1, 2)],
      [(0, 1), (1, 1), (2, 1), (1, 2)],
      [(1, 0), (0, 1), (1, 1), (1, 2)] ],
    -- 4: L
    [ [(0, 0), (0, 1), (0, 2), (1, 2)],
      [(0, 0), (1, 0), (2, 0), (0, 1)],
      [(0, 0), (1, 0), (1, 1), (1, 2)],
      [(2, 0), (0, 1), (1, 1), (2, 1)] ],
    -- 5: J
    [ [(1, 0), (1, 1), (0, 2), (1, 2)],
      [(0, 0), (0, 1), (1, 1), (2, 1)],
      [(0, 0), (1, 0), (0, 1), (0, 2)],
      [(0, 0), (1, 0), (2, 0), (2, 1)] ],
    -- 6: Z
    [ [(0, 0), (1, 0), (1, 1), (2, 1)],
      [(2, 0), (1, 1), (2, 1), (1, 2)],
      [(0, 1), (1, 1), (1, 2), (2, 2)],
      [(1, 0), (0, 1), (1, 1), (0, 2)] ],
    -- 7: S
    [ [(1, 0), (2, 0), (0, 1), (1, 1)],
      [(1, 0), (1, 1), (2, 1), (2, 2)],
      [(1, 1), (2, 1), (0, 2), (1, 2)],
      [(0, 0), (0, 1), (1, 1), (1, 2)] ],
    -- 8: U
    [ [(1, 0), (0, 0), (0, 1), (0, 2), (1, 2)],
      [(0, 1), (0, 0), (1, 0), (2, 0), (2, 1)],
      [(0, 0), (1, 0), (1, 1), (1, 2), (0, 2)],
      [(0, 0), (0, 1), (1, 1), (2, 1), (2, 0)] ],
    -- 9: special piece 1
    [ [(2, 0), (2, 1), (1, 1), (1, 2), (0, 2)],
      [(1, 0), (1, 1), (1, 2), (0, 1), (2, 1)],
      [(0, 0), (0, 1), (1, 1), (2, 1), (2, 2)],
      [(2, 0), (2, 1), (1, 1), (0, 1), (0, 2)] ],
    -- 10: long bar
    [ [(0, 0), (1, 0), (2, 0), (3, 0), (4, 0)],
      [(2, 0), (2, 1), (2, 2), (2, 3), (2, 4)],
      [(0, 0), (1, 0), (2, 0), (3, 0), (4, 0)],
      [(2, 0), (2, 1), (2, 2), (2, 3), (2, 4)] ],
    -- 11: other
    [ [(0, 2), (1, 2), (2, 2), (0, 1), (0, 0)],
      [(0, 0), (1, 0), (2, 0), (0, 1), (0, 2)],
      [(0, 0), (1, 0), (2, 0), (2, 1), (2, 2)],
      [(0, 2), (1, 2), (2, 2), (2, 1), (2, 0)] ] ]

/-- The values of the map literal `tetrominos` of `lockPiece` (lines 1256-1323),
keys 1 to 11 in order. -/
def tetrominosTableLockPiece : List (List (List (Int × Int))) :=
  [ -- 1: I
    [ [(0, 0), (1, 0), (2, 0), (3, 0)],
      [(1, -1), (1, 0), (1, 1), (1, 2)],
      [(0, 1), (1, 1), (2, 1), (3, 1)],
      [(2, -1), (2, 0), (2, 1), (2, 2)] ],
    -- 2: O
    [ [(0, 0), (1, 0), (0, 1), (1, 1)],
      [(0, 0), (1, 0), (0, 1), (1, 1)],
      [(0, 0), (1, 0), (0, 1), (1, 1)],
      [(0, 0), (1, 0), (0, 1), (1, 1)] ],
    -- 3: T
    [ [(1, 0), (0, 1), (1, 1), (2, 1)],
      [(1, 0), (1, 1), (2, 1), (1, 2)],
      [(0, 1), (1, 1), (2, 1), (1, 2)],
      [(1, 0), (0, 1), (1, 1), (1, 2)] ],
    -- 4: L
    [ [(0, 0), (0, 1), (0, 2), (1, 2)],
      [(0, 0), (1, 0), (2, 0), (0, 1)],
      [(0, 0), (1, 0), (1, 1), (1, 2)],
      [(2, 0), (0, 1), (1, 1), (2, 1)] ],
    -- 5: J
    [ [(1, 0), (1, 1), (0, 2), (1, 2)],
      [(0, 0), (0, 1), (1, 1), (2, 1)],
      [(0, 0), (1, 0), (0, 1), (0, 2)],
      [(0, 0), (1, 0), (2, 0), (2, 1)] ],
    -- 6: Z
    [ [(0, 0), (1, 0), (1, 1), (2, 1)],
      [(2, 0), (1, 1), (2, 1), (1, 2)],
      [(0, 1), (1, 1), (1, 2), (2, 2)],
      [(1, 0), (0, 1), (1, 1), (0, 2)] ],
    -- 7: S
    [ [(1, 0), (2, 0), (0, 1), (1, 1)],
      [(1, 0), (1, 1), (2, 1), (2, 2)],
      [(1, 1), (2, 1), (0, 2), (1, 2)],
      [(0, 0), (0, 1), (1, 1), (1, 2)] ],
    -- 8: U
    [ [(1, 0), (0, 0), (0, 1), (0, 2), (1, 2)],
      [(0, 1), (0, 0), (1, 0), (2, 0), (2, 1)],
      [(0, 0), (1, 0), (1, 1), (1, 2), (0, 2)],
      [(0, 0), (0, 1), (1, 1), (2, 1), (2, 0)] ],
    -- 9: special piece 1
    [ [(2, 0), (2, 1), (1, 1), (1, 2), (0, 2)],
      [(1, 0), (1, 1), (1, 2), (0, 1), (2, 1)],
      [(0, 0), (0, 1), (1, 1), (2, 1), (2, 2)],
      [(2, 0), (2, 1), (1, 1), (0, 1), (0, 2)] ],
    -- 10: long bar
    [ [(0, 0), (1, 0), (2, 0), (3, 0), (4, 0)],
      [(2, 0), (2, 1), (2, 2), (2, 3), (2, 4)],
      [(0, 0), (1, 0), (2, 0), (3, 0), (4, 0)],
      [(2, 0), (2, 1), (2, 2), (2, 3), (2, 4)] ],
    -- 11: other
    [ [(0, 2), (1, 2), (2, 2), (0, 1), (0, 0)],
      [(0, 0), (1, 0), (2, 0), (0, 1), (0, 2)],
      [(0, 0), (1, 0), (2, 0), (2, 1), (2, 2)],
      [(0, 2), (1, 2), (2, 2), (2, 1), (2, 0)] ] ]

/-- The values of the map literal `tetrominos` of `drawNextPieces` (lines 1596-1663),
keys 1 to 11 in order. -/
def tetrominosTableDrawNextPieces : List (List (List (Int × Int))) :=
  [ -- 1: I
    [ [(0, 0), (1, 0), (2, 0), (3, 0)],
      [(1, -1), (1, 0), (1, 1), (1, 2)],
      [(0, 1), (1, 1), (2, 1), (3, 1)],
      [(2, -1), (2, 0), (2, 1), (2, 2)] ],
    -- 2: O
    [ [(0, 0), (1, 0), (0, 1), (1, 1)],
      [(0, 0), (1, 0), (0, 1), (1, 1)],
      [(0, 0), (1, 0), (0, 1), (1, 1)],
      [(0, 0), (1, 0), (0, 1), (1, 1)] ],
    -- 3: T
    [ [(1, 0), (0, 1), (1, 1), (2, 1)],
      [(1, 0), (1, 1), (2, 1), (1, 2)],
      [(0, 1), (1, 1), (2, 1), (1, 2)],
      [(1, 0), (0, 1), (1, 1), (1, 2)] ],
    -- 4: L
    [ [(0, 0), (0, 1), (0, 2), (1, 2)],
      [(0, 0), (1, 0), (2, 0), (0, 1)],
      [(0, 0), (1, 0), (1, 1), (1, 2)],
      [(2, 0), (0, 1), (1, 1), (2, 1)] ],
    -- 5: J
    [ [(1, 0), (1, 1), (0, 2), (1, 2)],
      [(0, 0), (0, 1), (1, 1), (2, 1)],
      [(0, 0), (1, 0), (0, 1), (0, 2)],
      [(0, 0), (1, 0), (2, 0), (2, 1)] ],
    -- 6: Z
    [ [(0, 0), (1, 0), (1, 1), (2, 1)],
      [(2, 0), (1, 1), (2, 1), (1, 2)],
      [(0, 1), (1, 1), (1, 2), (2, 2)],
      [(1, 0), (0, 1), (1, 1), (0, 2)] ],
    -- 7: S
    [ [(1, 0), (2, 0), (0, 1), (1, 1)],
      [(1, 0), (1, 1), (2, 1), (2, 2)],
      [(1, 1), (2, 1), (0, 2), (1, 2)],
      [(0, 0), (0, 1), (1, 1), (1, 2)] ],
    -- 8: U
    [ [(1, 0), (0, 0), (0, 1), (0, 2), (1, 2)],
      [(0, 1), (0, 0), (1, 0), (2, 0), (2, 1)],
      [(0, 0), (1, 0), (1, 1), (1, 2), (0, 2)],
      [(0, 0), (0, 1), (1, 1), (2, 1), (2, 0)] ],
    -- 9: special piece 1
    [ [(2, 0), (2, 1), (1, 1), (1, 2), (0, 2)],
      [(1, 0), (1, 1), (1, 2), (0, 1), (2, 1)],
      [(0, 0), (0, 1), (1, 1), (2, 1), (2, 2)],
      [(2, 0), (2, 1), (1, 1), (0, 1), (0, 2)] ],
    -- 10: long bar
    [ [(0, 0), (1, 0), (2, 0), (3, 0), (4, 0)],
      [(2, 0), (2, 1), (2, 2), (2, 3), (2, 4)],
      [(0, 0), (1, 0), (2, 0), (3, 0), (4, 0)],
      [(2, 0), (2, 1), (2, 2), (2, 3), (2, 4)] ],
    -- 11: other
    [ [(0, 2), (1, 2), (2, 2), (0, 1), (0, 0)],
      [(0, 0), (1, 0), (2, 0), (0, 1), (0, 2)],
      [(0, 0), (1, 0), (2, 0), (2, 1), (2, 2)],
      [(0, 2), (1, 2), (2, 2), (2, 1), (2, 0)] ] ]

/-- The values of the map literal `tetrominos` of `drawGame` (lines 1839-1906),
keys 1 to 11 in order. -/
def tetrominosTableDrawGame : List (List (List (Int × Int))) :=
  [ -- 1: I
    [ [(0, 0), (1, 0), (2, 0), (3, 0)],
      [(1, -1), (1, 0), (1, 1), (1, 2)],
      [(0, 1), (1, 1), (2, 1), (3, 1)],
      [(2, -1), (2, 0), (2, 1), (2, 2)] ],
    -- 2: O
    [ [(0, 0), (1, 0), (0, 1), (1, 1)],
      [(0, 0), (1, 0), (0, 1), (1, 1)],
      [(0, 0), (1, 0), (0, 1), (1, 1)],
      [(0, 0), (1, 0), (0, 1), (1, 1)] ],
    -- 3: T
    [ [(1, 0), (0, 1), (1, 1), (2, 1)],
      [(1, 0), (1, 1), (2, 1), (1, 2)],
      [(0, 1), (1, 1), (2, 1), (1, 2)],
      [(1, 0), (0, 1), (1, 1), (1, 2)] ],
    -- 4: L
    [ [(0, 0), (0, 1), (0, 2), (1, 2)],
      [(0, 0), (1, 0), (2, 0), (0, 1)],
      [(0, 0), (1, 0), (1, 1), (1, 2)],
      [(2, 0), (0, 1), (1, 1), (2, 1)] ],
    -- 5: J
    [ [(1, 0), (1, 1), (0, 2), (1, 2)],
      [(0, 0), (0, 1), (1, 1), (2, 1)],
      [(0, 0), (1, 0), (0, 1), (0, 2)],
      [(0, 0), (1, 0), (2, 0), (2, 1)] ],
    -- 6: Z
    [ [(0, 0), (1, 0), (1, 1), (2, 1)],
      [(2, 0), (1, 1), (2, 1), (1, 2)],
      [(0, 1), (1, 1), (1, 2), (2, 2)],
      [(1, 0), (0, 1), (1, 1), (0, 2)] ],
    -- 7: S
    [ [(1, 0), (2, 0), (0, 1), (1, 1)],
      [(1, 0), (1, 1), (2, 1), (2, 2)],
      [(1, 1), (2, 1), (0, 2), (1, 2)],
      [(0, 0), (0, 1), (1, 1), (1, 2)] ],
    -- 8: U
    [ [(1, 0), (0, 0), (0, 1), (0, 2), (1, 2)],
      [(0, 1), (0, 0), (1, 0), (2, 0), (2, 1)],
      [(0, 0), (1, 0), (1, 1), (1, 2), (0, 2)],
      [(0, 0), (0, 1), (1, 1), (2, 1), (2, 0)] ],
    -- 9: special piece 1
    [ [(2, 0), (2, 1), (1, 1), (1, 2), (0, 2)],
      [(1, 0), (1, 1), (1, 2), (0, 1), (2, 1)],
      [(0, 0), (0, 1), (1, 1), (2, 1), (2, 2)],
      [(2, 0), (2, 1), (1, 1), (0, 1), (0, 2)] ],
    -- 10: long bar
    [ [(0, 0), (1, 0), (2, 0), (3, 0), (4, 0)],
      [(2, 0), (2, 1), (2, 2), (2, 3), (2, 4)],
      [(0, 0), (1, 0), (2, 0), (3, 0), (4, 0)],
      [(2, 0), (2, 1), (2, 2), (2, 3), (2, 4)] ],
    -- 11: other
    [ [(0, 2), (1, 2), (2, 2), (0, 1), (0, 0)],
      [(0, 0), (1, 0), (2, 0), (0, 1), (0, 2)],
      [(0, 0), (1, 0), (2, 0), (2, 1), (2, 2)],
      [(0, 2), (1, 2), (2, 2), (2, 1), (2, 0)] ] ]


/-- The lookup `tetrominos[col][rot]` in a given copy of the table: `none`
when Go panics with an index out of range. -/
def shapeIn (table : List (List (List (Int × Int)))) (col rot : Int) :
    Option (List (Int × Int)) :=
  if 0 ≤ rot then
    (if 1 ≤ col then table.getD (col - 1).toNat [] else [])[rot.toNat]?
  else none

/-! ## startGame (lines 875-891) -/

/-- One iteration of the loop of lines 885-888, with the draws `d`. -/
def fillQueue (g : Game) (i : Nat) (d : Draw) : Game :=
  let g1 := { g with nextPieces := g.nextPieces.set i ((d.intn.val : Int) + 1) }
  { g1 with nextSpecial := g1.nextSpecial.set i d.special }

/-- The method `startGame`; `d0`, `d1`, `d2` are the draws of the three
preview pieces and `dSpawn` the draw made by `spawnPiece`. -/
def startGame (g : Game) (d0 d1 d2 dSpawn : Draw) : Exec Game :=
  let g6 : Game :=
    { g with grid := List.replicate GridHeight.toNat (List.replicate GridWidth.toNat 0),
             score := 0, level := 1, speed := VelocidadInicial, timer := g.timeLimit,
             currentBgm := 0 }
  if g6.currentBgm < 0 ∨ g6.currentBgm ≥ bgmsLen then .error g6
  else
    let g7 := fillQueue (fillQueue (fillQueue g6 0 d0) 1 d1) 2 d2
    spawnPiece g7 dSpawn

/-- The states of a session: those left by `startGame` from a state whose
rotation index is in 0..3 (the value 0 of `NewGame`, or the one left by an
earlier session), and those left by `spawnPiece`, by a rotate request, by
`lockPiece` and by a tick of `updateGame` from such a state.  A run that
panics does not go on; counting the state it leaves as a session state only
enlarges the set. -/
inductive SessionReach : Game → Prop
  | start (g0 : Game) (d0 d1 d2 dSpawn : Draw) :
      0 ≤ g0.fallingRotation → g0.fallingRotation ≤ 3 →
      g0.nextPieces.length = 3 → g0.nextSpecial.length = 3 →
      SessionReach (startGame g0 d0 d1 d2 dSpawn).state
  | spawn (g : Game) (d : Draw) : SessionReach g → SessionReach (spawnPiece g d).state
  | rotate (g : Game) : SessionReach g → SessionReach (rotatePiece g).state
  | lock (g : Game) : SessionReach g → SessionReach (lockPiece g).state
  | tick (g : Game) (inp : Input) : SessionReach g → SessionReach (updateGame g inp).state

/-! ## Runs of consecutive ticks -/

/-- The condition under which the movement block of `updateGame` reaches one
of its two statements `if g.canMove(moveDir, 0)` (lines 1007-1026). -/
def moveAttemptDue (g : Game) (moveDir : Int) : Bool :=
  decide (moveDir ≠ 0 ∧
    (moveDir ≠ g.lastMoveDir ∨
      (g.keyHeldFrames + 1 > g.initialMoveDelay ∧ g.moveDelayCounter + 1 ≥ g.moveDelay)))

/-- The movement block of `updateGame` run on `n` consecutive ticks with the
same arrow keys held. -/
def holdTicks (left right : Bool) : Nat → Game → Exec Game
  | 0, g => .ok g
  | n + 1, g => (holdTicks left right n g).next fun g1 => updateGameMove g1 left right

/-- The condition of line 1050, `g.framesCounter >= g.speed`, as it will be
evaluated in a tick that starts in state `g` with the soft-drop key `down`. -/
def gravityDue (g : Game) (down : Bool) : Bool :=
  decide ((updateGameSoftDrop g down).framesCounter + 1 ≥ (updateGameSoftDrop g down).speed)

/-- The soft-drop statement and the gravity block of `updateGame` run on `n`
consecutive ticks with the soft-drop key in the same position; `draws i` is
the random draw available to tick `i + 1`. -/
def dropTicks (down : Bool) (draws : Nat → Draw) : Nat → Game → Exec Game
  | 0, g => .ok g
  | n + 1, g =>
    (dropTicks down draws n g).next fun g1 =>
      updateGameGravity (updateGameSoftDrop g1 down) (draws n)

/-- A running session at level 6 with the sixth track playing. -/
def levelSixGame : Game := { sampleGame with level := 6, currentBgm := 5, timer := 1 }

/-- The session of `sampleGame` one tick before its gravity step is due. -/
def dueGame : Game := { sampleGame with framesCounter := 59 }

/-! ## The piece identifiers and the rotation index of a state -/

/-- The fields read by the shape lookups: the active identifier, the rotation
index and the two queue arrays. -/
def pieceKey (g : Game) : Int × Int × List Int × List Bool :=
  (g.fallingCol, g.fallingRotation, g.nextPieces, g.nextSpecial)

/-- The rotation index is in 0..3 and the queue holds three identifiers of
1..11. -/
def QueueInRange (g : Game) : Prop :=
  (0 ≤ g.fallingRotation ∧ g.fallingRotation ≤ 3) ∧
  g.nextPieces.length = 3 ∧ g.nextSpecial.length = 3 ∧
  ∀ q ∈ g.nextPieces, 1 ≤ q ∧ q ≤ 11

/-- The active identifier is in 1..11 as well. -/
def PieceInRange (g : Game) : Prop :=
  (1 ≤ g.fallingCol ∧ g.fallingCol ≤ 11) ∧ QueueInRange g

/-- A state of a session: `startGame` from a state left at rotation 1,
followed by a rotate request and one tick with the left arrow held. -/
def sessionSample : Game :=
  (updateGame (rotatePiece (startGame turnedGame sampleDraw sampleDraw sampleDraw sampleDraw).state).state
    { secondElapsed := false, left := true, right := false, down := false, hardDrop := false,
      pause := false, escape := false, drawHardDrop := sampleDraw,
      drawGravity := sampleDraw }).state

/-- The state after `n` ticks with one arrow key (direction `dir`) held from a
released state of `g`, the anchor column being `x`: `keyHeldFrames` counts the
ticks, `moveDelayCounter` counts the ticks since the last repeat once the
initial delay of 10 ticks has passed. -/
def heldState (g : Game) (x : Int) (n : Nat) (dir : Int) : Game :=
  { g with fallingX := x, keyHeldFrames := (n : Int),
           lastMoveDir := if n = 0 then 0 else dir,
           moveDelayCounter := if n ≤ 10 then 0 else ((n : Int) - 10) % 4 }

/-- The number of move attempts made in the first `n` ticks of a held arrow
key: one on tick 1 and one on each of the ticks 14, 18, 22, ... -/
def shiftCount (n : Nat) : Nat := if n = 0 then 0 else 1 + (n - 10) / 4

/-- The fields read by the gravity test of line 1050: the fall speed and the
frame counter. -/
def paceKey (g : Game) : Int × Int := (g.speed, g.framesCounter)

/-- A session whose grid is `towerGrid` (one full row, the bottom one). -/
def towerGame : Game := { sampleGame with grid := towerGrid }

/-- A session whose top row is full and whose other rows are empty. -/
def topFullGame : Game :=
  { sampleGame with grid := fullRow :: List.replicate 16 emptyRow }

/-! ## States in which the gravity block returns -/

instance (g : Game) : Decidable (QueueInRange g) := by
  unfold QueueInRange; infer_instance

/-- Every cell of the active piece is within the side walls and at most one
row below the floor (rows up to 17); false when the shape lookup is undefined. -/
def withinWalls (g : Game) : Bool :=
  match shapeAt g.fallingCol g.fallingRotation with
  | none => false
  | some blocks =>
    blocks.all fun c =>
      decide (0 ≤ g.fallingX + c.1 ∧ g.fallingX + c.1 < 10 ∧ g.fallingY + c.2 ≤ 17)

/-- A state of play as far as the gravity block is concerned: a 17 x 10 grid,
rotation index and queue in range, a valid track index, and an active piece
within the walls. -/
def DropReady (g : Game) : Prop :=
  g.grid.WF ∧ QueueInRange g ∧ (0 ≤ g.currentBgm ∧ g.currentBgm < bgmsLen) ∧
    withinWalls g = true

instance (g : Game) : Decidable (DropReady g) := by
  unfold DropReady; infer_instance

/-- The fields on which `DropReady` depends. -/
def dropKey (g : Game) : Grid × Int × Int × Int × (Int × Int × List Int × List Bool) :=
  (g.grid, g.fallingX, g.fallingY, g.currentBgm, pieceKey g)

/-! # Theorems -/

/-! ## Shape table lookups -/

theorem shapeAt_defined (col rot : Int) (hc1 : 1 ≤ col) (hc2 : col ≤ 11)
    (hr1 : 0 ≤ rot) (hr2 : rot ≤ 3) :
    ∃ blocks, shapeAt col rot = some blocks ∧ 0 < blocks.length := by
  interval_cases col <;> interval_cases rot <;> exact ⟨_, rfl, by decide⟩

/-! ## canMove -/

theorem canMoveBlocks_eq_false_iff (g : Game) (dx dy : Int) (blocks : List (Int × Int)) :
    canMoveBlocks g dx dy blocks = false ↔
      ∃ c ∈ blocks, blocked g.grid (g.fallingX + c.1 + dx) (g.fallingY + c.2 + dy) := by
  induction blocks with
  | nil => simp [canMoveBlocks]
  | cons b rest ih =>
    simp only [canMoveBlocks, List.mem_cons, exists_eq_or_imp, GridWidth, GridHeight]
    split_ifs with h1 h2
    · simp only [true_iff]
      left
      unfold blocked
      tauto
    · simp only [true_iff]
      left
      unfold blocked
      tauto
    · rw [ih]
      constructor
      · intro h; exact Or.inr h
      · rintro (h | h)
        · unfold blocked at h
          tauto
        · exact h

theorem canMove_eq_ok (g : Game) (dx dy : Int) (blocks : List (Int × Int))
    (hs : shapeAt g.fallingCol g.fallingRotation = some blocks) (hl : 0 < blocks.length) :
    canMove g dx dy = .ok (canMoveBlocks g dx dy blocks) := by
  unfold canMove
  rw [hs]
  simp [hl]

/-- C1: for a piece identifier in 1..11 and a rotation in 0..3 the shape lookup
is defined and `canMove(dx, dy)` returns normally; it returns false exactly
when some cell of the shape, placed at `(x+dx, y+dy)`, has column < 0,
column >= 10 or row >= 17, or has row >= 0 and lies on a non-empty grid
cell.  A cell with row < 0 inside the side walls never makes it false. -/
theorem canMove_false_iff (g : Game) (dx dy : Int)
    (hc1 : 1 ≤ g.fallingCol) (hc2 : g.fallingCol ≤ 11)
    (hr1 : 0 ≤ g.fallingRotation) (hr2 : g.fallingRotation ≤ 3) :
    ∃ blocks b, shapeAt g.fallingCol g.fallingRotation = some blocks ∧
      canMove g dx dy = .ok b ∧
      (b = false ↔ ∃ c ∈ blocks,
        g.fallingX + c.1 + dx < 0 ∨ g.fallingX + c.1 + dx ≥ 10 ∨
        g.fallingY + c.2 + dy ≥ 17 ∨
        (g.fallingY + c.2 + dy ≥ 0 ∧
          cell g.grid (g.fallingY + c.2 + dy).toNat (g.fallingX + c.1 + dx).toNat ≠ 0)) ∧
      ((∀ c ∈ blocks, 0 ≤ g.fallingX + c.1 + dx ∧ g.fallingX + c.1 + dx < 10 ∧
          g.fallingY + c.2 + dy < 0) → b = true) := by
  obtain ⟨blocks, hs, hl⟩ := shapeAt_defined _ _ hc1 hc2 hr1 hr2
  refine ⟨blocks, canMoveBlocks g dx dy blocks, hs, canMove_eq_ok g dx dy blocks hs hl, ?_, ?_⟩
  · rw [canMoveBlocks_eq_false_iff]
    rfl
  · intro hall
    by_contra hb
    have hf : canMoveBlocks g dx dy blocks = false := by
      cases h : canMoveBlocks g dx dy blocks
      · rfl
      · exact absurd h hb
    rw [canMoveBlocks_eq_false_iff] at hf
    obtain ⟨c, hc, hblk⟩ := hf
    obtain ⟨h1, h2, h3⟩ := hall c hc
    unfold blocked at hblk
    omega

/-- C1, instance: the I piece of `sampleGame`, shifted two columns right. -/
theorem canMove_false_iff_witness :
    (1 ≤ sampleGame.fallingCol ∧ sampleGame.fallingCol ≤ 11 ∧
      0 ≤ sampleGame.fallingRotation ∧ sampleGame.fallingRotation ≤ 3) ∧
    ∃ blocks b, shapeAt sampleGame.fallingCol sampleGame.fallingRotation = some blocks ∧
      canMove sampleGame 2 0 = .ok b ∧
      (b = false ↔ ∃ c ∈ blocks,
        sampleGame.fallingX + c.1 + 2 < 0 ∨ sampleGame.fallingX + c.1 + 2 ≥ 10 ∨
        sampleGame.fallingY + c.2 + 0 ≥ 17 ∨
        (sampleGame.fallingY + c.2 + 0 ≥ 0 ∧
          cell sampleGame.grid (sampleGame.fallingY + c.2 + 0).toNat
            (sampleGame.fallingX + c.1 + 2).toNat ≠ 0)) ∧
      ((∀ c ∈ blocks, 0 ≤ sampleGame.fallingX + c.1 + 2 ∧
          sampleGame.fallingX + c.1 + 2 < 10 ∧
          sampleGame.fallingY + c.2 + 0 < 0) → b = true) :=
  ⟨by decide, canMove_false_iff sampleGame 2 0 (by decide) (by decide) (by decide) (by decide)⟩

/-! ## Line clearing: list lemmas -/

theorem take_drop_set (S D : List Int) (n : Nat) (hS : n < S.length) (hD : n < D.length) :
    (S.take n ++ D.drop n).set n (S.getD n 0) = S.take (n + 1) ++ D.drop (n + 1) := by
  have h1 : S.take (n + 1) = S.take n ++ [S.getD n 0] := by
    rw [List.take_succ, List.getD_eq_getElem _ _ hS, List.getElem?_eq_getElem hS]
    rfl
  have h2 : D.drop n = D.getD n 0 :: D.drop (n + 1) := by
    rw [List.getD_eq_getElem _ _ hD]
    exact List.drop_eq_getElem_cons hD
  have h3 : (S.take n).length = n := by
    rw [List.length_take]; omega
  rw [h1, h2, List.set_append, h3]
  simp


theorem set_getD_self {α : Type} (l : List α) (i : Nat) (dflt : α) (h : i < l.length) :
    l.set i (l.getD i dflt) = l := by
  apply List.ext_getElem
  · simp
  · intro j h1 h2
    rw [List.getElem_set]
    split_ifs with hij
    · subst hij
      exact List.getD_eq_getElem _ _ h
    · rfl

theorem copyCells_fold (grid : Grid) (d s : Nat) (hds : d ≠ s) (hd : d < grid.length)
    (n : Nat) (hnS : n ≤ (grid.getD s []).length) (hnD : n ≤ (grid.getD d []).length) :
    (List.range n).foldl (fun gr x => setCell gr d x (cell gr s x)) grid =
      grid.set d ((grid.getD s []).take n ++ (grid.getD d []).drop n) := by
  induction n with
  | zero =>
    simp only [List.range_zero, List.foldl_nil, List.take_zero, List.drop_zero, List.nil_append]
    exact (set_getD_self grid d [] hd).symm
  | succ n ih =>
    rw [List.range_succ, List.foldl_append, ih (by omega) (by omega)]
    simp only [List.foldl_cons, List.foldl_nil, setCell, cell]
    have e1 : (grid.set d (List.take n (grid.getD s []) ++ List.drop n (grid.getD d []))).getD d []
        = List.take n (grid.getD s []) ++ List.drop n (grid.getD d []) := by
      rw [List.getD_eq_getElem _ _ (by simpa using hd)]
      simp
    have e2 : (grid.set d (List.take n (grid.getD s []) ++ List.drop n (grid.getD d []))).getD s []
        = grid.getD s [] := by
      simp [List.getD_eq_getElem?_getD, List.getElem?_set_ne hds]
    rw [e1, e2, List.set_set, take_drop_set _ _ _ (by omega) (by omega)]

theorem copyRowAbove_eq (grid : Grid) (y : Nat) (hy : y + 1 < grid.length)
    (h1 : (grid.getD y []).length = 10) (h2 : (grid.getD (y + 1) []).length = 10) :
    copyRowAbove grid (y + 1) = grid.set (y + 1) (grid.getD y []) := by
  unfold copyRowAbove
  have := copyCells_fold grid (y + 1) y (by omega) hy 10 (by omega) (by omega)
  simp only [GridWidth, Nat.add_sub_cancel]
  have e : (10 : Int).toNat = 10 := rfl
  rw [e, this]
  rw [List.take_of_length_le (by omega), List.drop_of_length_le (by omega)]
  simp

theorem set_succ_eraseIdx {α : Type} (l : List α) (y : Nat) (dflt : α) (h : y + 1 < l.length) :
    (l.set (y + 1) (l.getD y dflt)).eraseIdx y = l.eraseIdx (y + 1) := by
  induction l generalizing y with
  | nil => simp at h
  | cons a t ih =>
    cases y with
    | zero =>
      cases t with
      | nil => simp at h
      | cons b t2 => simp
    | succ y2 =>
      simp only [List.length_cons] at h
      have := ih y2 (by omega)
      simpa using this

theorem getD_length_of_wf (grid : Grid) (hrows : ∀ row ∈ grid, row.length = 10) (y : Nat)
    (hy : y < grid.length) : (grid.getD y []).length = 10 := by
  rw [List.getD_eq_getElem _ _ hy]
  exact hrows _ (List.getElem_mem hy)

theorem shiftDown_eq (grid : Grid) (y : Nat) (hy : y < grid.length)
    (hrows : ∀ row ∈ grid, row.length = 10) :
    shiftDown grid y = grid.getD 0 [] :: grid.eraseIdx y := by
  induction y generalizing grid with
  | zero =>
    cases grid with
    | nil => simp at hy
    | cons a t => simp [shiftDown]
  | succ y ih =>
    have hlen1 := getD_length_of_wf grid hrows y (by omega)
    have hlen2 := getD_length_of_wf grid hrows (y + 1) hy
    simp only [shiftDown]
    rw [copyRowAbove_eq grid y hy hlen1 hlen2]
    rw [ih (grid.set (y + 1) (grid.getD y [])) (by simpa using (by omega : y < grid.length))]
    · rw [set_succ_eraseIdx grid y [] hy]
      congr 1
      simp [List.getElem?_set_ne]
    · intro row hrow
      rcases List.mem_or_eq_of_mem_set hrow with h | h
      · exact hrows row h
      · rw [h]; exact hlen1

theorem all_range_getD (l : List Int) :
    (List.range l.length).all (fun x => l.getD x 0 != 0) = l.all (fun v => v != 0) := by
  rw [Bool.eq_iff_iff]
  simp only [List.all_eq_true, List.mem_range]
  constructor
  · intro h v hv
    obtain ⟨i, hi, rfl⟩ := List.mem_iff_getElem.mp hv
    have := h i hi
    rwa [List.getD_eq_getElem _ _ hi] at this
  · intro h i hi
    rw [List.getD_eq_getElem _ _ hi]
    exact h _ (List.getElem_mem hi)

theorem rowFull_eq (grid : Grid) (y : Nat) (h : (grid.getD y []).length = 10) :
    rowFull grid y = rowIsFull (grid.getD y []) := by
  unfold rowFull rowIsFull cell
  have e : GridWidth.toNat = (grid.getD y []).length := by rw [h]; rfl
  rw [e]
  exact all_range_getD _

theorem checkSpecialLine_eq_rowFull (grid : Grid) (y : Nat) :
    checkSpecialLine grid y = rowFull grid y := rfl

/-! ## Line clearing: the scan invariant -/

theorem countP_add_length_filter_not {α : Type} (p : α → Bool) (l : List α) :
    l.countP p + (l.filter (fun r => !p r)).length = l.length := by
  induction l with
  | nil => simp
  | cons a t ih =>
    cases h : p a
    · simp [List.countP_cons, List.filter_cons, h]; omega
    · simp [List.countP_cons, List.filter_cons, h]; omega

theorem compacted_length (orig : Grid) (y : Nat) (hy : y ≤ orig.length) :
    (compacted orig y).length = y := by
  unfold compacted
  rw [List.length_append, List.length_replicate, countP_add_length_filter_not,
    List.length_take]
  omega

theorem take_succ_getD {α : Type} (l : List α) (y : Nat) (dflt : α) (hy : y < l.length) :
    l.take (y + 1) = l.take y ++ [l.getD y dflt] := by
  rw [List.take_succ, List.getD_eq_getElem _ _ hy, List.getElem?_eq_getElem hy]
  rfl

theorem drop_getD_cons {α : Type} (l : List α) (y : Nat) (dflt : α) (hy : y < l.length) :
    l.drop y = l.getD y dflt :: l.drop (y + 1) := by
  rw [List.getD_eq_getElem _ _ hy]
  exact List.drop_eq_getElem_cons hy

theorem compacted_succ_full (orig : Grid) (y : Nat) (hy : y < orig.length)
    (hf : rowIsFull (orig.getD y []) = true) :
    compacted orig (y + 1) = orig.getD 0 [] :: compacted orig y := by
  unfold compacted
  rw [take_succ_getD orig y [] hy]
  generalize orig.getD y [] = r at hf
  generalize orig.getD 0 [] = r0
  simp [List.countP_append, List.filter_append, hf, List.replicate_succ]

theorem compacted_succ_notFull (orig : Grid) (y : Nat) (hy : y < orig.length)
    (hf : rowIsFull (orig.getD y []) = false) :
    compacted orig (y + 1) = compacted orig y ++ [orig.getD y []] := by
  unfold compacted
  rw [take_succ_getD orig y [] hy]
  generalize orig.getD y [] = r at hf
  generalize orig.getD 0 [] = r0
  simp [List.countP_append, List.filter_append, hf]

theorem compacted_rows (orig : Grid) (hrows : ∀ row ∈ orig, row.length = 10) (y : Nat)
    (hpos : 0 < orig.length) :
    ∀ row ∈ compacted orig y ++ orig.drop y, row.length = 10 := by
  intro row hrow
  unfold compacted at hrow
  simp only [List.mem_append, List.mem_replicate, List.mem_filter] at hrow
  rcases hrow with (⟨_, h⟩ | ⟨h, _⟩) | h
  · rw [h]; exact getD_length_of_wf orig hrows 0 hpos
  · exact hrows row (List.mem_of_mem_take h)
  · exact hrows row (List.mem_of_mem_drop h)

theorem compacted_getD_here (orig : Grid) (y : Nat) (hy : y < orig.length) :
    (compacted orig y ++ orig.drop y).getD y [] = orig.getD y [] := by
  rw [drop_getD_cons orig y [] hy]
  have hl := compacted_length orig y (by omega)
  rw [List.getD_eq_getElem?_getD, List.getElem?_append_right (by omega), hl]
  simp

theorem compacted_head (orig : Grid) (y : Nat) :
    (compacted orig y ++ orig.drop y).getD 0 [] = orig.getD 0 [] := by
  by_cases hc : (orig.take y).countP rowIsFull = 0
  · have hall : ∀ a ∈ orig.take y, (fun r => !rowIsFull r) a = true := by
      intro a ha
      have := (List.countP_eq_zero.mp hc) a ha
      simpa using this
    unfold compacted
    rw [hc, List.filter_eq_self.mpr hall]
    simp
  · unfold compacted
    obtain ⟨c, hc2⟩ := Nat.exists_eq_succ_of_ne_zero hc
    rw [hc2, List.replicate_succ]
    simp

theorem compacted_eraseIdx (orig : Grid) (y : Nat) (hy : y < orig.length) :
    (compacted orig y ++ orig.drop y).eraseIdx y = compacted orig y ++ orig.drop (y + 1) := by
  have hl := compacted_length orig y (by omega)
  rw [List.eraseIdx_append_of_length_le (by omega), hl]
  simp

theorem clear_fold (orig : Grid) (hwf : orig.WF) (y : Nat) (hy : y ≤ 17) :
    (List.range y).foldl clearStep { grid := orig, lines := 0, specialLines := 0 } =
      { grid := compacted orig y ++ orig.drop y
        lines := ((orig.take y).countP rowIsFull : Nat)
        specialLines := ((orig.take y).countP rowIsFull : Nat) } := by
  obtain ⟨hlen, hrows⟩ := hwf
  induction y with
  | zero => simp [compacted]
  | succ y ih =>
    have hy2 : y < orig.length := by omega
    rw [List.range_succ, List.foldl_append, ih (by omega)]
    simp only [List.foldl_cons, List.foldl_nil]
    have hrows2 := compacted_rows orig hrows y (by omega)
    have hrow : rowFull (compacted orig y ++ orig.drop y) y = rowIsFull (orig.getD y []) := by
      rw [rowFull_eq, compacted_getD_here orig y hy2]
      rw [compacted_getD_here orig y hy2]
      exact getD_length_of_wf orig hrows y hy2
    have hlenc : (compacted orig y ++ orig.drop y).length = 17 := by
      rw [List.length_append, compacted_length orig y (by omega), List.length_drop]
      omega
    unfold clearStep
    simp only [checkSpecialLine_eq_rowFull, hrow]
    cases hf : rowIsFull (orig.getD y [])
    · simp only [Bool.false_eq_true, if_false]
      rw [compacted_succ_notFull orig y hy2 hf, take_succ_getD orig y [] hy2,
        List.append_assoc, List.singleton_append, ← drop_getD_cons orig y [] hy2]
      generalize orig.getD y [] = r at hf
      simp [List.countP_append, List.countP_cons, hf]
    · simp only [if_true]
      rw [shiftDown_eq _ y (by omega) hrows2, compacted_head orig y,
        compacted_eraseIdx orig y hy2, compacted_succ_full orig y hy2 hf,
        take_succ_getD orig y [] hy2]
      generalize orig.getD y [] = r at hf
      generalize orig.getD 0 [] = r0
      simp [List.countP_append, List.countP_cons, hf]

theorem clearLoop_eq (orig : Grid) (hwf : orig.WF) :
    clearLoop orig =
      { grid := List.replicate (orig.countP rowIsFull) (orig.getD 0 []) ++
          orig.filter (fun r => !rowIsFull r)
        lines := (orig.countP rowIsFull : Nat)
        specialLines := (orig.countP rowIsFull : Nat) } := by
  unfold clearLoop
  have e : GridHeight.toNat = 17 := rfl
  rw [e, clear_fold orig hwf 17 (le_refl _)]
  have ht : orig.take 17 = orig := List.take_of_length_le (by rw [hwf.1])
  have hd : orig.drop 17 = [] := List.drop_of_length_le (by rw [hwf.1])
  unfold compacted
  rw [ht, hd]
  simp

theorem map_getD_range {α : Type} (l : List α) (dflt : α) :
    (List.range l.length).map (fun i => l.getD i dflt) = l := by
  apply List.ext_getElem
  · simp
  · intro i h1 h2
    simp only [List.getElem_map, List.getElem_range]
    exact List.getD_eq_getElem _ _ h2

theorem rows_eq_map (grid : Grid) (hwf : grid.WF) :
    (List.range 17).map (fun y => grid.getD y []) = grid := by
  have := map_getD_range grid []
  rwa [hwf.1] at this

theorem rowFull_eq_of_wf (grid : Grid) (hwf : grid.WF) (y : Nat) (hy : y < 17) :
    rowFull grid y = rowIsFull (grid.getD y []) :=
  rowFull_eq grid y (getD_length_of_wf grid hwf.2 y (by rw [hwf.1]; exact hy))

theorem countP_rowIsFull_eq (grid : Grid) (hwf : grid.WF) :
    grid.countP rowIsFull = ((List.range 17).filter (fun y => rowFull grid y)).length := by
  conv_lhs => rw [← rows_eq_map grid hwf]
  rw [List.countP_map, List.countP_eq_length_filter]
  congr 1
  apply List.filter_congr
  intro y hy
  rw [List.mem_range] at hy
  simp [rowFull_eq_of_wf grid hwf y hy]

theorem filter_notFull_eq (grid : Grid) (hwf : grid.WF) :
    grid.filter (fun r => !rowIsFull r) =
      ((List.range 17).filter (fun y => !rowFull grid y)).map (fun y => grid.getD y []) := by
  conv_lhs => rw [← rows_eq_map grid hwf]
  rw [List.filter_map]
  congr 1
  apply List.filter_congr
  intro y hy
  rw [List.mem_range] at hy
  simp [rowFull_eq_of_wf grid hwf y hy]

theorem countP_drop_eq (grid : Grid) (hwf : grid.WF) (y : Nat) (hy : y < 17) :
    (grid.drop (y + 1)).countP rowIsFull =
      ((List.range 17).filter (fun z => decide (y < z) && rowFull grid z)).length := by
  conv_lhs => rw [← rows_eq_map grid hwf]
  rw [← List.map_drop, List.countP_map, List.countP_eq_length_filter]
  have e : (List.range 17).drop (y + 1) = (List.range 17).filter (fun z => decide (y < z)) := by
    interval_cases y <;> decide
  rw [e, List.filter_filter]
  congr 1
  apply List.filter_congr
  intro z hz
  rw [List.mem_range] at hz
  simp [rowFull_eq_of_wf grid hwf z hz, Bool.and_comm]

/-! ## Line clearing: the claims -/

theorem checkAndClearMatches_grid (g : Game) :
    (checkAndClearMatches g).grid = (clearLoop g.grid).grid := by
  unfold checkAndClearMatches
  by_cases h : (clearLoop g.grid).lines > 0
  · rw [if_pos h]
  · rw [if_neg h]

/-- C2: the number of lines counted by the scan of `checkAndClearMatches`
equals the number of rows of the board before the call that are completely
full; a board with exactly rows 2 and 5 full gives `lines = 2`. -/
theorem checkAndClearMatches_lines (grid : Grid) (hwf : grid.WF) :
    (clearLoop grid).lines = (((List.range 17).filter (fun y => rowFull grid y)).length : Nat) ∧
    ((∀ y, y < 17 → (rowFull grid y = true ↔ (y = 2 ∨ y = 5))) →
      (clearLoop grid).lines = 2) := by
  have h1 : (clearLoop grid).lines =
      (((List.range 17).filter (fun y => rowFull grid y)).length : Nat) := by
    rw [clearLoop_eq grid hwf, countP_rowIsFull_eq grid hwf]
  refine ⟨h1, ?_⟩
  intro h
  rw [h1]
  have e : (List.range 17).filter (fun y => rowFull grid y) =
      (List.range 17).filter (fun y => decide (y = 2 ∨ y = 5)) := by
    apply List.filter_congr
    intro y hy
    rw [List.mem_range] at hy
    have := h y hy
    rw [Bool.eq_iff_iff]
    simpa using this
  rw [e]
  rfl

theorem checkAndClearMatches_lines_witness :
    twoFullGrid.WF ∧
    ((clearLoop twoFullGrid).lines =
        (((List.range 17).filter (fun y => rowFull twoFullGrid y)).length : Nat) ∧
      ((∀ y, y < 17 → (rowFull twoFullGrid y = true ↔ (y = 2 ∨ y = 5))) →
        (clearLoop twoFullGrid).lines = 2)) :=
  ⟨by decide, checkAndClearMatches_lines twoFullGrid (by decide)⟩

theorem getD_replicate_filter_split {α : Type} (p : α → Bool) (A B : List α) (r r0 dflt : α)
    (hr : p r = false) :
    (List.replicate ((A ++ r :: B).countP p) r0 ++
        (A ++ r :: B).filter (fun a => !p a)).getD (A.length + B.countP p) dflt = r := by
  have hlen := countP_add_length_filter_not p A
  have e1 : (A ++ r :: B).countP p = A.countP p + B.countP p := by
    simp [List.countP_append, List.countP_cons, hr]
  have e2 : (A ++ r :: B).filter (fun a => !p a) =
      A.filter (fun a => !p a) ++ r :: B.filter (fun a => !p a) := by
    simp [List.filter_append, List.filter_cons, hr]
  rw [e1, e2, ← List.append_assoc]
  rw [List.getD_append_right _ _ _ _ (by
    rw [List.length_append, List.length_replicate]; omega)]
  have hidx : A.length + B.countP p -
      (List.replicate (A.countP p + B.countP p) r0 ++ A.filter (fun a => !p a)).length = 0 := by
    rw [List.length_append, List.length_replicate]; omega
  rw [hidx]
  rfl

theorem clearLoop_row_moved (grid : Grid) (hwf : grid.WF) (y : Nat) (hy : y < 17)
    (hnf : rowFull grid y = false) :
    (clearLoop grid).grid.getD
        (y + ((List.range 17).filter (fun z => decide (y < z) && rowFull grid z)).length) [] =
      grid.getD y [] := by
  have hyl : y < grid.length := by rw [hwf.1]; exact hy
  have hnf2 : rowIsFull (grid.getD y []) = false := by
    rw [← rowFull_eq_of_wf grid hwf y hy]; exact hnf
  rw [clearLoop_eq grid hwf, ← countP_drop_eq grid hwf y hy]
  simp only
  have hsplit : grid = grid.take y ++ grid.getD y [] :: grid.drop (y + 1) := by
    conv_lhs => rw [← List.take_append_drop y grid, drop_getD_cons grid y [] hyl]
  have hty : (grid.take y).length = y := by rw [List.length_take]; omega
  have key := getD_replicate_filter_split rowIsFull (grid.take y) (grid.drop (y + 1))
    (grid.getD y []) (grid.getD 0 []) [] hnf2
  rw [← hsplit, hty] at key
  exact key

theorem clearLoop_wf (grid : Grid) (hwf : grid.WF) : (clearLoop grid).grid.WF := by
  rw [clearLoop_eq grid hwf]
  constructor
  · simp only [List.length_append, List.length_replicate]
    rw [countP_add_length_filter_not]
    exact hwf.1
  · intro row hrow
    simp only [List.mem_append, List.mem_replicate, List.mem_filter] at hrow
    rcases hrow with ⟨_, h⟩ | ⟨h, _⟩
    · rw [h]; exact getD_length_of_wf grid hwf.2 0 (by rw [hwf.1]; omega)
    · exact hwf.2 row h

/-- C4: with `k` the number of full rows of the board, rows `k..16` of the
board after `checkAndClearMatches` are exactly the rows of the input that were
not full, in their original order; each such row has moved down by the number
of full rows below it, and a row with no full row at or below it has not
moved. -/
theorem checkAndClearMatches_rows (g : Game) (hwf : g.grid.WF) :
    (checkAndClearMatches g).grid.WF ∧
    (checkAndClearMatches g).grid.drop
        ((List.range 17).filter (fun y => rowFull g.grid y)).length =
      ((List.range 17).filter (fun y => !rowFull g.grid y)).map (fun y => g.grid.getD y []) ∧
    (∀ y, y < 17 → rowFull g.grid y = false →
      (checkAndClearMatches g).grid.getD
          (y + ((List.range 17).filter
            (fun z => decide (y < z) && rowFull g.grid z)).length) [] =
        g.grid.getD y []) ∧
    (∀ y, y < 17 → (∀ z, y ≤ z → z < 17 → rowFull g.grid z = false) →
      (checkAndClearMatches g).grid.getD y [] = g.grid.getD y []) := by
  rw [checkAndClearMatches_grid]
  refine ⟨clearLoop_wf g.grid hwf, ?_, ?_, ?_⟩
  · rw [clearLoop_eq g.grid hwf, ← countP_rowIsFull_eq g.grid hwf,
      ← filter_notFull_eq g.grid hwf]
    exact List.drop_left' (List.length_replicate _ _)
  · intro y hy hnf
    exact clearLoop_row_moved g.grid hwf y hy hnf
  · intro y hy hall
    have h := clearLoop_row_moved g.grid hwf y hy (hall y (le_refl y) hy)
    have e : (List.range 17).filter (fun z => decide (y < z) && rowFull g.grid z) = [] := by
      rw [List.filter_eq_nil_iff]
      intro z hz
      rw [List.mem_range] at hz
      by_cases hyz : y < z
      · simp [hall z (by omega) hz]
      · simp [hyz]
    rw [e] at h
    exact h

theorem checkAndClearMatches_rows_witness :
    ({ sampleGame with grid := twoFullGrid } : Game).grid.WF ∧
    ((checkAndClearMatches { sampleGame with grid := twoFullGrid }).grid.WF ∧
    (checkAndClearMatches { sampleGame with grid := twoFullGrid }).grid.drop
        ((List.range 17).filter (fun y => rowFull twoFullGrid y)).length =
      ((List.range 17).filter (fun y => !rowFull twoFullGrid y)).map
        (fun y => twoFullGrid.getD y []) ∧
    (∀ y, y < 17 → rowFull twoFullGrid y = false →
      (checkAndClearMatches { sampleGame with grid := twoFullGrid }).grid.getD
          (y + ((List.range 17).filter
            (fun z => decide (y < z) && rowFull twoFullGrid z)).length) [] =
        twoFullGrid.getD y []) ∧
    (∀ y, y < 17 → (∀ z, y ≤ z → z < 17 → rowFull twoFullGrid z = false) →
      (checkAndClearMatches { sampleGame with grid := twoFullGrid }).grid.getD y [] =
        twoFullGrid.getD y [])) :=
  ⟨by decide, checkAndClearMatches_rows { sampleGame with grid := twoFullGrid } (by decide)⟩

/-- C3, evaluation: on `towerGrid` exactly one row (the bottom one) is full and
one line is counted, yet the top row after `checkAndClearMatches` still holds
the occupied cell (0,0): row 0 is never reset.  The same happens on
`twoFullGrid` (rows 2 and 5 full): rows 0 and 1 both hold an occupied cell
afterwards. -/
theorem checkAndClearMatches_top_row_kept :
    towerGrid.WF ∧
    (List.range 17).filter (fun y => rowFull towerGrid y) = [16] ∧
    (clearLoop towerGrid).lines = 1 ∧
    cell (checkAndClearMatches { sampleGame with grid := towerGrid }).grid 0 0 = 1 ∧
    twoFullGrid.WF ∧
    (List.range 17).filter (fun y => rowFull twoFullGrid y) = [2, 5] ∧
    cell (checkAndClearMatches { sampleGame with grid := twoFullGrid }).grid 0 0 = 1 ∧
    cell (checkAndClearMatches { sampleGame with grid := twoFullGrid }).grid 1 0 = 1 := by
  decide

/-! ## lockPiece -/

theorem setCell_wf (grid : Grid) (hwf : grid.WF) (y x : Nat) (v : Int) :
    (setCell grid y x v).WF := by
  unfold setCell
  constructor
  · rw [List.length_set]; exact hwf.1
  · intro row hrow
    rcases List.mem_or_eq_of_mem_set hrow with h | h
    · exact hwf.2 row h
    · rw [h, List.length_set]
      by_cases hy : y < grid.length
      · exact getD_length_of_wf grid hwf.2 y hy
      · exfalso
        rw [List.set_eq_of_length_le (by omega)] at hrow
        have := hwf.2 row hrow
        rw [h, List.length_set, List.getD_eq_default _ _ (by omega)] at this
        simp at this

theorem lockPieceCanLock_eq_canMoveBlocks (g : Game) (blocks : List (Int × Int)) :
    lockPieceCanLock g blocks = canMoveBlocks g 0 0 blocks := by
  induction blocks with
  | nil => rfl
  | cons b rest ih =>
    simp only [lockPieceCanLock, canMoveBlocks, add_zero, ih]

theorem isValidPosition_eq_canMoveBlocks (g : Game) (blocks : List (Int × Int)) :
    isValidPosition g blocks = canMoveBlocks g 0 0 blocks := by
  induction blocks with
  | nil => rfl
  | cons b rest ih =>
    simp only [isValidPosition, canMoveBlocks, add_zero, ih]

theorem canMove_ok_true (g : Game) (dx dy : Int) (h : canMove g dx dy = .ok true) :
    ∃ blocks, shapeAt g.fallingCol g.fallingRotation = some blocks ∧ 0 < blocks.length ∧
      canMoveBlocks g dx dy blocks = true := by
  unfold canMove at h
  cases hs : shapeAt g.fallingCol g.fallingRotation with
  | none => rw [hs] at h; simp at h
  | some blocks =>
    rw [hs] at h
    simp only at h
    by_cases hl : blocks.length > 0
    · rw [if_pos hl] at h
      exact ⟨blocks, rfl, hl, by simpa using h⟩
    · rw [if_neg hl] at h
      simp at h

theorem canMoveBlocks_true_bounds (g : Game) (dx dy : Int) (blocks : List (Int × Int))
    (h : canMoveBlocks g dx dy blocks = true) :
    ∀ c ∈ blocks, ¬ blocked g.grid (g.fallingX + c.1 + dx) (g.fallingY + c.2 + dy) := by
  intro c hc hblk
  have : canMoveBlocks g dx dy blocks = false :=
    (canMoveBlocks_eq_false_iff g dx dy blocks).mpr ⟨c, hc, hblk⟩
  rw [h] at this
  exact absurd this (by decide)

theorem lockPieceCommit_ok (blocks : List (Int × Int)) (g : Game) (hwf : g.grid.WF)
    (hb : ∀ c ∈ blocks, 0 ≤ g.fallingX + c.1 ∧ g.fallingX + c.1 < 10 ∧ g.fallingY + c.2 < 17) :
    ∃ grid2 : Grid, grid2.WF ∧ lockPieceCommit g blocks = .ok { g with grid := grid2 } := by
  induction blocks generalizing g with
  | nil => exact ⟨g.grid, hwf, rfl⟩
  | cons b rest ih =>
    obtain ⟨h1, h2, h3⟩ := hb b (List.mem_cons_self _ _)
    have hrest : ∀ c ∈ rest,
        0 ≤ g.fallingX + c.1 ∧ g.fallingX + c.1 < 10 ∧ g.fallingY + c.2 < 17 :=
      fun c hc => hb c (List.mem_cons_of_mem _ hc)
    simp only [lockPieceCommit, GridWidth, GridHeight]
    by_cases hy : g.fallingY + b.2 ≥ 0
    · rw [if_pos hy, if_neg (by omega)]
      obtain ⟨grid2, hwf2, he⟩ := ih
        { g with grid := (setCell g.grid (g.fallingY + b.2).toNat (g.fallingX + b.1).toNat
            g.fallingCol) }
        (setCell_wf g.grid hwf _ _ _) hrest
      exact ⟨grid2, hwf2, he⟩
    · rw [if_neg hy]
      exact ih g hwf hrest

theorem clearLoop_lines_eq (grid : Grid) (hwf : grid.WF) :
    (clearLoop grid).lines =
      (((List.range 17).filter (fun y => rowFull grid y)).length : Nat) := by
  rw [clearLoop_eq grid hwf, countP_rowIsFull_eq grid hwf]

theorem clearLoop_lines_zero (grid : Grid) (hwf : grid.WF)
    (h : ∀ y, y < 17 → rowFull grid y = false) : (clearLoop grid).lines = 0 := by
  rw [clearLoop_lines_eq grid hwf]
  have e : (List.range 17).filter (fun y => rowFull grid y) = [] := by
    rw [List.filter_eq_nil_iff]
    intro y hy
    rw [List.mem_range] at hy
    simp [h y hy]
  rw [e]
  rfl

theorem checkAndClearMatches_score_no_full (g : Game) (hwf : g.grid.WF)
    (h : ∀ y, y < 17 → rowFull g.grid y = false) :
    (checkAndClearMatches g).score = g.score := by
  unfold checkAndClearMatches
  rw [if_neg (by rw [clearLoop_lines_zero g.grid hwf h]; decide)]

/-- C5: when the active piece is validly placed and the committed grid has no
full row, `lockPiece` returns and has increased the score by exactly 10 for a
piece that is not special and by exactly 110 for a special one. -/
theorem lockPiece_score_no_clear (g : Game) (hwf : g.grid.WF)
    (hvalid : canMove g 0 0 = .ok true)
    (hno : ∀ blocks g1, shapeAt g.fallingCol g.fallingRotation = some blocks →
      lockPieceCommit (lockPieceAdjust g blocks) blocks = .ok g1 →
      ∀ y, y < 17 → rowFull g1.grid y = false) :
    ∃ g2, lockPiece g = .ok g2 ∧
      (g.fallingSpecial = false → g2.score = g.score + 10) ∧
      (g.fallingSpecial = true → g2.score = g.score + 110) := by
  obtain ⟨blocks, hs, _, hfit⟩ := canMove_ok_true g 0 0 hvalid
  have hadj : lockPieceAdjust g blocks = g := by
    unfold lockPieceAdjust
    rw [lockPieceCanLock_eq_canMoveBlocks, hfit]
    rfl
  have hb : ∀ c ∈ blocks,
      0 ≤ g.fallingX + c.1 ∧ g.fallingX + c.1 < 10 ∧ g.fallingY + c.2 < 17 := by
    intro c hc
    have := canMoveBlocks_true_bounds g 0 0 blocks hfit c hc
    unfold blocked at this
    omega
  obtain ⟨grid2, hwf2, hcommit⟩ := lockPieceCommit_ok blocks g hwf hb
  have hnofull := hno blocks _ hs (by rw [hadj]; exact hcommit)
  refine ⟨checkAndClearMatches (lockPieceScore { g with grid := grid2 }), ?_, ?_, ?_⟩
  · unfold lockPiece
    rw [hs]
    simp only [hadj, hcommit]
  · intro hsp
    rw [checkAndClearMatches_score_no_full _ (by unfold lockPieceScore; split_ifs <;> exact hwf2)
      (by unfold lockPieceScore; split_ifs <;> exact hnofull)]
    unfold lockPieceScore
    simp [hsp]
  · intro hsp
    rw [checkAndClearMatches_score_no_full _ (by unfold lockPieceScore; split_ifs <;> exact hwf2)
      (by unfold lockPieceScore; split_ifs <;> exact hnofull)]
    unfold lockPieceScore
    simp [hsp]
    ring

theorem lockPiece_score_no_clear_witness :
    (floorGame.grid.WF ∧ canMove floorGame 0 0 = .ok true ∧
      ∀ blocks g1, shapeAt floorGame.fallingCol floorGame.fallingRotation = some blocks →
        lockPieceCommit (lockPieceAdjust floorGame blocks) blocks = .ok g1 →
        ∀ y, y < 17 → rowFull g1.grid y = false) ∧
    ∃ g2, lockPiece floorGame = .ok g2 ∧
      (floorGame.fallingSpecial = false → g2.score = floorGame.score + 10) ∧
      (floorGame.fallingSpecial = true → g2.score = floorGame.score + 110) := by
  have hno : ∀ blocks g1, shapeAt floorGame.fallingCol floorGame.fallingRotation = some blocks →
      lockPieceCommit (lockPieceAdjust floorGame blocks) blocks = .ok g1 →
      ∀ y, y < 17 → rowFull g1.grid y = false := by
    intro blocks g1 hs hc
    have hs2 : shapeAt floorGame.fallingCol floorGame.fallingRotation =
        some [(0, 0), (1, 0), (2, 0), (3, 0)] := by decide
    rw [hs2] at hs
    cases hs
    have hc2 : lockPieceCommit (lockPieceAdjust floorGame [(0, 0), (1, 0), (2, 0), (3, 0)])
        [(0, 0), (1, 0), (2, 0), (3, 0)] =
        .ok { floorGame with grid := List.replicate 16 emptyRow ++
          [[0, 0, 0, 0, 0, 1, 1, 1, 1, 0]] } := by decide
    rw [hc2] at hc
    cases hc
    decide
  exact ⟨⟨by decide, by decide, hno⟩,
    lockPiece_score_no_clear floorGame (by decide) (by decide) hno⟩

/-! ## Scoring of cleared lines, level logic -/

/-- C6, evaluation: locking the piece of `lineGame` completes exactly one row;
one line and one special line are counted and the line-clear award is
`linePoints 1 1 = 500` (not 100 + 200), so the score goes from 0 to 510; for
four lines the award is `linePoints 4 4 = 2400` (not 800 + 4 * 200). -/
theorem lockPiece_one_line_award :
    lineGame.grid.WF ∧ canMove lineGame 0 0 = .ok true ∧
    (clearLoop (List.replicate 16 emptyRow ++ [[2, 2, 2, 2, 2, 1, 1, 1, 1, 2]])).lines = 1 ∧
    (clearLoop (List.replicate 16 emptyRow ++ [[2, 2, 2, 2, 2, 1, 1, 1, 1, 2]])).specialLines = 1 ∧
    linePoints 1 1 = 500 ∧
    (lockPiece lineGame).returned = true ∧
    (lockPiece lineGame).state.score = lineGame.score + 10 + 500 ∧
    linePoints 4 4 = 2400 := by
  decide

theorem maxInt_eq_max (a b : Int) : maxInt a b = max a b := by
  unfold maxInt
  split_ifs with h
  · exact (max_eq_left (le_of_lt h)).symm
  · exact (max_eq_right (not_lt.mp h)).symm

theorem changeBgmForLevel_state (g : Game) :
    ∃ c, (changeBgmForLevel g).state = { g with currentBgm := c } := by
  unfold changeBgmForLevel
  dsimp only
  split_ifs <;> first
    | exact ⟨g.currentBgm, rfl⟩
    | exact ⟨goMod (g.level - 1) 8, rfl⟩

theorem changeBgmForLevel_returned (g : Game)
    (h : 0 ≤ g.currentBgm ∧ g.currentBgm < 6 ∧ goMod (g.level - 1) 8 < 6) (hl : 1 ≤ g.level) :
    (changeBgmForLevel g).returned = true := by
  have hm : 0 ≤ goMod (g.level - 1) 8 := by
    unfold goMod
    rw [Int.tmod_eq_emod (by omega) (by omega)]
    omega
  unfold changeBgmForLevel
  dsimp only [bgmsLen]
  rw [if_neg (by omega)]
  by_cases h2 : goMod (g.level - 1) 8 ≠ g.currentBgm
  · rw [if_pos h2]
    dsimp only
    rw [if_neg (by omega)]
    rfl
  · rw [if_neg h2, if_neg (by omega)]
    rfl

theorem nextLevel_state (g : Game) :
    ∃ c, (nextLevel g).state =
      { g with level := g.level + 1, timer := g.timeLimit,
               speed := maxInt 5 (VelocidadInicial - (g.level + 1) * 6), currentBgm := c } := by
  unfold nextLevel
  obtain ⟨c, hc⟩ := changeBgmForLevel_state
    { g with level := g.level + 1, timer := g.timeLimit,
             speed := maxInt 5 (VelocidadInicial - (g.level + 1) * 6) }
  exact ⟨c, hc⟩

theorem gameOver_state (g : Game) :
    (gameOver g).state.Estado = EstadoGameOver ∧ (gameOver g).state.level = g.level ∧
    (gameOver g).state.grid = g.grid ∧ (gameOver g).state.score = g.score := by
  unfold gameOver
  simp only
  split_ifs <;> exact ⟨rfl, rfl, rfl, rfl⟩

/-- C8: for every level `L >= 1` the state left by `nextLevel` has level `L+1`
and fall speed `max 5 (60 - 6*(L+1))`; hence the speed is at least 5, the
speed set at level `L+2` is not above the one set at level `L+1` (nor is the
first one above the initial 60), and it is 5 once the new level is at least
10.  The call returns normally when the track indices are inside `bgms`. -/
theorem nextLevel_level_speed (g : Game) (hL : 1 ≤ g.level) :
    (nextLevel g).state.level = g.level + 1 ∧
    (nextLevel g).state.speed = max 5 (60 - 6 * (g.level + 1)) ∧
    5 ≤ (nextLevel g).state.speed ∧
    (∀ g2 : Game, g2.level = g.level + 1 →
      (nextLevel g2).state.speed ≤ (nextLevel g).state.speed) ∧
    (g.level = 1 → g.speed = VelocidadInicial → (nextLevel g).state.speed ≤ g.speed) ∧
    (10 ≤ g.level + 1 → (nextLevel g).state.speed = 5) ∧
    (0 ≤ g.currentBgm ∧ g.currentBgm < 6 ∧ goMod g.level 8 < 6 →
      (nextLevel g).returned = true) := by
  obtain ⟨c, hc⟩ := nextLevel_state g
  have hsp : (nextLevel g).state.speed = max 5 (60 - 6 * (g.level + 1)) := by
    rw [hc]
    simp only [maxInt_eq_max, VelocidadInicial]
    congr 1
    ring
  refine ⟨by rw [hc], hsp, ?_, ?_, ?_, ?_, ?_⟩
  · rw [hsp]; exact le_max_left _ _
  · intro g2 h2
    obtain ⟨c2, hc2⟩ := nextLevel_state g2
    rw [hsp, hc2]
    simp only [maxInt_eq_max, VelocidadInicial, h2]
    apply max_le_max (le_refl _)
    omega
  · intro h1 h60
    rw [hsp, h60, h1]
    decide
  · intro h10
    rw [hsp]
    apply max_eq_left
    omega
  · intro hb
    unfold nextLevel
    apply changeBgmForLevel_returned
    · simpa using hb
    · show 1 ≤ g.level + 1
      omega

theorem nextLevel_level_speed_witness :
    1 ≤ sampleGame.level ∧
    ((nextLevel sampleGame).state.level = sampleGame.level + 1 ∧
    (nextLevel sampleGame).state.speed = max 5 (60 - 6 * (sampleGame.level + 1)) ∧
    5 ≤ (nextLevel sampleGame).state.speed ∧
    (∀ g2 : Game, g2.level = sampleGame.level + 1 →
      (nextLevel g2).state.speed ≤ (nextLevel sampleGame).state.speed) ∧
    (sampleGame.level = 1 → sampleGame.speed = VelocidadInicial →
      (nextLevel sampleGame).state.speed ≤ sampleGame.speed) ∧
    (10 ≤ sampleGame.level + 1 → (nextLevel sampleGame).state.speed = 5) ∧
    (0 ≤ sampleGame.currentBgm ∧ sampleGame.currentBgm < 6 ∧ goMod sampleGame.level 8 < 6 →
      (nextLevel sampleGame).returned = true)) :=
  ⟨by decide, nextLevel_level_speed sampleGame (by decide)⟩

theorem gameOver_state_eq (g : Game) :
    ∃ hs, (gameOver g).state = { g with Estado := EstadoGameOver, highScores := hs } := by
  unfold gameOver
  dsimp only
  split_ifs
  · exact ⟨g.highScores, rfl⟩
  · exact ⟨_, rfl⟩

theorem gameOver_returned (g : Game) (h : 0 ≤ g.currentBgm ∧ g.currentBgm < 6) :
    (gameOver g).returned = true := by
  unfold gameOver
  dsimp only [bgmsLen]
  rw [if_neg (by omega)]
  rfl

theorem checkLevelComplete_iff (g : Game) :
    checkLevelComplete g = true ↔ ((countOccupied g.grid : ℚ) / 170 < 99 / 100) := by
  unfold checkLevelComplete
  simp only [GridWidth, GridHeight, decide_eq_true_eq]
  norm_num

theorem fill_ratio_iff (occ : Int) : ((occ : ℚ) / 170 < 99 / 100) ↔ occ ≤ 168 := by
  rw [div_lt_iff₀ (by norm_num : (0 : ℚ) < 170)]
  constructor
  · intro h
    have h2 : (occ : ℚ) < 169 := by linarith
    have h3 : occ < 169 := by exact_mod_cast h2
    omega
  · intro h
    have h2 : (occ : ℚ) ≤ 168 := by exact_mod_cast h
    linarith

/-- C7: in a tick whose decrement brings the timer to 0 or below, the timer
block of `updateGame` raises the level by one and resets the timer to 122 when
the fill ratio `occupied/170` is below 0.99 (the session state is kept), and
otherwise sets the session state to Game Over without changing the level; when
the timer stays above 0, or no second has elapsed, neither the level nor the
session state changes. -/
theorem updateGameTimer_expiry (g : Game) (hlimit : g.timeLimit = LevelTimeLimitSeconds) :
    (g.timer - 1 ≤ 0 →
      (((countOccupied g.grid : ℚ) / 170 < 99 / 100 →
          (updateGameTimer g true).state.level = g.level + 1 ∧
          (updateGameTimer g true).state.timer = 122 ∧
          (updateGameTimer g true).state.Estado = g.Estado) ∧
       (¬ ((countOccupied g.grid : ℚ) / 170 < 99 / 100) →
          (updateGameTimer g true).state.Estado = EstadoGameOver ∧
          (updateGameTimer g true).state.level = g.level))) ∧
    (0 < g.timer - 1 →
      updateGameTimer g true = .ok { g with timer := g.timer - 1 } ∧
      (updateGameTimer g true).state.level = g.level ∧
      (updateGameTimer g true).state.Estado = g.Estado) ∧
    updateGameTimer g false = .ok g ∧
    (0 ≤ g.level ∧ 0 ≤ g.currentBgm ∧ g.currentBgm < 6 ∧ goMod g.level 8 < 6 →
      (updateGameTimer g true).returned = true) := by
  refine ⟨?_, ?_, rfl, ?_⟩
  · intro hexp
    constructor
    · intro hfill
      have hc : checkLevelComplete { g with timer := g.timer - 1 } = true :=
        (checkLevelComplete_iff _).mpr hfill
      have he : updateGameTimer g true = nextLevel { g with timer := g.timer - 1 } := by
        unfold updateGameTimer
        simp only [if_true]
        rw [if_pos hexp, hc]
        rfl
      obtain ⟨c, hst⟩ := nextLevel_state { g with timer := g.timer - 1 }
      rw [he, hst]
      exact ⟨rfl, by simpa [LevelTimeLimitSeconds] using hlimit, rfl⟩
    · intro hfill
      have hc : checkLevelComplete { g with timer := g.timer - 1 } = false := by
        cases h : checkLevelComplete { g with timer := g.timer - 1 }
        · rfl
        · exact absurd ((checkLevelComplete_iff _).mp h) hfill
      have he : updateGameTimer g true = gameOver { g with timer := g.timer - 1 } := by
        unfold updateGameTimer
        simp only [if_true]
        rw [if_pos hexp, hc]
        rfl
      rw [he]
      have := gameOver_state { g with timer := g.timer - 1 }
      exact ⟨this.1, this.2.1⟩
  · intro hpos
    have he : updateGameTimer g true = .ok { g with timer := g.timer - 1 } := by
      unfold updateGameTimer
      simp only [if_true]
      rw [if_neg (by simpa using hpos)]
    rw [he]
    exact ⟨rfl, rfl, rfl⟩
  · intro hr
    unfold updateGameTimer
    simp only [if_true]
    split_ifs
    · exact gameOver_returned _ ⟨hr.2.1, hr.2.2.1⟩
    · unfold nextLevel
      apply changeBgmForLevel_returned
      · simpa using hr.2
      · show 1 ≤ g.level + 1
        omega
    · rfl

theorem updateGameTimer_expiry_witness :
    expiringGame.timeLimit = LevelTimeLimitSeconds ∧
    ((expiringGame.timer - 1 ≤ 0 →
      (((countOccupied expiringGame.grid : ℚ) / 170 < 99 / 100 →
          (updateGameTimer expiringGame true).state.level = expiringGame.level + 1 ∧
          (updateGameTimer expiringGame true).state.timer = 122 ∧
          (updateGameTimer expiringGame true).state.Estado = expiringGame.Estado) ∧
       (¬ ((countOccupied expiringGame.grid : ℚ) / 170 < 99 / 100) →
          (updateGameTimer expiringGame true).state.Estado = EstadoGameOver ∧
          (updateGameTimer expiringGame true).state.level = expiringGame.level))) ∧
    (0 < expiringGame.timer - 1 →
      updateGameTimer expiringGame true =
        .ok { expiringGame with timer := expiringGame.timer - 1 } ∧
      (updateGameTimer expiringGame true).state.level = expiringGame.level ∧
      (updateGameTimer expiringGame true).state.Estado = expiringGame.Estado) ∧
    updateGameTimer expiringGame false = .ok expiringGame ∧
    (0 ≤ expiringGame.level ∧ 0 ≤ expiringGame.currentBgm ∧ expiringGame.currentBgm < 6 ∧
        goMod expiringGame.level 8 < 6 →
      (updateGameTimer expiringGame true).returned = true)) :=
  ⟨by decide, updateGameTimer_expiry expiringGame (by decide)⟩

/-! ## spawnPiece and rotation -/

theorem spawnPieceAssign_eq (g : Game) (d : Draw) (q0 q1 q2 : Int) (s0 s1 s2 : Bool)
    (hq : g.nextPieces = [q0, q1, q2]) (hs : g.nextSpecial = [s0, s1, s2]) :
    spawnPieceAssign g d =
      { g with fallingX := 5, fallingY := 0, fallingCol := q0, fallingSpecial := s0,
               nextPieces := [q1, q2, (d.intn.val : Int) + 1],
               nextSpecial := [s1, s2, d.special] } := by
  unfold spawnPieceAssign
  have e : List.range 2 = [0, 1] := rfl
  simp only [e, List.foldl_cons, List.foldl_nil, shiftQueue, hq, hs, GridWidth]
  rfl

/-- C9: with queue `(q0,q1,q2)` and flags `(s0,s1,s2)`, the state left by
`spawnPiece` has the previous front as active piece (identifier and special
flag), the previous second and third entries moved to the front and middle,
and the freshly generated piece, with identifier in 1..11, in the last place;
both queue arrays still hold three entries.  The call returns normally when
the new piece identifier, the rotation and the track index are in range. -/
theorem spawnPiece_queue (g : Game) (d : Draw) (q0 q1 q2 : Int) (s0 s1 s2 : Bool)
    (hq : g.nextPieces = [q0, q1, q2]) (hs : g.nextSpecial = [s0, s1, s2]) :
    (spawnPiece g d).state.fallingCol = q0 ∧
    (spawnPiece g d).state.fallingSpecial = s0 ∧
    (spawnPiece g d).state.nextPieces = [q1, q2, (d.intn.val : Int) + 1] ∧
    (spawnPiece g d).state.nextSpecial = [s1, s2, d.special] ∧
    (1 ≤ (d.intn.val : Int) + 1 ∧ (d.intn.val : Int) + 1 ≤ 11) ∧
    (spawnPiece g d).state.nextPieces.length = 3 ∧
    (spawnPiece g d).state.nextSpecial.length = 3 ∧
    (1 ≤ q0 ∧ q0 ≤ 11 ∧ 0 ≤ g.fallingRotation ∧ g.fallingRotation ≤ 3 ∧
        0 ≤ g.currentBgm ∧ g.currentBgm < 6 → (spawnPiece g d).returned = true) := by
  have ha := spawnPieceAssign_eq g d q0 q1 q2 s0 s1 s2 hq hs
  have hd : 1 ≤ (d.intn.val : Int) + 1 ∧ (d.intn.val : Int) + 1 ≤ 11 := by
    have := d.intn.isLt
    omega
  have hst : ∃ est hsc, (spawnPiece g d).state =
      { spawnPieceAssign g d with Estado := est, highScores := hsc } := by
    unfold spawnPiece
    dsimp only
    cases hcm : canMove (spawnPieceAssign g d) 0 0 with
    | error s =>
      unfold canMove at hcm
      cases hsh : shapeAt (spawnPieceAssign g d).fallingCol (spawnPieceAssign g d).fallingRotation with
      | none =>
        rw [hsh] at hcm
        cases hcm
        exact ⟨_, _, rfl⟩
      | some blocks =>
        rw [hsh] at hcm
        dsimp only at hcm
        split_ifs at hcm
    | ok fits =>
      cases fits
      · obtain ⟨hsc, hgo⟩ := gameOver_state_eq (spawnPieceAssign g d)
        exact ⟨_, hsc, hgo⟩
      · exact ⟨_, _, rfl⟩
  obtain ⟨est, hsc, hst⟩ := hst
  rw [hst, ha]
  refine ⟨rfl, rfl, rfl, rfl, hd, rfl, rfl, ?_⟩
  intro hr
  obtain ⟨blocks, hsh, hl⟩ := shapeAt_defined q0 g.fallingRotation hr.1 hr.2.1 hr.2.2.1 hr.2.2.2.1
  have hcm := canMove_eq_ok (spawnPieceAssign g d) 0 0 blocks (by rw [ha]; exact hsh) hl
  unfold spawnPiece
  dsimp only
  rw [hcm]
  dsimp only
  cases canMoveBlocks (spawnPieceAssign g d) 0 0 blocks
  · exact gameOver_returned _ (by rw [ha]; exact ⟨hr.2.2.2.2.1, hr.2.2.2.2.2⟩)
  · rfl

theorem spawnPiece_queue_witness :
    (sampleGame.nextPieces = [1, 2, 3] ∧ sampleGame.nextSpecial = [false, true, false]) ∧
    ((spawnPiece sampleGame sampleDraw).state.fallingCol = 1 ∧
    (spawnPiece sampleGame sampleDraw).state.fallingSpecial = false ∧
    (spawnPiece sampleGame sampleDraw).state.nextPieces =
      [2, 3, (sampleDraw.intn.val : Int) + 1] ∧
    (spawnPiece sampleGame sampleDraw).state.nextSpecial = [true, false, sampleDraw.special] ∧
    (1 ≤ (sampleDraw.intn.val : Int) + 1 ∧ (sampleDraw.intn.val : Int) + 1 ≤ 11) ∧
    (spawnPiece sampleGame sampleDraw).state.nextPieces.length = 3 ∧
    (spawnPiece sampleGame sampleDraw).state.nextSpecial.length = 3 ∧
    (1 ≤ (1 : Int) ∧ (1 : Int) ≤ 11 ∧ 0 ≤ sampleGame.fallingRotation ∧
        sampleGame.fallingRotation ≤ 3 ∧
        0 ≤ sampleGame.currentBgm ∧ sampleGame.currentBgm < 6 →
      (spawnPiece sampleGame sampleDraw).returned = true)) :=
  ⟨⟨rfl, rfl⟩, spawnPiece_queue sampleGame sampleDraw 1 2 3 false true false rfl rfl⟩

/-- C10, evaluation: in `rotGame` the I piece (rotation 0) is validly placed,
the shape of rotation 1 is not placeable at the anchor and the shape of
rotation 3 is, yet the rotate request leaves the rotation at 0: the fallback
`(fallingRotation + 3) % 4` is applied to the already incremented index and
tests the original rotation again. -/
theorem rotatePiece_reverse_not_tried :
    rotGame.grid.WF ∧
    canMove rotGame 0 0 = .ok true ∧
    canMove { rotGame with fallingRotation := 1 } 0 0 = .ok false ∧
    canMove { rotGame with fallingRotation := 3 } 0 0 = .ok true ∧
    rotatePiece rotGame = .ok rotGame ∧
    (rotatePiece rotGame).state.fallingRotation = 0 := by
  decide

/-! ## Rotation and spawn: further evaluations -/

/-- C11, evaluation: in `jammedGame` (identifier 1, rotation 0) the shapes of
rotations 1 and 3 are not placeable at the anchor, yet the rotate request
leaves the rotation at 1, not at 0: the fallback tests rotation 0 again and,
that one failing too, the last assignment `(fallingRotation + 1) % 4` moves on
to rotation 1. -/
theorem rotatePiece_both_blocked_moves :
    jammedGame.grid.WF ∧
    jammedGame.fallingCol = 1 ∧ jammedGame.fallingRotation = 0 ∧
    canMove { jammedGame with fallingRotation := 1 } 0 0 = .ok false ∧
    canMove { jammedGame with fallingRotation := 3 } 0 0 = .ok false ∧
    canMove jammedGame 0 0 = .ok false ∧
    rotatePiece jammedGame = .ok { jammedGame with fallingRotation := 1 } ∧
    (rotatePiece jammedGame).state.fallingRotation ≠ jammedGame.fallingRotation := by
  decide

theorem spawnPieceAssign_frame (g : Game) (d : Draw) :
    (spawnPieceAssign g d).fallingX = 5 ∧ (spawnPieceAssign g d).fallingY = 0 ∧
    (spawnPieceAssign g d).fallingRotation = g.fallingRotation ∧
    (spawnPieceAssign g d).grid = g.grid ∧ (spawnPieceAssign g d).score = g.score ∧
    (spawnPieceAssign g d).level = g.level ∧ (spawnPieceAssign g d).Estado = g.Estado ∧
    (spawnPieceAssign g d).highScores = g.highScores ∧
    (spawnPieceAssign g d).currentBgm = g.currentBgm ∧
    (spawnPieceAssign g d).playerName = g.playerName := by
  exact ⟨rfl, rfl, rfl, rfl, rfl, rfl, rfl, rfl, rfl, rfl⟩

theorem canMove_error_state (g : Game) (dx dy : Int) (s : Game)
    (h : canMove g dx dy = .error s) : s = g := by
  unfold canMove at h
  cases hsh : shapeAt g.fallingCol g.fallingRotation with
  | none =>
    rw [hsh] at h
    cases h
    rfl
  | some blocks =>
    rw [hsh] at h
    dsimp only at h
    split_ifs at h

theorem spawnPiece_cases (g : Game) (d : Draw) :
    (∃ s, canMove (spawnPieceAssign g d) 0 0 = .error s ∧
      spawnPiece g d = .error (spawnPieceAssign g d)) ∨
    (canMove (spawnPieceAssign g d) 0 0 = .ok true ∧
      spawnPiece g d = .ok (spawnPieceAssign g d)) ∨
    (canMove (spawnPieceAssign g d) 0 0 = .ok false ∧
      spawnPiece g d = gameOver (spawnPieceAssign g d)) := by
  unfold spawnPiece
  dsimp only
  cases hcm : canMove (spawnPieceAssign g d) 0 0 with
  | error s =>
    left
    have := canMove_error_state _ _ _ _ hcm
    subst this
    exact ⟨_, rfl, rfl⟩
  | ok fits =>
    cases fits
    · right; right; exact ⟨rfl, rfl⟩
    · right; left; exact ⟨rfl, rfl⟩

/-- C12, evaluation: `spawnPiece` puts the anchor at (5, 0) but never assigns
`fallingRotation`: the state it leaves keeps the rotation index of the
previous piece; from `turnedGame` (rotation 1) the new piece has rotation 1. -/
theorem spawnPiece_keeps_rotation :
    (∀ (g : Game) (d : Draw),
      (spawnPiece g d).state.fallingX = 5 ∧ (spawnPiece g d).state.fallingY = 0 ∧
      (spawnPiece g d).state.fallingRotation = g.fallingRotation) ∧
    turnedGame.fallingRotation = 1 ∧
    (spawnPiece turnedGame sampleDraw).returned = true ∧
    (spawnPiece turnedGame sampleDraw).state.fallingRotation = 1 := by
  refine ⟨?_, by decide, by decide, by decide⟩
  intro g d
  have hf := spawnPieceAssign_frame g d
  rcases spawnPiece_cases g d with ⟨s, _, h⟩ | ⟨_, h⟩ | ⟨_, h⟩
  · rw [h]; exact ⟨hf.1, hf.2.1, hf.2.2.1⟩
  · rw [h]; exact ⟨hf.1, hf.2.1, hf.2.2.1⟩
  · obtain ⟨hsc, hgo⟩ := gameOver_state_eq (spawnPieceAssign g d)
    rw [h, hgo]
    exact ⟨hf.1, hf.2.1, hf.2.2.1⟩


/-- C13: from a state that is not Game Over, the state left by `spawnPiece` is
Game Over exactly when `canMove(0, 0)` is false for the newly spawned piece on
the current board; when it is true, `spawnPiece` returns the spawned state
with the session state and the high-score list unchanged. -/
theorem spawnPiece_gameOver_iff (g : Game) (d : Draw) (hnot : g.Estado ≠ EstadoGameOver) :
    ((spawnPiece g d).state.Estado = EstadoGameOver ↔
      canMove (spawnPieceAssign g d) 0 0 = .ok false) ∧
    (canMove (spawnPieceAssign g d) 0 0 = .ok true →
      spawnPiece g d = .ok (spawnPieceAssign g d) ∧
      (spawnPiece g d).state.Estado = g.Estado ∧
      (spawnPiece g d).state.highScores = g.highScores) ∧
    (spawnPieceAssign g d).grid = g.grid ∧
    (spawnPieceAssign g d).fallingX = 5 ∧ (spawnPieceAssign g d).fallingY = 0 := by
  have hf := spawnPieceAssign_frame g d
  refine ⟨?_, ?_, hf.2.2.2.1, hf.1, hf.2.1⟩
  · rcases spawnPiece_cases g d with ⟨s, hc, h⟩ | ⟨hc, h⟩ | ⟨hc, h⟩
    · rw [h, hc]
      constructor
      · intro he
        exact absurd (hf.2.2.2.2.2.2.1 ▸ he) hnot
      · intro he
        cases he
    · rw [h, hc]
      constructor
      · intro he
        exact absurd (hf.2.2.2.2.2.2.1 ▸ he) hnot
      · intro he
        cases he
    · rw [h, hc]
      exact ⟨fun _ => rfl, fun _ => (gameOver_state _).1⟩
  · intro hc
    rcases spawnPiece_cases g d with ⟨s, hc2, h⟩ | ⟨hc2, h⟩ | ⟨hc2, h⟩
    · rw [hc] at hc2; cases hc2
    · rw [h]
      exact ⟨rfl, hf.2.2.2.2.2.2.1, hf.2.2.2.2.2.2.2.1⟩
    · rw [hc] at hc2; cases hc2

theorem spawnPiece_gameOver_iff_witness :
    sampleGame.Estado ≠ EstadoGameOver ∧
    (((spawnPiece sampleGame sampleDraw).state.Estado = EstadoGameOver ↔
      canMove (spawnPieceAssign sampleGame sampleDraw) 0 0 = .ok false) ∧
    (canMove (spawnPieceAssign sampleGame sampleDraw) 0 0 = .ok true →
      spawnPiece sampleGame sampleDraw = .ok (spawnPieceAssign sampleGame sampleDraw) ∧
      (spawnPiece sampleGame sampleDraw).state.Estado = sampleGame.Estado ∧
      (spawnPiece sampleGame sampleDraw).state.highScores = sampleGame.highScores) ∧
    (spawnPieceAssign sampleGame sampleDraw).grid = sampleGame.grid ∧
    (spawnPieceAssign sampleGame sampleDraw).fallingX = 5 ∧
    (spawnPieceAssign sampleGame sampleDraw).fallingY = 0) :=
  ⟨by decide, spawnPiece_gameOver_iff sampleGame sampleDraw (by decide)⟩


/-! ## Horizontal movement -/

theorem moveAttempt_cases (g : Game) (d : Int) :
    (canMove g d 0 = .ok true ∧ moveAttempt g d = .ok { g with fallingX := g.fallingX + d }) ∨
    (canMove g d 0 = .ok false ∧ moveAttempt g d = .ok g) ∨
    (canMove g d 0 = .error g ∧ moveAttempt g d = .error g) := by
  unfold moveAttempt
  cases hcm : canMove g d 0 with
  | error s =>
    have := canMove_error_state _ _ _ _ hcm
    subst this
    right; right; exact ⟨rfl, rfl⟩
  | ok fits =>
    cases fits
    · right; left; exact ⟨rfl, rfl⟩
    · left; exact ⟨rfl, rfl⟩

theorem canMove_congr (g g2 : Game) (dx dy : Int) (b : Bool)
    (h1 : g2.grid = g.grid) (h2 : g2.fallingX = g.fallingX) (h3 : g2.fallingY = g.fallingY)
    (h4 : g2.fallingCol = g.fallingCol) (h5 : g2.fallingRotation = g.fallingRotation) :
    canMove g2 dx dy = .ok b ↔ canMove g dx dy = .ok b := by
  have hb : ∀ blocks, canMoveBlocks g2 dx dy blocks = canMoveBlocks g dx dy blocks := by
    intro blocks
    induction blocks with
    | nil => rfl
    | cons c rest ih => simp only [canMoveBlocks, h1, h2, h3, ih]
  unfold canMove
  rw [h4, h5]
  cases shapeAt g.fallingCol g.fallingRotation with
  | none => simp
  | some blocks =>
    dsimp only
    rw [hb]

/-- C17: a horizontal move attempt in direction `d` (-1 or +1) changes the
anchor column by `d` exactly when `canMove(d, 0)` holds and leaves it
unchanged otherwise; the anchor row, the rotation, the piece identity, the
grid and the score are unchanged in both cases.  The whole movement block of
`updateGame` changes the piece and the board only through such an attempt. -/
theorem moveAttempt_frame (g : Game) (d : Int) (hd : d = -1 ∨ d = 1) :
    ((moveAttempt g d).state.fallingX = g.fallingX + d ↔ canMove g d 0 = .ok true) ∧
    (canMove g d 0 ≠ .ok true → (moveAttempt g d).state.fallingX = g.fallingX) ∧
    ((moveAttempt g d).state.fallingY = g.fallingY ∧
      (moveAttempt g d).state.fallingRotation = g.fallingRotation ∧
      (moveAttempt g d).state.fallingCol = g.fallingCol ∧
      (moveAttempt g d).state.fallingSpecial = g.fallingSpecial ∧
      (moveAttempt g d).state.grid = g.grid ∧
      (moveAttempt g d).state.score = g.score) ∧
    (∀ left right : Bool,
      ((updateGameMove g left right).state.fallingX = g.fallingX ∨
        ((updateGameMove g left right).state.fallingX =
            g.fallingX + (if left then -1 else if right then 1 else 0) ∧
          canMove g (if left then -1 else if right then 1 else 0) 0 = .ok true)) ∧
      (updateGameMove g left right).state.fallingY = g.fallingY ∧
      (updateGameMove g left right).state.fallingRotation = g.fallingRotation ∧
      (updateGameMove g left right).state.fallingCol = g.fallingCol ∧
      (updateGameMove g left right).state.fallingSpecial = g.fallingSpecial ∧
      (updateGameMove g left right).state.grid = g.grid ∧
      (updateGameMove g left right).state.score = g.score) := by
  have hattempt : ∀ (g0 : Game) (e : Int),
      ((moveAttempt g0 e).state.fallingX = g0.fallingX ∨
        ((moveAttempt g0 e).state.fallingX = g0.fallingX + e ∧ canMove g0 e 0 = .ok true)) ∧
      ∃ x, (moveAttempt g0 e).state = { g0 with fallingX := x } ∧
        ((moveAttempt g0 e).returned = true →
          moveAttempt g0 e = .ok { g0 with fallingX := x }) := by
    intro g0 e
    rcases moveAttempt_cases g0 e with ⟨hc, h⟩ | ⟨hc, h⟩ | ⟨hc, h⟩
    · rw [h]; exact ⟨Or.inr ⟨rfl, hc⟩, _, rfl, fun _ => rfl⟩
    · rw [h]; exact ⟨Or.inl rfl, g0.fallingX, rfl, fun _ => rfl⟩
    · rw [h]; exact ⟨Or.inl rfl, g0.fallingX, rfl, fun hr => by cases hr⟩
  refine ⟨?_, ?_, ?_, ?_⟩
  · rcases moveAttempt_cases g d with ⟨hc, h⟩ | ⟨hc, h⟩ | ⟨hc, h⟩
    · rw [h, hc]; exact ⟨fun _ => rfl, fun _ => rfl⟩
    · rw [h, hc]
      constructor
      · intro he
        have he2 : g.fallingX = g.fallingX + d := he
        rcases hd with hd | hd <;> omega
      · intro he; cases he
    · rw [h, hc]
      constructor
      · intro he
        have he2 : g.fallingX = g.fallingX + d := he
        rcases hd with hd | hd <;> omega
      · intro he; cases he
  · intro hne
    rcases moveAttempt_cases g d with ⟨hc, h⟩ | ⟨hc, h⟩ | ⟨hc, h⟩
    · exact absurd hc hne
    · rw [h]; rfl
    · rw [h]; rfl
  · obtain ⟨_, x, hx, _⟩ := hattempt g d
    rw [hx]
    exact ⟨rfl, rfl, rfl, rfl, rfl, rfl⟩
  · intro left right
    unfold updateGameMove
    dsimp only
    generalize hdir : (if left = true then (-1 : Int) else if right = true then 1 else 0) = dir
    by_cases h0 : dir ≠ 0
    · rw [if_pos h0]
      by_cases h1 : dir ≠ g.lastMoveDir
      · rw [if_pos h1]
        obtain ⟨hor, x, hx, hret⟩ := hattempt g dir
        cases hm : moveAttempt g dir with
        | error s =>
          rw [hm] at hx hor
          simp only [Exec.next]
          rw [hx] at hor ⊢
          exact ⟨hor, rfl, rfl, rfl, rfl, rfl, rfl⟩
        | ok g1 =>
          rw [hm] at hx hor
          have hx2 : g1 = { g with fallingX := x } := hx
          simp only [Exec.next]
          rw [hx2] at hor ⊢
          exact ⟨hor, rfl, rfl, rfl, rfl, rfl, rfl⟩
      · rw [if_neg h1]
        split_ifs with h2 h3
        · obtain ⟨g2, hg2⟩ : ∃ g2 : Game, g2 =
              { g with keyHeldFrames := g.keyHeldFrames + 1, moveDelayCounter := g.moveDelayCounter + 1 } :=
            ⟨_, rfl⟩
          rw [← hg2]
          obtain ⟨hor, x, hx, hret⟩ := hattempt g2 dir
          have hcm : ∀ b, canMove g2 dir 0 = .ok b ↔ canMove g dir 0 = .ok b := by
            intro b
            rw [hg2]
            exact canMove_congr g _ dir 0 b rfl rfl rfl rfl rfl
          rw [hcm] at hor
          have hfx : g2.fallingX = g.fallingX := by rw [hg2]
          rw [hfx] at hor
          cases hm : moveAttempt g2 dir with
          | error s =>
            rw [hm] at hx hor
            simp only [Exec.next]
            have hx2 : s = { g2 with fallingX := x } := hx
            rw [hx2, hg2] at hor ⊢
            exact ⟨hor, rfl, rfl, rfl, rfl, rfl, rfl⟩
          | ok g1 =>
            rw [hm] at hx hor
            have hx2 : g1 = { g2 with fallingX := x } := hx
            simp only [Exec.next]
            rw [hx2, hg2] at hor ⊢
            exact ⟨hor, rfl, rfl, rfl, rfl, rfl, rfl⟩
        · exact ⟨Or.inl rfl, rfl, rfl, rfl, rfl, rfl, rfl⟩
        · exact ⟨Or.inl rfl, rfl, rfl, rfl, rfl, rfl, rfl⟩
    · rw [if_neg h0]
      exact ⟨Or.inl rfl, rfl, rfl, rfl, rfl, rfl, rfl⟩

theorem moveAttempt_frame_witness :
    ((1 : Int) = -1 ∨ (1 : Int) = 1) ∧
    (((moveAttempt sampleGame 1).state.fallingX = sampleGame.fallingX + 1 ↔
      canMove sampleGame 1 0 = .ok true) ∧
    (canMove sampleGame 1 0 ≠ .ok true →
      (moveAttempt sampleGame 1).state.fallingX = sampleGame.fallingX) ∧
    ((moveAttempt sampleGame 1).state.fallingY = sampleGame.fallingY ∧
      (moveAttempt sampleGame 1).state.fallingRotation = sampleGame.fallingRotation ∧
      (moveAttempt sampleGame 1).state.fallingCol = sampleGame.fallingCol ∧
      (moveAttempt sampleGame 1).state.fallingSpecial = sampleGame.fallingSpecial ∧
      (moveAttempt sampleGame 1).state.grid = sampleGame.grid ∧
      (moveAttempt sampleGame 1).state.score = sampleGame.score) ∧
    (∀ left right : Bool,
      ((updateGameMove sampleGame left right).state.fallingX = sampleGame.fallingX ∨
        ((updateGameMove sampleGame left right).state.fallingX =
            sampleGame.fallingX + (if left then -1 else if right then 1 else 0) ∧
          canMove sampleGame (if left then -1 else if right then 1 else 0) 0 = .ok true)) ∧
      (updateGameMove sampleGame left right).state.fallingY = sampleGame.fallingY ∧
      (updateGameMove sampleGame left right).state.fallingRotation =
        sampleGame.fallingRotation ∧
      (updateGameMove sampleGame left right).state.fallingCol = sampleGame.fallingCol ∧
      (updateGameMove sampleGame left right).state.fallingSpecial =
        sampleGame.fallingSpecial ∧
      (updateGameMove sampleGame left right).state.grid = sampleGame.grid ∧
      (updateGameMove sampleGame left right).state.score = sampleGame.score)) :=
  ⟨by decide, moveAttempt_frame sampleGame 1 (by decide)⟩

/-! ## Counting occupied cells -/

theorem foldl_ite_count (l : List Nat) (p : Nat → Bool) (occ : Int) :
    l.foldl (fun occ x => if p x = true then occ + 1 else occ) occ = occ + (l.countP p : Nat) := by
  induction l generalizing occ with
  | nil => simp
  | cons a t ih =>
    rw [List.foldl_cons, ih]
    cases h : p a
    · simp [List.countP_cons, h]
    · simp [List.countP_cons, h]
      ring

theorem foldl_add_sum (l : List Nat) (c : Nat → Int) (a : Int) :
    l.foldl (fun occ y => occ + c y) a = a + (l.map c).sum := by
  induction l generalizing a with
  | nil => simp
  | cons b t ih =>
    rw [List.foldl_cons, ih]
    simp
    ring

theorem countOccupied_eq (grid : Grid) :
    countOccupied grid = ((List.range 17).map (fun y => (occRow grid y : Int))).sum := by
  unfold countOccupied
  have e1 : GridHeight.toNat = 17 := rfl
  have e2 : GridWidth.toNat = 10 := rfl
  rw [e1, e2]
  have inner : ∀ (y : Nat) (occ : Int),
      (List.range 10).foldl (fun occ x => if cell grid y x ≠ 0 then occ + 1 else occ) occ =
        occ + (occRow grid y : Int) := by
    intro y occ
    have := foldl_ite_count (List.range 10) (fun x => decide (cell grid y x ≠ 0)) occ
    simp only [decide_eq_true_eq] at this
    exact this
  simp only [inner]
  rw [foldl_add_sum]
  simp

theorem countP_update (l : List Nat) (hl : l.Nodup) (p q : Nat → Bool) (a : Nat) (ha : a ∈ l)
    (hpa : p a = false) (hqa : q a = true) (hother : ∀ x, x ≠ a → q x = p x) :
    l.countP q = l.countP p + 1 := by
  induction l with
  | nil => simp at ha
  | cons b t ih =>
    rw [List.nodup_cons] at hl
    by_cases hba : b = a
    · subst hba
      have ht : t.countP q = t.countP p := by
        apply List.countP_congr
        intro x hx
        have : x ≠ b := fun e => hl.1 (e ▸ hx)
        rw [hother x this]
      simp [List.countP_cons, hpa, hqa, ht]
    · have hat : a ∈ t := by
        rcases List.mem_cons.mp ha with h | h
        · exact absurd h.symm hba
        · exact h
      have := ih hl.2 hat
      simp only [List.countP_cons, this, hother b hba]
      omega

theorem sum_map_update (l : List Nat) (hl : l.Nodup) (c c2 : Nat → Int) (a : Nat) (ha : a ∈ l)
    (hca : c2 a = c a + 1) (hother : ∀ y, y ≠ a → c2 y = c y) :
    (l.map c2).sum = (l.map c).sum + 1 := by
  induction l with
  | nil => simp at ha
  | cons b t ih =>
    rw [List.nodup_cons] at hl
    by_cases hba : b = a
    · subst hba
      have ht : t.map c2 = t.map c := by
        apply List.map_congr_left
        intro x hx
        have : x ≠ b := fun e => hl.1 (e ▸ hx)
        exact hother x this
      simp only [List.map_cons, List.sum_cons, ht, hca]
      ring
    · have hat : a ∈ t := by
        rcases List.mem_cons.mp ha with h | h
        · exact absurd h.symm hba
        · exact h
      have := ih hl.2 hat
      simp only [List.map_cons, List.sum_cons, this, hother b hba]
      ring

theorem cell_setCell (grid : Grid) (hwf : grid.WF) (y0 x0 : Nat) (hy0 : y0 < 17) (hx0 : x0 < 10)
    (v : Int) (y x : Nat) :
    cell (setCell grid y0 x0 v) y x = if y = y0 ∧ x = x0 then v else cell grid y x := by
  have hrow := getD_length_of_wf grid hwf.2 y0 (by rw [hwf.1]; exact hy0)
  unfold cell setCell
  by_cases hy : y = y0
  · subst hy
    have e : (grid.set y ((grid.getD y []).set x0 v)).getD y [] = (grid.getD y []).set x0 v := by
      rw [List.getD_eq_getElem _ _ (by rw [List.length_set, hwf.1]; exact hy0)]
      simp
    rw [e]
    by_cases hx : x = x0
    · subst hx
      rw [if_pos ⟨rfl, rfl⟩, List.getD_eq_getElem _ _ (by rw [List.length_set, hrow]; exact hx0)]
      simp
    · rw [if_neg (fun h => hx h.2)]
      simp [List.getD_eq_getElem?_getD, List.getElem?_set_ne (Ne.symm hx)]
  · rw [if_neg (fun h => hy h.1)]
    simp [List.getD_eq_getElem?_getD, List.getElem?_set_ne (Ne.symm hy)]

theorem countOccupied_setCell (grid : Grid) (hwf : grid.WF) (y0 x0 : Nat) (hy0 : y0 < 17)
    (hx0 : x0 < 10) (v : Int) (hv : v ≠ 0) (hempty : cell grid y0 x0 = 0) :
    countOccupied (setCell grid y0 x0 v) = countOccupied grid + 1 := by
  rw [countOccupied_eq, countOccupied_eq]
  apply sum_map_update (List.range 17) (List.nodup_range 17) _ _ y0 (List.mem_range.mpr hy0)
  · have : occRow (setCell grid y0 x0 v) y0 = occRow grid y0 + 1 := by
      unfold occRow
      apply countP_update (List.range 10) (List.nodup_range 10) _ _ x0 (List.mem_range.mpr hx0)
      · simp [hempty]
      · rw [cell_setCell grid hwf y0 x0 hy0 hx0]
        simp [hv]
      · intro x hx
        rw [cell_setCell grid hwf y0 x0 hy0 hx0]
        simp [hx]
    rw [this]
    push_cast
    rfl
  · intro y hy
    have : occRow (setCell grid y0 x0 v) y = occRow grid y := by
      unfold occRow
      apply List.countP_congr
      intro x _
      rw [cell_setCell grid hwf y0 x0 hy0 hx0]
      simp [hy]
    rw [this]


/-! ## Facts about the shape table -/

theorem shapeAt_mem_table (col rot : Int) (blocks : List (Int × Int))
    (h : shapeAt col rot = some blocks) :
    ∃ shapes ∈ tetrominosTable, blocks ∈ shapes := by
  unfold shapeAt at h
  split_ifs at h with hr
  have hb : blocks ∈ tetrominos col := List.getElem?_mem h
  unfold tetrominos at hb
  split_ifs at hb with hc
  · by_cases hlt : (col - 1).toNat < tetrominosTable.length
    · rw [List.getD_eq_getElem _ _ hlt] at hb
      exact ⟨_, List.getElem_mem hlt, hb⟩
    · rw [List.getD_eq_default _ _ (by omega)] at hb
      simp at hb
  · simp at hb

theorem shapeAt_range (col rot : Int) (blocks : List (Int × Int))
    (h : shapeAt col rot = some blocks) : 1 ≤ col ∧ col ≤ 11 ∧ 0 ≤ rot ∧ rot ≤ 3 := by
  unfold shapeAt at h
  split_ifs at h with hr
  have hlen : rot.toNat < (tetrominos col).length := by
    by_contra hge
    rw [List.getElem?_eq_none (by omega)] at h
    cases h
  unfold tetrominos at hlen
  split_ifs at hlen with hc
  · by_cases hlt : (col - 1).toNat < tetrominosTable.length
    · have h11 : tetrominosTable.length = 11 := rfl
      rw [h11] at hlt
      have h4 : ∀ shapes ∈ tetrominosTable, shapes.length = 4 := by decide
      rw [List.getD_eq_getElem _ _ (by rw [h11]; exact hlt)] at hlen
      rw [h4 _ (List.getElem_mem _)] at hlen
      omega
    · rw [List.getD_eq_default _ _ (by omega)] at hlen
      simp at hlen
  · simp at hlen

theorem shapeAt_nodup (col rot : Int) (blocks : List (Int × Int))
    (h : shapeAt col rot = some blocks) : blocks.Nodup := by
  obtain ⟨shapes, hs, hb⟩ := shapeAt_mem_table col rot blocks h
  have hall : ∀ shapes ∈ tetrominosTable, ∀ s ∈ shapes, s.Nodup := by decide
  exact hall shapes hs blocks hb

theorem shapeAt_offsets (col rot : Int) (blocks : List (Int × Int))
    (h : shapeAt col rot = some blocks) :
    ∀ b ∈ blocks, 0 ≤ b.1 ∧ b.1 ≤ 4 ∧ -1 ≤ b.2 ∧ b.2 ≤ 4 := by
  obtain ⟨shapes, hs, hb⟩ := shapeAt_mem_table col rot blocks h
  have hall : ∀ shapes ∈ tetrominosTable, ∀ s ∈ shapes, ∀ b ∈ s,
      0 ≤ b.1 ∧ b.1 ≤ 4 ∧ -1 ≤ b.2 ∧ b.2 ≤ 4 := by decide
  exact hall shapes hs blocks hb

/-! ## The commit step of lockPiece -/

theorem lockPieceCommit_cells (blocks : List (Int × Int)) (g : Game) (hwf : g.grid.WF)
    (hb : ∀ c ∈ blocks, 0 ≤ g.fallingX + c.1 ∧ g.fallingX + c.1 < 10 ∧ g.fallingY + c.2 < 17) :
    ∃ grid2 : Grid, grid2.WF ∧ lockPieceCommit g blocks = .ok { g with grid := grid2 } ∧
      ∀ y x : Nat, y < 17 → x < 10 →
        cell grid2 y x =
          if ∃ c ∈ blocks, g.fallingX + c.1 = x ∧ g.fallingY + c.2 = y then g.fallingCol
          else cell g.grid y x := by
  induction blocks generalizing g with
  | nil => exact ⟨g.grid, hwf, rfl, fun y x _ _ => by simp⟩
  | cons b rest ih =>
    obtain ⟨h1, h2, h3⟩ := hb b (List.mem_cons_self _ _)
    have hrest : ∀ c ∈ rest,
        0 ≤ g.fallingX + c.1 ∧ g.fallingX + c.1 < 10 ∧ g.fallingY + c.2 < 17 :=
      fun c hc => hb c (List.mem_cons_of_mem _ hc)
    simp only [lockPieceCommit, GridWidth, GridHeight]
    by_cases hy : g.fallingY + b.2 ≥ 0
    · rw [if_pos hy, if_neg (by omega)]
      obtain ⟨g2, hg2⟩ : ∃ g2 : Game, g2 = { g with grid :=
          (setCell g.grid (g.fallingY + b.2).toNat (g.fallingX + b.1).toNat g.fallingCol) } :=
        ⟨_, rfl⟩
      rw [← hg2]
      have hwf2 : g2.grid.WF := by rw [hg2]; exact setCell_wf g.grid hwf _ _ _
      obtain ⟨grid2, hwfr, he, hcells⟩ := ih g2 hwf2 (by rw [hg2]; exact hrest)
      refine ⟨grid2, hwfr, by rw [he, hg2], ?_⟩
      intro y x hy17 hx10
      rw [hcells y x hy17 hx10]
      have hg2x : g2.fallingX = g.fallingX := by rw [hg2]
      have hg2y : g2.fallingY = g.fallingY := by rw [hg2]
      have hg2c : g2.fallingCol = g.fallingCol := by rw [hg2]
      have hg2g : g2.grid =
          setCell g.grid (g.fallingY + b.2).toNat (g.fallingX + b.1).toNat g.fallingCol := by
        rw [hg2]
      rw [hg2x, hg2y, hg2c, hg2g]
      by_cases hex : ∃ c ∈ rest, g.fallingX + c.1 = (x : Int) ∧ g.fallingY + c.2 = (y : Int)
      · rw [if_pos hex, if_pos]
        obtain ⟨c, hc, hcx⟩ := hex
        exact ⟨c, List.mem_cons_of_mem _ hc, hcx⟩
      · rw [if_neg hex, cell_setCell g.grid hwf _ _ (by omega) (by omega)]
        by_cases hhere : y = (g.fallingY + b.2).toNat ∧ x = (g.fallingX + b.1).toNat
        · rw [if_pos hhere, if_pos]
          exact ⟨b, List.mem_cons_self _ _, by omega, by omega⟩
        · rw [if_neg hhere, if_neg]
          rintro ⟨c, hc, hcx, hcy⟩
          rcases List.mem_cons.mp hc with hcb | hcr
          · subst hcb
            exact hhere ⟨by omega, by omega⟩
          · exact hex ⟨c, hcr, hcx, hcy⟩
    · rw [if_neg hy]
      obtain ⟨grid2, hwfr, he, hcells⟩ := ih g hwf hrest
      refine ⟨grid2, hwfr, he, ?_⟩
      intro y x hy17 hx10
      rw [hcells y x hy17 hx10]
      by_cases hex : ∃ c ∈ rest, g.fallingX + c.1 = (x : Int) ∧ g.fallingY + c.2 = (y : Int)
      · rw [if_pos hex, if_pos]
        obtain ⟨c, hc, hcx⟩ := hex
        exact ⟨c, List.mem_cons_of_mem _ hc, hcx⟩
      · rw [if_neg hex, if_neg]
        rintro ⟨c, hc, hcx, hcy⟩
        rcases List.mem_cons.mp hc with hcb | hcr
        · subst hcb
          omega
        · exact hex ⟨c, hcr, hcx, hcy⟩

theorem lockPieceCommit_count (blocks : List (Int × Int)) (g : Game) (hwf : g.grid.WF)
    (hb : ∀ c ∈ blocks, 0 ≤ g.fallingX + c.1 ∧ g.fallingX + c.1 < 10 ∧ g.fallingY + c.2 < 17)
    (hnd : blocks.Nodup) (hcol : g.fallingCol ≠ 0)
    (hempty : ∀ c ∈ blocks, g.fallingY + c.2 ≥ 0 →
      cell g.grid (g.fallingY + c.2).toNat (g.fallingX + c.1).toNat = 0)
    (g1 : Game) (hg1 : lockPieceCommit g blocks = .ok g1) :
    countOccupied g1.grid =
      countOccupied g.grid + ((blocks.filter (fun c => decide (g.fallingY + c.2 ≥ 0))).length : Nat) := by
  induction blocks generalizing g with
  | nil =>
    simp only [lockPieceCommit] at hg1
    cases hg1
    simp
  | cons b rest ih =>
    obtain ⟨h1, h2, h3⟩ := hb b (List.mem_cons_self _ _)
    have hrest : ∀ c ∈ rest,
        0 ≤ g.fallingX + c.1 ∧ g.fallingX + c.1 < 10 ∧ g.fallingY + c.2 < 17 :=
      fun c hc => hb c (List.mem_cons_of_mem _ hc)
    rw [List.nodup_cons] at hnd
    simp only [lockPieceCommit, GridWidth, GridHeight] at hg1
    by_cases hy : g.fallingY + b.2 ≥ 0
    · rw [if_pos hy, if_neg (by omega)] at hg1
      obtain ⟨g2, hg2⟩ : ∃ g2 : Game, g2 = { g with grid :=
          (setCell g.grid (g.fallingY + b.2).toNat (g.fallingX + b.1).toNat g.fallingCol) } :=
        ⟨_, rfl⟩
      rw [← hg2] at hg1
      have hg2x : g2.fallingX = g.fallingX := by rw [hg2]
      have hg2y : g2.fallingY = g.fallingY := by rw [hg2]
      have hg2c : g2.fallingCol = g.fallingCol := by rw [hg2]
      have hg2g : g2.grid =
          setCell g.grid (g.fallingY + b.2).toNat (g.fallingX + b.1).toNat g.fallingCol := by
        rw [hg2]
      have hwf2 : g2.grid.WF := by rw [hg2g]; exact setCell_wf g.grid hwf _ _ _
      have hempty2 : ∀ c ∈ rest, g2.fallingY + c.2 ≥ 0 →
          cell g2.grid (g2.fallingY + c.2).toNat (g2.fallingX + c.1).toNat = 0 := by
        intro c hc hcy
        rw [hg2x, hg2y] at *
        rw [hg2g, cell_setCell g.grid hwf _ _ (by omega) (by omega), if_neg]
        · exact hempty c (List.mem_cons_of_mem _ hc) hcy
        · rintro ⟨e1, e2⟩
          have hc1 := hrest c hc
          have : c = b := by
            apply Prod.ext <;> omega
          exact hnd.1 (this ▸ hc)
      have := ih g2 hwf2 (by rw [hg2x, hg2y]; exact hrest) hnd.2 (by rw [hg2c]; exact hcol)
        hempty2 hg1
      rw [this, hg2g, countOccupied_setCell g.grid hwf _ _ (by omega) (by omega) _ hcol
        (hempty b (List.mem_cons_self _ _) hy), hg2y]
      rw [List.filter_cons_of_pos (by simpa using hy)]
      simp only [List.length_cons]
      push_cast
      ring
    · rw [if_neg hy] at hg1
      have := ih g hwf hrest hnd.2 hcol
        (fun c hc => hempty c (List.mem_cons_of_mem _ hc)) hg1
      rw [this, List.filter_cons_of_neg (by simpa using hy)]


theorem canMoveBlocks_true_iff (g : Game) (dx dy : Int) (blocks : List (Int × Int)) :
    canMoveBlocks g dx dy blocks = true ↔
      ∀ c ∈ blocks, ¬ blocked g.grid (g.fallingX + c.1 + dx) (g.fallingY + c.2 + dy) := by
  constructor
  · exact canMoveBlocks_true_bounds g dx dy blocks
  · intro h
    cases hb : canMoveBlocks g dx dy blocks
    · obtain ⟨c, hc, hblk⟩ := (canMoveBlocks_eq_false_iff g dx dy blocks).mp hb
      exact absurd hblk (h c hc)
    · rfl

/-- C14: for a validly placed piece the placement test of `lockPiece`
succeeds, so the anchor is not moved, and the commit loop returns a state that
differs from the one before only in the grid: a cell of the grid holds the
piece identifier if it is covered by a cell of the shape (necessarily of row
>= 0) and its old value otherwise; the number of occupied cells has grown by
the number of shape cells with row >= 0. -/
theorem lockPiece_commit_frame (g : Game) (hwf : g.grid.WF)
    (hvalid : canMove g 0 0 = .ok true) :
    ∃ blocks g1, shapeAt g.fallingCol g.fallingRotation = some blocks ∧
      lockPieceAdjust g blocks = g ∧
      lockPieceCommit (lockPieceAdjust g blocks) blocks = .ok g1 ∧
      g1 = { g with grid := g1.grid } ∧
      g1.fallingX = g.fallingX ∧ g1.fallingY = g.fallingY ∧
      g1.grid.WF ∧
      (∀ y x : Nat, y < 17 → x < 10 →
        cell g1.grid y x =
          if ∃ c ∈ blocks, g.fallingX + c.1 = x ∧ g.fallingY + c.2 = y then g.fallingCol
          else cell g.grid y x) ∧
      countOccupied g1.grid =
        countOccupied g.grid +
          ((blocks.filter (fun c => decide (g.fallingY + c.2 ≥ 0))).length : Nat) := by
  obtain ⟨blocks, hs, _, hfit⟩ := canMove_ok_true g 0 0 hvalid
  have hadj : lockPieceAdjust g blocks = g := by
    unfold lockPieceAdjust
    rw [lockPieceCanLock_eq_canMoveBlocks, hfit]
    rfl
  have hnb := canMoveBlocks_true_bounds g 0 0 blocks hfit
  have hb : ∀ c ∈ blocks,
      0 ≤ g.fallingX + c.1 ∧ g.fallingX + c.1 < 10 ∧ g.fallingY + c.2 < 17 := by
    intro c hc
    have := hnb c hc
    unfold blocked at this
    omega
  have hempty : ∀ c ∈ blocks, g.fallingY + c.2 ≥ 0 →
      cell g.grid (g.fallingY + c.2).toNat (g.fallingX + c.1).toNat = 0 := by
    intro c hc hy
    have := hnb c hc
    unfold blocked at this
    simp only [add_zero] at this
    by_contra hne
    exact this (Or.inr (Or.inr (Or.inr ⟨hy, hne⟩)))
  have hcol : g.fallingCol ≠ 0 := by
    have := shapeAt_range _ _ _ hs
    omega
  obtain ⟨grid2, hwf2, hcommit, hcells⟩ := lockPieceCommit_cells blocks g hwf hb
  have hcount := lockPieceCommit_count blocks g hwf hb (shapeAt_nodup _ _ _ hs) hcol hempty
    _ hcommit
  exact ⟨blocks, { g with grid := grid2 }, hs, hadj, by rw [hadj]; exact hcommit, rfl, rfl, rfl,
    hwf2, hcells, hcount⟩

theorem lockPiece_commit_frame_witness :
    (floorGame.grid.WF ∧ canMove floorGame 0 0 = .ok true) ∧
    ∃ blocks g1, shapeAt floorGame.fallingCol floorGame.fallingRotation = some blocks ∧
      lockPieceAdjust floorGame blocks = floorGame ∧
      lockPieceCommit (lockPieceAdjust floorGame blocks) blocks = .ok g1 ∧
      g1 = { floorGame with grid := g1.grid } ∧
      g1.fallingX = floorGame.fallingX ∧ g1.fallingY = floorGame.fallingY ∧
      g1.grid.WF ∧
      (∀ y x : Nat, y < 17 → x < 10 →
        cell g1.grid y x =
          if ∃ c ∈ blocks, floorGame.fallingX + c.1 = x ∧ floorGame.fallingY + c.2 = y
          then floorGame.fallingCol
          else cell floorGame.grid y x) ∧
      countOccupied g1.grid =
        countOccupied floorGame.grid +
          ((blocks.filter (fun c => decide (floorGame.fallingY + c.2 ≥ 0))).length : Nat) :=
  ⟨⟨by decide, by decide⟩, lockPiece_commit_frame floorGame (by decide) (by decide)⟩

/-- C15, counterexample: the I piece of `wallGame` (identifier 1, rotation 0,
anchor (8,16)) fails the placement test; after the one-row correction its
cell of offset (3,0) is at column 11, outside the grid, and the commit loop
panics on it. -/
theorem lockPiece_correction_outside :
    (1 ≤ wallGame.fallingCol ∧ wallGame.fallingCol ≤ 11 ∧
      0 ≤ wallGame.fallingRotation ∧ wallGame.fallingRotation ≤ 3) ∧
    shapeAt wallGame.fallingCol wallGame.fallingRotation =
      some [(0, 0), (1, 0), (2, 0), (3, 0)] ∧
    lockPieceCanLock wallGame [(0, 0), (1, 0), (2, 0), (3, 0)] = false ∧
    (lockPieceAdjust wallGame [(0, 0), (1, 0), (2, 0), (3, 0)]).fallingY = 15 ∧
    ¬ (0 ≤ (lockPieceAdjust wallGame [(0, 0), (1, 0), (2, 0), (3, 0)]).fallingX + 3 ∧
        (lockPieceAdjust wallGame [(0, 0), (1, 0), (2, 0), (3, 0)]).fallingX + 3 < 10 ∧
        (lockPieceAdjust wallGame [(0, 0), (1, 0), (2, 0), (3, 0)]).fallingY + 0 < 17) ∧
    (lockPiece wallGame).returned = false := by
  decide

/-- C15, amended: when every cell of the piece is within the side walls and
at most one row below the floor (0 <= column < 10, row <= 17), then after the
correction of `lockPiece` (one row up when the placement test fails) every
cell has 0 <= column < 10 and row < 17, the commit loop writes inside the grid
and `lockPiece` returns. -/
theorem lockPiece_correction_inside (g : Game) (hwf : g.grid.WF) (blocks : List (Int × Int))
    (hs : shapeAt g.fallingCol g.fallingRotation = some blocks)
    (hin : ∀ c ∈ blocks,
      0 ≤ g.fallingX + c.1 ∧ g.fallingX + c.1 < 10 ∧ g.fallingY + c.2 ≤ 17) :
    (∀ c ∈ blocks,
      0 ≤ (lockPieceAdjust g blocks).fallingX + c.1 ∧
      (lockPieceAdjust g blocks).fallingX + c.1 < 10 ∧
      (lockPieceAdjust g blocks).fallingY + c.2 < 17) ∧
    (lockPieceCanLock g blocks = false →
      (lockPieceAdjust g blocks).fallingY = g.fallingY - 1 ∧
      (lockPieceAdjust g blocks).fallingX = g.fallingX) ∧
    (lockPieceCommit (lockPieceAdjust g blocks) blocks).returned = true ∧
    (lockPiece g).returned = true := by
  have hbounds : ∀ c ∈ blocks,
      0 ≤ (lockPieceAdjust g blocks).fallingX + c.1 ∧
      (lockPieceAdjust g blocks).fallingX + c.1 < 10 ∧
      (lockPieceAdjust g blocks).fallingY + c.2 < 17 := by
    intro c hc
    have h := hin c hc
    unfold lockPieceAdjust
    cases hcl : lockPieceCanLock g blocks
    · simp only [Bool.not_false, if_true]
      exact ⟨h.1, h.2.1, by omega⟩
    · simp only [Bool.not_true, Bool.false_eq_true, if_false]
      rw [lockPieceCanLock_eq_canMoveBlocks] at hcl
      have := canMoveBlocks_true_bounds g 0 0 blocks hcl c hc
      unfold blocked at this
      omega
  have hwf2 : (lockPieceAdjust g blocks).grid.WF := by
    unfold lockPieceAdjust
    split_ifs <;> exact hwf
  obtain ⟨grid2, _, hcommit⟩ := lockPieceCommit_ok blocks (lockPieceAdjust g blocks) hwf2 hbounds
  refine ⟨hbounds, ?_, by rw [hcommit]; rfl, ?_⟩
  · intro hcl
    unfold lockPieceAdjust
    rw [hcl]
    exact ⟨rfl, rfl⟩
  · unfold lockPiece
    rw [hs]
    simp only [hcommit]
    rfl

theorem lockPiece_correction_inside_witness :
    (sunkGame.grid.WF ∧
      shapeAt sunkGame.fallingCol sunkGame.fallingRotation =
        some [(0, 0), (1, 0), (2, 0), (3, 0)] ∧
      ∀ c ∈ [((0 : Int), (0 : Int)), (1, 0), (2, 0), (3, 0)],
        0 ≤ sunkGame.fallingX + c.1 ∧ sunkGame.fallingX + c.1 < 10 ∧
        sunkGame.fallingY + c.2 ≤ 17) ∧
    ((∀ c ∈ [((0 : Int), (0 : Int)), (1, 0), (2, 0), (3, 0)],
      0 ≤ (lockPieceAdjust sunkGame [(0, 0), (1, 0), (2, 0), (3, 0)]).fallingX + c.1 ∧
      (lockPieceAdjust sunkGame [(0, 0), (1, 0), (2, 0), (3, 0)]).fallingX + c.1 < 10 ∧
      (lockPieceAdjust sunkGame [(0, 0), (1, 0), (2, 0), (3, 0)]).fallingY + c.2 < 17) ∧
    (lockPieceCanLock sunkGame [(0, 0), (1, 0), (2, 0), (3, 0)] = false →
      (lockPieceAdjust sunkGame [(0, 0), (1, 0), (2, 0), (3, 0)]).fallingY =
        sunkGame.fallingY - 1 ∧
      (lockPieceAdjust sunkGame [(0, 0), (1, 0), (2, 0), (3, 0)]).fallingX =
        sunkGame.fallingX) ∧
    (lockPieceCommit (lockPieceAdjust sunkGame [(0, 0), (1, 0), (2, 0), (3, 0)])
      [(0, 0), (1, 0), (2, 0), (3, 0)]).returned = true ∧
    (lockPiece sunkGame).returned = true) :=
  ⟨⟨by decide, by decide, by decide⟩,
    lockPiece_correction_inside sunkGame (by decide) [(0, 0), (1, 0), (2, 0), (3, 0)]
      (by decide) (by decide)⟩

/-! ## Hard drop -/

theorem canMove_down_eq (g : Game) :
    canMove g 0 1 = canMove { g with fallingY := g.fallingY + 1 } 0 0 ∨
    (canMove g 0 1 = .error g ∧
      canMove { g with fallingY := g.fallingY + 1 } 0 0 =
        .error { g with fallingY := g.fallingY + 1 }) := by
  have hb : ∀ blocks, canMoveBlocks g 0 1 blocks =
      canMoveBlocks { g with fallingY := g.fallingY + 1 } 0 0 blocks := by
    intro blocks
    induction blocks with
    | nil => rfl
    | cons c rest ih =>
      simp only [canMoveBlocks, ih, add_zero]
      have e : g.fallingY + c.2 + 1 = g.fallingY + 1 + c.2 := by ring
      rw [e]
  unfold canMove
  dsimp only
  cases shapeAt g.fallingCol g.fallingRotation with
  | none => right; exact ⟨rfl, rfl⟩
  | some blocks =>
    left
    dsimp only
    rw [hb]

theorem canMove_down_ok (g : Game) (b : Bool) :
    canMove g 0 1 = .ok b ↔ canMove { g with fallingY := g.fallingY + 1 } 0 0 = .ok b := by
  rcases canMove_down_eq g with h | ⟨h1, h2⟩
  · rw [h]
  · rw [h1, h2]
    constructor <;> intro h <;> cases h

theorem canMove_true_row_lt (g : Game) (dy : Int) (h : canMove g 0 dy = .ok true) :
    g.fallingY + dy < 18 := by
  obtain ⟨blocks, hs, hl, hfit⟩ := canMove_ok_true g 0 dy h
  obtain ⟨c, hc⟩ := List.exists_mem_of_length_pos hl
  have hoff := shapeAt_offsets _ _ _ hs c hc
  have := canMoveBlocks_true_bounds g 0 dy blocks hfit c hc
  unfold blocked at this
  omega

/-- The descent satisfies the equation of the loop
`for g.canMove(0, 1) { g.fallingY++ }`, whatever the state. -/
theorem hardDropDescent_loop (g : Game) :
    hardDropDescent g =
      match canMove g 0 1 with
      | .error s => .error s
      | .ok fits =>
        if fits then hardDropDescent { g with fallingY := g.fallingY + 1 } else .ok g := by
  unfold hardDropDescent
  rw [hardDropLoop]
  cases hcm : canMove g 0 1 with
  | error s => rfl
  | ok fits =>
    cases fits
    · rfl
    · have := canMove_true_row_lt g 1 hcm
      dsimp only
      rw [if_pos rfl, if_pos rfl]
      congr 1
      omega

theorem hardDropLoop_valid (fuel : Nat) (g : Game) (hvalid : canMove g 0 0 = .ok true)
    (hfuel : (18 - g.fallingY).toNat ≤ fuel) :
    ∃ y2, g.fallingY ≤ y2 ∧
      hardDropLoop fuel g = .ok { g with fallingY := y2 } ∧
      (∀ z, g.fallingY ≤ z → z ≤ y2 → canMove { g with fallingY := z } 0 0 = .ok true) ∧
      canMove { g with fallingY := y2 + 1 } 0 0 = .ok false := by
  induction fuel generalizing g with
  | zero =>
    have := canMove_true_row_lt g 0 hvalid
    omega
  | succ fuel ih =>
    obtain ⟨blocks, hs, hl, _⟩ := canMove_ok_true g 0 0 hvalid
    have hcm := canMove_eq_ok g 0 1 blocks hs hl
    rw [hardDropLoop, hcm]
    dsimp only
    cases hfit : canMoveBlocks g 0 1 blocks
    · rw [hfit] at hcm
      refine ⟨g.fallingY, le_refl _, rfl, ?_, (canMove_down_ok g false).mp hcm⟩
      intro z hz1 hz2
      have : z = g.fallingY := le_antisymm hz2 hz1
      rw [this]
      exact hvalid
    · rw [hfit] at hcm
      have hv2 := (canMove_down_ok g true).mp hcm
      have hlt := canMove_true_row_lt g 1 hcm
      obtain ⟨y2, hy2, hloop, hall, hstop⟩ := ih { g with fallingY := g.fallingY + 1 } hv2
        (by show (18 - (g.fallingY + 1)).toNat ≤ fuel; omega)
      refine ⟨y2, by have : g.fallingY + 1 ≤ y2 := hy2; omega, ?_, ?_, hstop⟩
      · rw [if_pos rfl, hloop]
      · intro z hz1 hz2
        by_cases hz : z = g.fallingY
        · rw [hz]; exact hvalid
        · exact hall z (by show g.fallingY + 1 ≤ z; omega) hz2

theorem lockPiece_correction_bounds (g : Game) (hwf : g.grid.WF) (blocks : List (Int × Int))
    (hs : shapeAt g.fallingCol g.fallingRotation = some blocks)
    (hin : ∀ c ∈ blocks,
      0 ≤ g.fallingX + c.1 ∧ g.fallingX + c.1 < 10 ∧ g.fallingY + c.2 ≤ 17) :
    (∀ c ∈ blocks,
      0 ≤ (lockPieceAdjust g blocks).fallingX + c.1 ∧
      (lockPieceAdjust g blocks).fallingX + c.1 < 10 ∧
      (lockPieceAdjust g blocks).fallingY + c.2 < 17) ∧
    (lockPiece g).returned = true := by
  have hbounds : ∀ c ∈ blocks,
      0 ≤ (lockPieceAdjust g blocks).fallingX + c.1 ∧
      (lockPieceAdjust g blocks).fallingX + c.1 < 10 ∧
      (lockPieceAdjust g blocks).fallingY + c.2 < 17 := by
    intro c hc
    have h := hin c hc
    unfold lockPieceAdjust
    cases hcl : lockPieceCanLock g blocks
    · simp only [Bool.not_false, if_true]
      exact ⟨h.1, h.2.1, by omega⟩
    · simp only [Bool.not_true, Bool.false_eq_true, if_false]
      rw [lockPieceCanLock_eq_canMoveBlocks] at hcl
      have := canMoveBlocks_true_bounds g 0 0 blocks hcl c hc
      unfold blocked at this
      omega
  have hwf2 : (lockPieceAdjust g blocks).grid.WF := by
    unfold lockPieceAdjust
    split_ifs <;> exact hwf
  obtain ⟨grid2, _, hcommit⟩ := lockPieceCommit_ok blocks (lockPieceAdjust g blocks) hwf2 hbounds
  refine ⟨hbounds, ?_⟩
  unfold lockPiece
  rw [hs]
  simp only [hcommit]
  rfl

/-- C18: for a validly placed piece at row `y` the descent loop of the hard
drop ends (with any fuel from `18 - y` on, and so in `hardDropDescent`) in the
state that differs only by the anchor row `y2 >= y`; the piece is placeable at
every row from `y` to `y2` and not at `y2 + 1`, and `y2` is the only row with
this property.  The hard-drop block then runs `lockPiece` on that state, which
does not move the anchor and returns. -/
theorem hardDrop_descent (g : Game) (hwf : g.grid.WF) (hvalid : canMove g 0 0 = .ok true) :
    ∃ y2, g.fallingY ≤ y2 ∧
      (∀ fuel, (18 - g.fallingY).toNat ≤ fuel →
        hardDropLoop fuel g = .ok { g with fallingY := y2 }) ∧
      hardDropDescent g = .ok { g with fallingY := y2 } ∧
      (∀ z, g.fallingY ≤ z → z ≤ y2 → canMove { g with fallingY := z } 0 0 = .ok true) ∧
      canMove { g with fallingY := y2 + 1 } 0 0 = .ok false ∧
      (∀ y3, g.fallingY ≤ y3 →
        (∀ z, g.fallingY ≤ z → z ≤ y3 → canMove { g with fallingY := z } 0 0 = .ok true) →
        canMove { g with fallingY := y3 + 1 } 0 0 ≠ .ok true → y3 = y2) ∧
      (∀ d : Draw, updateGameHardDrop g true d =
        (lockPiece { g with fallingY := y2 }).next fun g2 => spawnPiece g2 d) ∧
      (∀ blocks, shapeAt g.fallingCol g.fallingRotation = some blocks →
        lockPieceAdjust { g with fallingY := y2 } blocks = { g with fallingY := y2 }) ∧
      (lockPiece { g with fallingY := y2 }).returned = true := by
  obtain ⟨y2, hy2, hloop, hall, hstop⟩ := hardDropLoop_valid _ g hvalid (le_refl _)
  have hfuel : ∀ fuel, (18 - g.fallingY).toNat ≤ fuel →
      hardDropLoop fuel g = .ok { g with fallingY := y2 } := by
    intro fuel hf
    obtain ⟨y3, hy3, hloop3, hall3, hstop3⟩ := hardDropLoop_valid fuel g hvalid hf
    have : y3 = y2 := by
      rcases lt_trichotomy y3 y2 with h | h | h
      · have := hall (y3 + 1) (by omega) (by omega)
        rw [this] at hstop3
        cases hstop3
      · exact h
      · have := hall3 (y2 + 1) (by omega) (by omega)
        rw [this] at hstop
        cases hstop
    rw [hloop3, this]
  have hdesc : hardDropDescent g = .ok { g with fallingY := y2 } :=
    hfuel _ (Nat.le_succ _)
  have hv2 : canMove { g with fallingY := y2 } 0 0 = .ok true := hall y2 hy2 (le_refl _)
  obtain ⟨blocks, hs, _, hfit⟩ := canMove_ok_true _ 0 0 hv2
  have hadj : lockPieceAdjust { g with fallingY := y2 } blocks = { g with fallingY := y2 } := by
    unfold lockPieceAdjust
    rw [lockPieceCanLock_eq_canMoveBlocks, hfit]
    rfl
  refine ⟨y2, hy2, hfuel, hdesc, hall, hstop, ?_, ?_, ?_, ?_⟩
  · intro y3 hy3 hall3 hstop3
    rcases lt_trichotomy y3 y2 with h | h | h
    · exact absurd (hall (y3 + 1) (by omega) (by omega)) hstop3
    · exact h
    · have := hall3 (y2 + 1) (by omega) (by omega)
      rw [this] at hstop
      cases hstop
  · intro d
    unfold updateGameHardDrop
    rw [if_pos rfl, hdesc]
    rfl
  · intro blocks2 hs2
    have hs3 : shapeAt g.fallingCol g.fallingRotation = some blocks := hs
    rw [hs3] at hs2
    cases hs2
    exact hadj
  · have hin : ∀ c ∈ blocks,
        0 ≤ g.fallingX + c.1 ∧ g.fallingX + c.1 < 10 ∧ y2 + c.2 ≤ 17 := by
      intro c hc
      have := canMoveBlocks_true_bounds _ 0 0 blocks hfit c hc
      unfold blocked at this
      have e1 : ({ g with fallingY := y2 } : Game).fallingX = g.fallingX := rfl
      have e2 : ({ g with fallingY := y2 } : Game).fallingY = y2 := rfl
      rw [e1, e2] at this
      omega
    exact (lockPiece_correction_bounds { g with fallingY := y2 } hwf blocks hs hin).2


theorem hardDrop_descent_witness :
    (sampleGame.grid.WF ∧ canMove sampleGame 0 0 = .ok true) ∧
    ∃ y2, sampleGame.fallingY ≤ y2 ∧
      (∀ fuel, (18 - sampleGame.fallingY).toNat ≤ fuel →
        hardDropLoop fuel sampleGame = .ok { sampleGame with fallingY := y2 }) ∧
      hardDropDescent sampleGame = .ok { sampleGame with fallingY := y2 } ∧
      (∀ z, sampleGame.fallingY ≤ z → z ≤ y2 →
        canMove { sampleGame with fallingY := z } 0 0 = .ok true) ∧
      canMove { sampleGame with fallingY := y2 + 1 } 0 0 = .ok false ∧
      (∀ y3, sampleGame.fallingY ≤ y3 →
        (∀ z, sampleGame.fallingY ≤ z → z ≤ y3 →
          canMove { sampleGame with fallingY := z } 0 0 = .ok true) →
        canMove { sampleGame with fallingY := y3 + 1 } 0 0 ≠ .ok true → y3 = y2) ∧
      (∀ d : Draw, updateGameHardDrop sampleGame true d =
        (lockPiece { sampleGame with fallingY := y2 }).next fun g2 => spawnPiece g2 d) ∧
      (∀ blocks, shapeAt sampleGame.fallingCol sampleGame.fallingRotation = some blocks →
        lockPieceAdjust { sampleGame with fallingY := y2 } blocks =
          { sampleGame with fallingY := y2 }) ∧
      (lockPiece { sampleGame with fallingY := y2 }).returned = true :=
  ⟨⟨by decide, by decide⟩, hardDrop_descent sampleGame (by decide) (by decide)⟩

/-! ## High scores -/

theorem saveHighScore_eq_take (g : Game) :
    (saveHighScore g).highScores =
      ((g.highScores ++
          [({ Name := g.playerName, Score := g.score, Level := g.level } : HighScore)]).insertionSort
        (fun a b : HighScore => a.Score ≥ b.Score)).take 10 := by
  unfold saveHighScore
  dsimp only
  split_ifs with h
  · rfl
  · rw [List.take_of_length_le (by omega)]

/-- C16: after `saveHighScore` the list has `min (n+1) 10` entries, its scores
are in non-increasing order and are the first 10 of the descending sort of the
prior scores with the new score; the new entry itself is in the list whenever
fewer than 10 prior entries have a score at least as high, that is whenever
its score is strictly greater than the 10th best. -/
theorem saveHighScore_list (g : Game) :
    (saveHighScore g).highScores.length = min (g.highScores.length + 1) 10 ∧
    ((saveHighScore g).highScores.map (fun h => h.Score)).Sorted (fun a b => a ≥ b) ∧
    (saveHighScore g).highScores.map (fun h => h.Score) =
      ((g.highScores.map (fun h => h.Score) ++ [g.score]).insertionSort
        (fun a b => a ≥ b)).take 10 ∧
    (g.highScores.countP (fun h => decide (h.Score ≥ g.score)) < 10 →
      ({ Name := g.playerName, Score := g.score, Level := g.level } : HighScore) ∈
        (saveHighScore g).highScores) := by
  rw [saveHighScore_eq_take]
  generalize he : ({ Name := g.playerName, Score := g.score, Level := g.level } : HighScore) = e
  have hes : e.Score = g.score := by rw [← he]
  haveI : IsTotal HighScore (fun a b => a.Score ≥ b.Score) := ⟨fun a b => le_total b.Score a.Score⟩
  haveI : IsTrans HighScore (fun a b => a.Score ≥ b.Score) :=
    ⟨fun a b c hab hbc => le_trans hbc hab⟩
  have hsorted := List.sorted_insertionSort (fun a b : HighScore => a.Score ≥ b.Score)
    (g.highScores ++ [e])
  have hperm := List.perm_insertionSort (fun a b : HighScore => a.Score ≥ b.Score)
    (g.highScores ++ [e])
  have hmap : ((g.highScores ++ [e]).insertionSort (fun a b => a.Score ≥ b.Score)).map
      (fun h => h.Score) =
      (g.highScores.map (fun h => h.Score) ++ [g.score]).insertionSort (fun a b => a ≥ b) := by
    rw [List.map_insertionSort (fun a b : HighScore => a.Score ≥ b.Score) (fun a b : Int => a ≥ b)
      (fun h => h.Score) _ (fun a _ b _ => Iff.rfl)]
    simp [hes]
  refine ⟨?_, ?_, ?_, ?_⟩
  · rw [List.length_take, List.length_insertionSort, List.length_append]
    simp [min_comm]
  · rw [List.map_take]
    apply List.Pairwise.take
    exact List.Pairwise.map _ (fun a b h => h) hsorted
  · rw [List.map_take, hmap]
  · intro hcount
    by_contra hnot
    set S := (g.highScores ++ [e]).insertionSort (fun a b => a.Score ≥ b.Score) with hS
    have hmem : e ∈ S := (List.mem_insertionSort _).mpr (by simp)
    have hdrop : e ∈ S.drop 10 := by
      rw [← List.take_append_drop 10 S] at hmem
      rcases List.mem_append.mp hmem with h | h
      · exact absurd h hnot
      · exact h
    have hlen : 10 < S.length := by
      by_contra hle
      rw [List.drop_of_length_le (by omega)] at hdrop
      simp at hdrop
    have htake : ∀ x ∈ S.take 10, x.Score ≥ e.Score :=
      fun x hx => hsorted.rel_of_mem_take_of_mem_drop hx hdrop
    have hc1 : (S.take 10).countP (fun h => decide (h.Score ≥ g.score)) = 10 := by
      rw [List.countP_eq_length.mpr (by
        intro x hx
        simpa [hes] using htake x hx)]
      rw [List.length_take]
      omega
    have hc2 : 0 < (S.drop 10).countP (fun h => decide (h.Score ≥ g.score)) :=
      List.countP_pos_iff.mpr ⟨e, hdrop, by simp [hes]⟩
    have hc3 : S.countP (fun h => decide (h.Score ≥ g.score)) =
        g.highScores.countP (fun h => decide (h.Score ≥ g.score)) + 1 := by
      rw [hperm.countP_eq, List.countP_append]
      simp [List.countP_cons, hes]
    have hc4 : S.countP (fun h => decide (h.Score ≥ g.score)) =
        (S.take 10).countP (fun h => decide (h.Score ≥ g.score)) +
        (S.drop 10).countP (fun h => decide (h.Score ≥ g.score)) := by
      rw [← List.countP_append, List.take_append_drop]
    omega

/-! ## Shape table: sizes, distinct offsets, connectedness -/

theorem growReach_sound (s seen : List (Int × Int)) (a : Int × Int)
    (h : ∀ q ∈ seen, q ∈ s ∧ Relation.ReflTransGen (shapeStep s) a q) :
    ∀ q ∈ growReach s seen, q ∈ s ∧ Relation.ReflTransGen (shapeStep s) a q := by
  intro q hq
  unfold growReach at hq
  rcases List.mem_append.mp hq with hq | hq
  · exact h q hq
  · rw [List.mem_filter] at hq
    obtain ⟨hqs, hex⟩ := hq
    obtain ⟨p, hp, hadj⟩ := of_decide_eq_true hex
    exact ⟨hqs, Relation.ReflTransGen.tail (h p hp).2 ⟨(h p hp).1, hqs, hadj⟩⟩

theorem reachN_sound (s : List (Int × Int)) (a : Int × Int) (n : Nat) (seen : List (Int × Int))
    (h : ∀ q ∈ seen, q ∈ s ∧ Relation.ReflTransGen (shapeStep s) a q) :
    ∀ q ∈ reachN s n seen, q ∈ s ∧ Relation.ReflTransGen (shapeStep s) a q := by
  induction n generalizing seen with
  | zero => exact h
  | succ n ih => exact ih _ (growReach_sound s seen a h)

theorem shapeStep_symm (s : List (Int × Int)) : Symmetric (shapeStep s) := by
  intro p q h
  obtain ⟨hp, hq, hadj⟩ := h
  refine ⟨hq, hp, ?_⟩
  unfold adjacentCells at hadj ⊢
  omega

theorem edgeConnected_of_check (s : List (Int × Int)) (h : connectedCheck s = true) :
    EdgeConnected s := by
  cases s with
  | nil =>
    intro a ha
    simp at ha
  | cons a t =>
    unfold connectedCheck at h
    rw [List.all_eq_true] at h
    have hreach : ∀ b ∈ a :: t, Relation.ReflTransGen (shapeStep (a :: t)) a b := by
      intro b hb
      have hmem := of_decide_eq_true (h b hb)
      exact (reachN_sound (a :: t) a _ [a] (by
        intro q hq
        rw [List.mem_singleton] at hq
        rw [hq]
        exact ⟨List.mem_cons_self _ _, Relation.ReflTransGen.refl⟩) b hmem).2
    intro x hx y hy
    exact Relation.ReflTransGen.trans
      (Relation.ReflTransGen.symmetric (shapeStep_symm _) (hreach x hx)) (hreach y hy)

/-- C20: for every piece identifier in 1..11 and rotation in 0..3 the table
defines a shape; it has 4 cells for identifiers 1..7 and 5 cells for
identifiers 8..11, no offset occurs twice, and the shape is edge-connected. -/
theorem shape_table_wellformed (col rot : Int) (hc1 : 1 ≤ col) (hc2 : col ≤ 11)
    (hr1 : 0 ≤ rot) (hr2 : rot ≤ 3) :
    ∃ blocks, shapeAt col rot = some blocks ∧
      (col ≤ 7 → blocks.length = 4) ∧ (8 ≤ col → blocks.length = 5) ∧
      blocks.Nodup ∧ EdgeConnected blocks := by
  obtain ⟨blocks, hs, _⟩ := shapeAt_defined col rot hc1 hc2 hr1 hr2
  obtain ⟨shapes, hsh, hb⟩ := shapeAt_mem_table col rot blocks hs
  have hconn : ∀ shapes ∈ tetrominosTable, ∀ s ∈ shapes, connectedCheck s = true := by decide
  refine ⟨blocks, hs, ?_, ?_, shapeAt_nodup col rot blocks hs,
    edgeConnected_of_check blocks (hconn shapes hsh blocks hb)⟩
  · intro h7
    have : ∀ c r : Int, 1 ≤ c → c ≤ 7 → 0 ≤ r → r ≤ 3 →
        (shapeAt c r).map List.length = some 4 := by
      intro c r h1 h2 h3 h4
      interval_cases c <;> interval_cases r <;> rfl
    have h := this col rot hc1 h7 hr1 hr2
    rw [hs] at h
    exact Option.some.inj h
  · intro h8
    have : ∀ c r : Int, 8 ≤ c → c ≤ 11 → 0 ≤ r → r ≤ 3 →
        (shapeAt c r).map List.length = some 5 := by
      intro c r h1 h2 h3 h4
      interval_cases c <;> interval_cases r <;> rfl
    have h := this col rot h8 hc2 hr1 hr2
    rw [hs] at h
    exact Option.some.inj h

theorem shape_table_wellformed_witness :
    ((1 : Int) ≤ 9 ∧ (9 : Int) ≤ 11 ∧ (0 : Int) ≤ 1 ∧ (1 : Int) ≤ 3) ∧
    ∃ blocks, shapeAt 9 1 = some blocks ∧
      ((9 : Int) ≤ 7 → blocks.length = 4) ∧ ((8 : Int) ≤ 9 → blocks.length = 5) ∧
      blocks.Nodup ∧ EdgeConnected blocks :=
  ⟨by decide, shape_table_wellformed 9 1 (by decide) (by decide) (by decide) (by decide)⟩

/-! ## A tick that reaches Game Over twice -/

/-- C19, evaluation: in `stackGame` the piece is validly placed and the
high-score list is empty.  With the hard-drop key pressed, the hard-drop block
locks the piece (score 10), the spawn fails and the session becomes Game Over
with one entry written.  The tick goes on: the gravity block fires, locks the
unplaceable new piece one row higher (the grid changes, the score becomes 20)
and a second failed spawn writes a second entry. -/
theorem updateGame_gameOver_twice :
    stackGame.grid.WF ∧ stackGame.Estado = EstadoGame ∧
    canMove stackGame 0 0 = .ok true ∧ stackGame.highScores = [] ∧
    updateGameTimer stackGame false = .ok stackGame ∧
    updateGameMove stackGame false false = .ok stackGame ∧
    (updateGameHardDrop stackGame true sampleDraw).returned = true ∧
    (updateGameHardDrop stackGame true sampleDraw).state.Estado = EstadoGameOver ∧
    (updateGameHardDrop stackGame true sampleDraw).state.score = 10 ∧
    (updateGameHardDrop stackGame true sampleDraw).state.highScores =
      [{ Name := "", Score := 10, Level := 1 }] ∧
    updateGame stackGame hardDropInput =
      updateGameGravity (updateGameHardDrop stackGame true sampleDraw).state sampleDraw ∧
    (updateGame stackGame hardDropInput).returned = true ∧
    (updateGame stackGame hardDropInput).state.Estado = EstadoGameOver ∧
    (updateGame stackGame hardDropInput).state.highScores =
      [{ Name := "", Score := 20, Level := 1 }, { Name := "", Score := 10, Level := 1 }] ∧
    (updateGame stackGame hardDropInput).state.score = 20 ∧
    cell (updateGameHardDrop stackGame true sampleDraw).state.grid 0 5 = 2 ∧
    cell (updateGame stackGame hardDropInput).state.grid 0 5 = 4 := by
  decide

/-! ## Track index of the level-up -/

/-- C21, evaluation: at level 6, with a valid current track, `nextLevel` sets
the level to 7 and `changeBgmForLevel` computes the track index
`(7 - 1) % 8 = 6`, which is outside the 6 loaded tracks: the access
`g.bgms[g.currentBgm]` of line 911 panics.  The same happens at level 7
(index 7), and through the timer block of `updateGame`. -/
theorem nextLevel_track_out_of_range :
    (1 ≤ levelSixGame.level ∧ 0 ≤ levelSixGame.currentBgm ∧ levelSixGame.currentBgm < bgmsLen) ∧
    goMod (levelSixGame.level + 1 - 1) 8 = 6 ∧ bgmsLen = 6 ∧
    (nextLevel levelSixGame).returned = false ∧
    (nextLevel levelSixGame).state.level = 7 ∧
    (nextLevel levelSixGame).state.currentBgm = 6 ∧
    (nextLevel { levelSixGame with level := 7 }).returned = false ∧
    (updateGameTimer levelSixGame true).returned = false ∧
    (nextLevel { levelSixGame with level := 5, currentBgm := 4 }).returned = true := by
  have hc : checkLevelComplete { levelSixGame with timer := levelSixGame.timer - 1 } = true :=
    (checkLevelComplete_iff _).mpr ((fill_ratio_iff _).mpr (by decide))
  have ht : updateGameTimer levelSixGame true =
      nextLevel { levelSixGame with timer := levelSixGame.timer - 1 } := by
    unfold updateGameTimer
    simp only [if_true]
    rw [if_pos (by decide), hc]
    rfl
  rw [ht]
  decide

/-! ## The five copies of the shape table -/

/-- C26: the copies of the shape table in `rotationFromGrid`, `lockPiece`,
`drawNextPieces` and `drawGame` are equal to the one of `canMove`, so for
every piece identifier and rotation (in particular 1..11 and 0..3) the five
lookups give the same ordered list of offsets. -/
theorem shape_tables_identical :
    tetrominosTableRotationFromGrid = tetrominosTable ∧
    tetrominosTableLockPiece = tetrominosTable ∧
    tetrominosTableDrawNextPieces = tetrominosTable ∧
    tetrominosTableDrawGame = tetrominosTable ∧
    ∀ col rot : Int,
      shapeIn tetrominosTable col rot = shapeAt col rot ∧
      shapeIn tetrominosTableRotationFromGrid col rot = shapeAt col rot ∧
      shapeIn tetrominosTableLockPiece col rot = shapeAt col rot ∧
      shapeIn tetrominosTableDrawNextPieces col rot = shapeAt col rot ∧
      shapeIn tetrominosTableDrawGame col rot = shapeAt col rot := by
  have h1 : tetrominosTableRotationFromGrid = tetrominosTable := by decide
  have h2 : tetrominosTableLockPiece = tetrominosTable := by decide
  have h3 : tetrominosTableDrawNextPieces = tetrominosTable := by decide
  have h4 : tetrominosTableDrawGame = tetrominosTable := by decide
  refine ⟨h1, h2, h3, h4, ?_⟩
  intro col rot
  rw [h1, h2, h3, h4]
  have h : shapeIn tetrominosTable col rot = shapeAt col rot := by
    unfold shapeIn shapeAt tetrominos
    rfl
  exact ⟨h, h, h, h, h⟩

/-! ## Line clearing: awards, top row, fill after a clear -/

theorem linePoints_all_special (n : Int) (hn : 1 ≤ n) :
    linePoints n n =
      (if n = 1 then 100 else if n = 2 then 300 else if n = 3 then 500
        else if n = 4 then 800 else 1200) + 400 * n := by
  have h : n > 0 := by omega
  unfold linePoints
  simp only [h, and_self, if_true]
  ring

/-- C23: `checkSpecialLine(y)` is the fullness test of row `y`, so the scan
counts every cleared line as a special line as well; the bonus of 200 per
special line is added twice, and a call that clears `n >= 1` lines adds
`T(n) + 400 * n` points (500 for a single line). -/
theorem checkAndClearMatches_award (g : Game) (hwf : g.grid.WF) :
    (∀ (grid : Grid) (y : Nat), checkSpecialLine grid y = rowFull grid y) ∧
    (clearLoop g.grid).specialLines = (clearLoop g.grid).lines ∧
    (clearLoop g.grid).lines =
      (((List.range 17).filter (fun y => rowFull g.grid y)).length : Nat) ∧
    (1 ≤ (clearLoop g.grid).lines →
      (checkAndClearMatches g).score =
        g.score +
          ((if (clearLoop g.grid).lines = 1 then 100
            else if (clearLoop g.grid).lines = 2 then 300
            else if (clearLoop g.grid).lines = 3 then 500
            else if (clearLoop g.grid).lines = 4 then 800 else 1200) +
            400 * (clearLoop g.grid).lines)) ∧
    ((clearLoop g.grid).lines = 1 → (checkAndClearMatches g).score = g.score + 500) := by
  have hsp : (clearLoop g.grid).specialLines = (clearLoop g.grid).lines := by
    rw [clearLoop_eq g.grid hwf]
  have hscore : 1 ≤ (clearLoop g.grid).lines →
      (checkAndClearMatches g).score =
        g.score + linePoints (clearLoop g.grid).lines (clearLoop g.grid).lines := by
    intro h
    unfold checkAndClearMatches
    dsimp only
    rw [if_pos (by omega), hsp]
  refine ⟨fun grid y => rfl, hsp, clearLoop_lines_eq g.grid hwf, ?_, ?_⟩
  · intro h
    rw [hscore h, linePoints_all_special _ h]
  · intro h
    rw [hscore (by omega), linePoints_all_special _ (by omega), h]
    rfl

theorem checkAndClearMatches_award_witness :
    (towerGame.grid.WF ∧ (clearLoop towerGame.grid).lines = 1) ∧
    ((∀ (grid : Grid) (y : Nat), checkSpecialLine grid y = rowFull grid y) ∧
    (clearLoop towerGame.grid).specialLines = (clearLoop towerGame.grid).lines ∧
    (clearLoop towerGame.grid).lines =
      (((List.range 17).filter (fun y => rowFull towerGame.grid y)).length : Nat) ∧
    (1 ≤ (clearLoop towerGame.grid).lines →
      (checkAndClearMatches towerGame).score =
        towerGame.score +
          ((if (clearLoop towerGame.grid).lines = 1 then 100
            else if (clearLoop towerGame.grid).lines = 2 then 300
            else if (clearLoop towerGame.grid).lines = 3 then 500
            else if (clearLoop towerGame.grid).lines = 4 then 800 else 1200) +
            400 * (clearLoop towerGame.grid).lines)) ∧
    ((clearLoop towerGame.grid).lines = 1 →
      (checkAndClearMatches towerGame).score = towerGame.score + 500)) :=
  ⟨by decide, checkAndClearMatches_award towerGame (by decide)⟩

theorem clearLoop_top_rows (grid : Grid) (hwf : grid.WF) (i : Nat)
    (hi : i = 0 ∨ ((i : Int) < (clearLoop grid).lines)) :
    (clearLoop grid).grid.getD i [] = grid.getD 0 [] := by
  rw [clearLoop_eq grid hwf] at hi ⊢
  dsimp only at hi ⊢
  by_cases hk : i < grid.countP rowIsFull
  · rw [List.getD_append _ _ _ _ (by rw [List.length_replicate]; exact hk)]
    rw [List.getD_eq_getElem _ _ (by rw [List.length_replicate]; exact hk)]
    simp
  · have hi0 : i = 0 := by
      rcases hi with h | h
      · exact h
      · exfalso
        have : i < grid.countP rowIsFull := by exact_mod_cast h
        exact hk this
    have hc : grid.countP rowIsFull = 0 := by omega
    have hall : ∀ a ∈ grid, (fun r => !rowIsFull r) a = true := by
      intro a ha
      have := (List.countP_eq_zero.mp hc) a ha
      simpa using this
    rw [hc, List.filter_eq_self.mpr hall, hi0]
    simp

/-- C27: `checkAndClearMatches` leaves row 0 as it was.  A full row 0 is
counted as a cleared line and is still full afterwards, and each of the first
`lines` rows of the result equals the original row 0. -/
theorem checkAndClearMatches_top_row (g : Game) (hwf : g.grid.WF) :
    (checkAndClearMatches g).grid.getD 0 [] = g.grid.getD 0 [] ∧
    (rowFull g.grid 0 = true →
      1 ≤ (clearLoop g.grid).lines ∧ rowFull (checkAndClearMatches g).grid 0 = true) ∧
    (∀ i : Nat, (i : Int) < (clearLoop g.grid).lines →
      (checkAndClearMatches g).grid.getD i [] = g.grid.getD 0 []) := by
  rw [checkAndClearMatches_grid]
  have h0 := clearLoop_top_rows g.grid hwf 0 (Or.inl rfl)
  refine ⟨h0, ?_, fun i hi => clearLoop_top_rows g.grid hwf i (Or.inr hi)⟩
  intro hfull
  constructor
  · rw [clearLoop_lines_eq g.grid hwf]
    have hmem : 0 ∈ (List.range 17).filter (fun y => rowFull g.grid y) := by
      rw [List.mem_filter]
      exact ⟨by decide, hfull⟩
    have := List.length_pos_of_mem hmem
    omega
  · rw [rowFull_eq_of_wf _ (clearLoop_wf g.grid hwf) 0 (by decide), h0,
      ← rowFull_eq_of_wf g.grid hwf 0 (by decide)]
    exact hfull

theorem checkAndClearMatches_top_row_witness :
    (topFullGame.grid.WF ∧ rowFull topFullGame.grid 0 = true ∧
      (clearLoop topFullGame.grid).lines = 1) ∧
    ((checkAndClearMatches topFullGame).grid.getD 0 [] = topFullGame.grid.getD 0 [] ∧
    (rowFull topFullGame.grid 0 = true →
      1 ≤ (clearLoop topFullGame.grid).lines ∧
      rowFull (checkAndClearMatches topFullGame).grid 0 = true) ∧
    (∀ i : Nat, (i : Int) < (clearLoop topFullGame.grid).lines →
      (checkAndClearMatches topFullGame).grid.getD i [] = topFullGame.grid.getD 0 [])) :=
  ⟨by decide, checkAndClearMatches_top_row topFullGame (by decide)⟩

/-! ## Fill of the board after a clear -/

theorem rowFull_out_of_range (grid : Grid) (y : Nat) (hy : grid.length ≤ y) :
    rowFull grid y = false := by
  unfold rowFull cell
  have e : GridWidth.toNat = 10 := rfl
  rw [e, List.getD_eq_default _ _ hy]
  decide

theorem occRow_le_nine (grid : Grid) (y : Nat) (h : rowFull grid y = false) :
    occRow grid y ≤ 9 := by
  unfold occRow
  have hle : (List.range 10).countP (fun x => decide (cell grid y x ≠ 0)) ≤
      (List.range 10).length := List.countP_le_length _
  rw [List.length_range] at hle
  by_contra hc
  have heq : (List.range 10).countP (fun x => decide (cell grid y x ≠ 0)) =
      (List.range 10).length := by rw [List.length_range]; omega
  rw [List.countP_eq_length] at heq
  have : rowFull grid y = true := by
    unfold rowFull
    have e : GridWidth.toNat = 10 := rfl
    rw [e, List.all_eq_true]
    intro x hx
    have := heq x hx
    simpa using this
  rw [h] at this
  exact Bool.noConfusion this

theorem sum_map_le_nine (f : Nat → Nat) (l : List Nat) (h : ∀ y ∈ l, f y ≤ 9) :
    (l.map (fun y => (f y : Int))).sum ≤ 9 * (l.length : Int) := by
  induction l with
  | nil => simp
  | cons a t ih =>
    have ha := h a (List.mem_cons_self _ _)
    have ht := ih (fun y hy => h y (List.mem_cons_of_mem _ hy))
    simp only [List.map_cons, List.sum_cons, List.length_cons]
    push_cast
    omega

theorem clearLoop_rows_not_full (grid : Grid) (hwf : grid.WF) (h0 : rowFull grid 0 = false)
    (r : List Int) (hr : r ∈ (clearLoop grid).grid) : rowIsFull r = false := by
  rw [clearLoop_eq grid hwf] at hr
  dsimp only at hr
  rw [List.mem_append] at hr
  rcases hr with hm | hm
  · rw [List.eq_of_mem_replicate hm, ← rowFull_eq_of_wf grid hwf 0 (by decide)]
    exact h0
  · have := (List.mem_filter.mp hm).2
    simpa using this

theorem clearLoop_no_full_row (grid : Grid) (hwf : grid.WF) (h0 : rowFull grid 0 = false)
    (y : Nat) : rowFull (clearLoop grid).grid y = false := by
  have hwf2 := clearLoop_wf grid hwf
  by_cases hy : y < 17
  · rw [rowFull_eq_of_wf _ hwf2 y hy]
    have hlen : y < (clearLoop grid).grid.length := by rw [hwf2.1]; exact hy
    apply clearLoop_rows_not_full grid hwf h0
    rw [List.getD_eq_getElem _ _ hlen]
    exact List.getElem_mem _
  · exact rowFull_out_of_range _ y (by rw [hwf2.1]; omega)

/-- C28: when row 0 of the board is not full, the board left by
`checkAndClearMatches` has no full row, at most 153 occupied cells, and
`checkLevelComplete` returns true on it; `checkLevelComplete` returns false
exactly when at least 169 cells are occupied. -/
theorem checkAndClearMatches_level_complete (g : Game) (hwf : g.grid.WF)
    (h0 : rowFull g.grid 0 = false) :
    (∀ y : Nat, rowFull (checkAndClearMatches g).grid y = false) ∧
    countOccupied (checkAndClearMatches g).grid ≤ 153 ∧
    checkLevelComplete (checkAndClearMatches g) = true ∧
    (∀ g2 : Game, checkLevelComplete g2 = false ↔ 169 ≤ countOccupied g2.grid) := by
  have hrows : ∀ y : Nat, rowFull (checkAndClearMatches g).grid y = false := by
    intro y
    rw [checkAndClearMatches_grid]
    exact clearLoop_no_full_row g.grid hwf h0 y
  have hocc : countOccupied (checkAndClearMatches g).grid ≤ 153 := by
    rw [countOccupied_eq]
    have := sum_map_le_nine (occRow (checkAndClearMatches g).grid) (List.range 17)
      (fun y _ => occRow_le_nine _ y (hrows y))
    rw [List.length_range] at this
    omega
  refine ⟨hrows, hocc, ?_, ?_⟩
  · rw [checkLevelComplete_iff, fill_ratio_iff]
    omega
  · intro g2
    have h := (checkLevelComplete_iff g2).trans (fill_ratio_iff _)
    constructor
    · intro hf
      by_contra hc
      have : checkLevelComplete g2 = true := h.mpr (by omega)
      rw [hf] at this
      exact Bool.noConfusion this
    · intro hge
      cases hcl : checkLevelComplete g2 with
      | false => rfl
      | true =>
        have := h.mp hcl
        omega

theorem checkAndClearMatches_level_complete_witness :
    ({ sampleGame with grid := twoFullGrid } : Game).grid.WF ∧
    rowFull ({ sampleGame with grid := twoFullGrid } : Game).grid 0 = false ∧
    ((∀ y : Nat, rowFull (checkAndClearMatches { sampleGame with grid := twoFullGrid }).grid y
        = false) ∧
    countOccupied (checkAndClearMatches { sampleGame with grid := twoFullGrid }).grid ≤ 153 ∧
    checkLevelComplete (checkAndClearMatches { sampleGame with grid := twoFullGrid }) = true ∧
    (∀ g2 : Game, checkLevelComplete g2 = false ↔ 169 ≤ countOccupied g2.grid)) :=
  ⟨by decide, by decide,
    checkAndClearMatches_level_complete { sampleGame with grid := twoFullGrid }
      (by decide) (by decide)⟩

/-! ## Piece control keeps the active piece placeable -/

theorem goMod_succ_range (r : Int) (h1 : 0 ≤ r) (h2 : r ≤ 3) :
    0 ≤ goMod (r + 1) 4 ∧ goMod (r + 1) 4 ≤ 3 ∧ goMod (goMod (r + 1) 4 + 3) 4 = r := by
  unfold goMod
  rw [Int.tmod_eq_emod (by omega) (by omega)]
  rw [Int.tmod_eq_emod (by omega) (by omega)]
  omega

theorem canMove_side_ok (g : Game) (d : Int) (b : Bool) :
    canMove g d 0 = .ok b ↔ canMove { g with fallingX := g.fallingX + d } 0 0 = .ok b := by
  have hb : ∀ blocks, canMoveBlocks g d 0 blocks =
      canMoveBlocks { g with fallingX := g.fallingX + d } 0 0 blocks := by
    intro blocks
    induction blocks with
    | nil => rfl
    | cons c rest ih =>
      simp only [canMoveBlocks, ih, add_zero]
      have e : g.fallingX + c.1 + d = g.fallingX + d + c.1 := by ring
      rw [e]
  unfold canMove
  dsimp only
  cases shapeAt g.fallingCol g.fallingRotation with
  | none => constructor <;> intro h <;> cases h
  | some blocks =>
    dsimp only
    rw [hb]

theorem moveAttempt_valid (g : Game) (d : Int) (hv : canMove g 0 0 = .ok true) :
    ∃ x, moveAttempt g d = .ok { g with fallingX := x } ∧
      canMove { g with fallingX := x } 0 0 = .ok true := by
  rcases moveAttempt_cases g d with ⟨hc, hm⟩ | ⟨_, hm⟩ | ⟨hc, _⟩
  · exact ⟨g.fallingX + d, hm, (canMove_side_ok g d true).mp hc⟩
  · exact ⟨g.fallingX, hm, hv⟩
  · obtain ⟨blocks, hs, hl, _⟩ := canMove_ok_true g 0 0 hv
    rw [canMove_eq_ok g d 0 blocks hs hl] at hc
    cases hc

theorem rotatePiece_valid (g : Game) (hv : canMove g 0 0 = .ok true) :
    rotatePiece g = .ok g ∨
    (rotatePiece g = .ok { g with fallingRotation := goMod (g.fallingRotation + 1) 4 } ∧
      canMove { g with fallingRotation := goMod (g.fallingRotation + 1) 4 } 0 0 = .ok true) := by
  obtain ⟨blocks, hs, hl, hfit⟩ := canMove_ok_true g 0 0 hv
  obtain ⟨hc1, hc2, hr1, hr2⟩ := shapeAt_range _ _ _ hs
  obtain ⟨hn1, hn2, hback⟩ := goMod_succ_range _ hr1 hr2
  obtain ⟨b1, hs1, hl1⟩ :=
    shapeAt_defined g.fallingCol (goMod (g.fallingRotation + 1) 4) hc1 hc2 hn1 hn2
  unfold rotatePiece
  dsimp only
  rw [hs1]
  dsimp only
  cases hval : isValidPosition { g with fallingRotation := goMod (g.fallingRotation + 1) 4 } b1
  · left
    simp only [Bool.not_false, if_true]
    rw [hback, hs]
    dsimp only
    have hg : ({ g with fallingRotation := g.fallingRotation } : Game) = g := rfl
    have hv2 : isValidPosition g blocks = true := by
      rw [isValidPosition_eq_canMoveBlocks]; exact hfit
    rw [hg, hv2]
    rfl
  · right
    simp only [Bool.not_true]
    refine ⟨rfl, ?_⟩
    rw [canMove_eq_ok _ 0 0 b1 hs1 hl1, ← isValidPosition_eq_canMoveBlocks, hval]

theorem updateGameMove_valid (g : Game) (left right : Bool)
    (hv : canMove g 0 0 = .ok true) :
    (updateGameMove g left right).returned = true ∧
    canMove (updateGameMove g left right).state 0 0 = .ok true := by
  unfold updateGameMove
  dsimp only
  generalize (if left = true then (-1 : Int) else if right = true then 1 else 0) = md
  by_cases h1 : md ≠ 0
  · rw [if_pos h1]
    by_cases h2 : md ≠ g.lastMoveDir
    · rw [if_pos h2]
      obtain ⟨x, hm, hc⟩ := moveAttempt_valid g md hv
      rw [hm]
      refine ⟨rfl, ?_⟩
      simp only [Exec.next, Exec.state]
      refine (canMove_congr { g with fallingX := x } _ 0 0 true ?_ ?_ ?_ ?_ ?_).mpr hc <;> rfl
    · rw [if_neg h2]
      by_cases h3 : g.keyHeldFrames + 1 > g.initialMoveDelay
      · rw [if_pos h3]
        by_cases h4 : g.moveDelayCounter + 1 ≥ g.moveDelay
        · rw [if_pos h4]
          obtain ⟨g2, hg2⟩ : ∃ g2 : Game, g2 = { g with keyHeldFrames := g.keyHeldFrames + 1, moveDelayCounter := g.moveDelayCounter + 1 } := ⟨_, rfl⟩
          have hv2 : canMove g2 0 0 = .ok true := by
            rw [hg2]
            refine (canMove_congr g _ 0 0 true ?_ ?_ ?_ ?_ ?_).mpr hv <;> rfl
          obtain ⟨x, hm, hc⟩ := moveAttempt_valid g2 md hv2
          rw [hg2] at hm hc
          rw [hm]
          refine ⟨rfl, ?_⟩
          simp only [Exec.next, Exec.state]
          refine (canMove_congr _ _ 0 0 true ?_ ?_ ?_ ?_ ?_).mpr hc <;> rfl
        · rw [if_neg h4]
          refine ⟨rfl, ?_⟩
          simp only [Exec.state]
          refine (canMove_congr g _ 0 0 true ?_ ?_ ?_ ?_ ?_).mpr hv <;> rfl
      · rw [if_neg h3]
        refine ⟨rfl, ?_⟩
        simp only [Exec.state]
        refine (canMove_congr g _ 0 0 true ?_ ?_ ?_ ?_ ?_).mpr hv <;> rfl
  · rw [if_neg h1]
    refine ⟨rfl, ?_⟩
    simp only [Exec.state]
    refine (canMove_congr g _ 0 0 true ?_ ?_ ?_ ?_ ?_).mpr hv <;> rfl

/-- C29: when the active piece is placeable at its anchor and rotation
(`canMove(0, 0)` is true), it is still placeable after a horizontal move
attempt, after the whole horizontal-movement block of a tick, after a gravity
step that moves it down, after the descent loop of the hard drop, and after a
rotate request; each of these steps returns. -/
theorem piece_control_keeps_placeable (g : Game) (hv : canMove g 0 0 = .ok true) :
    (∀ d : Int, (moveAttempt g d).returned = true ∧
      canMove (moveAttempt g d).state 0 0 = .ok true) ∧
    (∀ left right : Bool, (updateGameMove g left right).returned = true ∧
      canMove (updateGameMove g left right).state 0 0 = .ok true) ∧
    (∀ dr : Draw, g.framesCounter + 1 ≥ g.speed → canMove g 0 1 = .ok true →
      (updateGameGravity g dr).returned = true ∧
      (updateGameGravity g dr).state.fallingY = g.fallingY + 1 ∧
      canMove (updateGameGravity g dr).state 0 0 = .ok true) ∧
    ((hardDropDescent g).returned = true ∧
      canMove (hardDropDescent g).state 0 0 = .ok true) ∧
    ((rotatePiece g).returned = true ∧
      canMove (rotatePiece g).state 0 0 = .ok true) := by
  refine ⟨?_, fun left right => updateGameMove_valid g left right hv, ?_, ?_, ?_⟩
  · intro d
    obtain ⟨x, hm, hc⟩ := moveAttempt_valid g d hv
    rw [hm]
    exact ⟨rfl, hc⟩
  · intro dr hdue hdown
    have h2 : canMove { g with framesCounter := 0 } 0 1 = .ok true :=
      (canMove_congr g { g with framesCounter := 0 } 0 1 true rfl rfl rfl rfl rfl).mpr hdown
    have h3 := (canMove_down_ok { g with framesCounter := 0 } true).mp h2
    unfold updateGameGravity
    dsimp only
    rw [if_pos hdue, h2]
    dsimp only
    rw [if_pos rfl]
    exact ⟨rfl, rfl, h3⟩
  · obtain ⟨y2, hy2, hloop, hall, _⟩ :=
      hardDropLoop_valid ((18 - g.fallingY).toNat + 1) g hv (by omega)
    unfold hardDropDescent
    rw [hloop]
    exact ⟨rfl, hall y2 hy2 (le_refl _)⟩
  · rcases rotatePiece_valid g hv with h | ⟨h, hc⟩
    · rw [h]; exact ⟨rfl, hv⟩
    · rw [h]; exact ⟨rfl, hc⟩

theorem piece_control_keeps_placeable_witness :
    canMove dueGame 0 0 = .ok true ∧
    (dueGame.framesCounter + 1 ≥ dueGame.speed ∧ canMove dueGame 0 1 = .ok true) ∧
    ((∀ d : Int, (moveAttempt dueGame d).returned = true ∧
      canMove (moveAttempt dueGame d).state 0 0 = .ok true) ∧
    (∀ left right : Bool, (updateGameMove dueGame left right).returned = true ∧
      canMove (updateGameMove dueGame left right).state 0 0 = .ok true) ∧
    (∀ dr : Draw, dueGame.framesCounter + 1 ≥ dueGame.speed →
      canMove dueGame 0 1 = .ok true →
      (updateGameGravity dueGame dr).returned = true ∧
      (updateGameGravity dueGame dr).state.fallingY = dueGame.fallingY + 1 ∧
      canMove (updateGameGravity dueGame dr).state 0 0 = .ok true) ∧
    ((hardDropDescent dueGame).returned = true ∧
      canMove (hardDropDescent dueGame).state 0 0 = .ok true) ∧
    ((rotatePiece dueGame).returned = true ∧
      canMove (rotatePiece dueGame).state 0 0 = .ok true)) :=
  ⟨by decide, by decide, piece_control_keeps_placeable dueGame (by decide)⟩

/-! ## startGame -/

theorem length_three {α : Type} (l : List α) (h : l.length = 3) :
    ∃ a b c, l = [a, b, c] := by
  match l, h with
  | [a, b, c], _ => exact ⟨a, b, c, rfl⟩

theorem cell_emptyGrid (y x : Nat) : cell emptyGrid y x = 0 := by
  unfold cell emptyGrid emptyRow
  simp only [List.getD_eq_getElem?_getD, List.getElem?_replicate]
  by_cases hy : y < 17
  · rw [if_pos hy]
    simp only [Option.getD_some, List.getElem?_replicate]
    by_cases hx : x < 10
    · rw [if_pos hx]; rfl
    · rw [if_neg hx]; rfl
  · rw [if_neg hy]
    rfl

/-- The piece `col` at rotation `rot` fits at the spawn anchor (5, 0) of an
empty grid. -/
theorem canMove_spawn_empty (g : Game) (hg : g.grid = emptyGrid) (hx : g.fallingX = 5)
    (hy : g.fallingY = 0) (hc1 : 1 ≤ g.fallingCol) (hc2 : g.fallingCol ≤ 11)
    (hr1 : 0 ≤ g.fallingRotation) (hr2 : g.fallingRotation ≤ 3) :
    canMove g 0 0 = .ok true := by
  obtain ⟨blocks, hs, hl⟩ := shapeAt_defined _ _ hc1 hc2 hr1 hr2
  rw [canMove_eq_ok g 0 0 blocks hs hl]
  congr 1
  rw [canMoveBlocks_true_iff]
  intro c hc
  have hoff := shapeAt_offsets _ _ _ hs c hc
  unfold blocked
  rw [hg, hx, hy, cell_emptyGrid]
  omega

theorem startGame_eq (g : Game) (d0 d1 d2 dSpawn : Draw) (ht : g.timeLimit = 122)
    (hq : g.nextPieces.length = 3) (hs : g.nextSpecial.length = 3) :
    spawnPieceAssign
      (fillQueue (fillQueue (fillQueue
        { g with grid := List.replicate GridHeight.toNat (List.replicate GridWidth.toNat 0),
                 score := 0, level := 1, speed := VelocidadInicial, timer := g.timeLimit,
                 currentBgm := 0 } 0 d0) 1 d1) 2 d2) dSpawn =
      { g with grid := emptyGrid, score := 0, level := 1, speed := 60, timer := 122,
               currentBgm := 0, fallingX := 5, fallingY := 0,
               fallingCol := (d0.intn.val : Int) + 1, fallingSpecial := d0.special,
               nextPieces := [(d1.intn.val : Int) + 1, (d2.intn.val : Int) + 1,
                 (dSpawn.intn.val : Int) + 1],
               nextSpecial := [d1.special, d2.special, dSpawn.special] } := by
  obtain ⟨a, b, c, hq2⟩ := length_three _ hq
  obtain ⟨sa, sb, sc, hs2⟩ := length_three _ hs
  rw [spawnPieceAssign_eq _ dSpawn ((d0.intn.val : Int) + 1) ((d1.intn.val : Int) + 1)
    ((d2.intn.val : Int) + 1) d0.special d1.special d2.special
    (by simp [fillQueue, hq2]) (by simp [fillQueue, hs2])]
  rw [ht]
  rfl

/-- C30: from a state with time limit 122, rotation index in 0..3 and the two
queue arrays of length 3, `startGame` returns for every random draw; it leaves
an empty grid, score 0, level 1, speed 60, timer 122, and the first drawn piece
as active piece at anchor (5, 0), where it is placeable; `Estado` and the
high-score list are the ones of the state before the call. -/
theorem startGame_session (g : Game) (d0 d1 d2 dSpawn : Draw)
    (ht : g.timeLimit = 122) (hr1 : 0 ≤ g.fallingRotation) (hr2 : g.fallingRotation ≤ 3)
    (hq : g.nextPieces.length = 3) (hs : g.nextSpecial.length = 3) :
    startGame g d0 d1 d2 dSpawn =
      .ok { g with grid := emptyGrid, score := 0, level := 1, speed := 60, timer := 122,
                   currentBgm := 0, fallingX := 5, fallingY := 0,
                   fallingCol := (d0.intn.val : Int) + 1, fallingSpecial := d0.special,
                   nextPieces := [(d1.intn.val : Int) + 1, (d2.intn.val : Int) + 1,
                     (dSpawn.intn.val : Int) + 1],
                   nextSpecial := [d1.special, d2.special, dSpawn.special] } ∧
    canMove (startGame g d0 d1 d2 dSpawn).state 0 0 = .ok true ∧
    (∀ y x : Nat, cell (startGame g d0 d1 d2 dSpawn).state.grid y x = 0) ∧
    (startGame g d0 d1 d2 dSpawn).state.Estado = g.Estado ∧
    (startGame g d0 d1 d2 dSpawn).state.highScores = g.highScores := by
  have hfit : canMove
      { g with grid := emptyGrid, score := 0, level := 1, speed := 60, timer := 122,
               currentBgm := 0, fallingX := 5, fallingY := 0,
               fallingCol := (d0.intn.val : Int) + 1, fallingSpecial := d0.special,
               nextPieces := [(d1.intn.val : Int) + 1, (d2.intn.val : Int) + 1,
                 (dSpawn.intn.val : Int) + 1],
               nextSpecial := [d1.special, d2.special, dSpawn.special] } 0 0 = .ok true := by
    apply canMove_spawn_empty _ rfl rfl rfl
    · show 1 ≤ (d0.intn.val : Int) + 1
      omega
    · show (d0.intn.val : Int) + 1 ≤ 11
      have := d0.intn.isLt
      omega
    · exact hr1
    · exact hr2
  have hstart : startGame g d0 d1 d2 dSpawn =
      .ok { g with grid := emptyGrid, score := 0, level := 1, speed := 60, timer := 122,
                   currentBgm := 0, fallingX := 5, fallingY := 0,
                   fallingCol := (d0.intn.val : Int) + 1, fallingSpecial := d0.special,
                   nextPieces := [(d1.intn.val : Int) + 1, (d2.intn.val : Int) + 1,
                     (dSpawn.intn.val : Int) + 1],
                   nextSpecial := [d1.special, d2.special, dSpawn.special] } := by
    have hassign := startGame_eq g d0 d1 d2 dSpawn ht hq hs
    unfold startGame
    dsimp only
    rw [if_neg (by decide)]
    unfold spawnPiece
    dsimp only
    rw [hassign, hfit]
    rfl
  rw [hstart]
  exact ⟨rfl, hfit, fun y x => cell_emptyGrid y x, rfl, rfl⟩

theorem startGame_session_witness :
    (turnedGame.timeLimit = 122 ∧ 0 ≤ turnedGame.fallingRotation ∧
      turnedGame.fallingRotation ≤ 3 ∧ turnedGame.nextPieces.length = 3 ∧
      turnedGame.nextSpecial.length = 3) ∧
    startGame turnedGame sampleDraw sampleDraw sampleDraw sampleDraw =
      .ok { turnedGame with
                   grid := emptyGrid, score := 0, level := 1, speed := 60, timer := 122,
                   currentBgm := 0, fallingX := 5, fallingY := 0,
                   fallingCol := (sampleDraw.intn.val : Int) + 1,
                   fallingSpecial := sampleDraw.special,
                   nextPieces := [(sampleDraw.intn.val : Int) + 1,
                     (sampleDraw.intn.val : Int) + 1, (sampleDraw.intn.val : Int) + 1],
                   nextSpecial := [sampleDraw.special, sampleDraw.special, sampleDraw.special] } ∧
    canMove (startGame turnedGame sampleDraw sampleDraw sampleDraw sampleDraw).state 0 0
      = .ok true ∧
    (∀ y x : Nat,
      cell (startGame turnedGame sampleDraw sampleDraw sampleDraw sampleDraw).state.grid y x = 0) ∧
    (startGame turnedGame sampleDraw sampleDraw sampleDraw sampleDraw).state.Estado
      = turnedGame.Estado ∧
    (startGame turnedGame sampleDraw sampleDraw sampleDraw sampleDraw).state.highScores
      = turnedGame.highScores :=
  ⟨by decide,
    startGame_session turnedGame sampleDraw sampleDraw sampleDraw sampleDraw
      (by decide) (by decide) (by decide) (by decide) (by decide)⟩

/-! ## Session invariant: identifiers and rotation index stay in range -/

theorem pieceInRange_of_key (g g2 : Game) (hk : pieceKey g2 = pieceKey g)
    (h : PieceInRange g) : PieceInRange g2 := by
  unfold pieceKey at hk
  simp only [Prod.mk.injEq] at hk
  obtain ⟨h1, h2, h3, h4⟩ := hk
  unfold PieceInRange QueueInRange at *
  rw [h1, h2, h3, h4]
  exact h

theorem state_ok (x : Game) : Exec.state (.ok x) = x := rfl

theorem next_state_cases (r : Exec Game) (f : Game → Exec Game) :
    (r.next f).state = r.state ∨ ∃ g1, r = .ok g1 ∧ (r.next f).state = (f g1).state := by
  cases r with
  | error s => left; rfl
  | ok g1 => right; exact ⟨g1, rfl, rfl⟩

theorem next_preserves (P : Game → Prop) (r : Exec Game) (f : Game → Exec Game)
    (hr : P r.state) (hf : ∀ g1, P g1 → P (f g1).state) : P (r.next f).state := by
  cases r with
  | error s => exact hr
  | ok g1 => exact hf g1 hr

theorem gameOver_key (g : Game) : pieceKey (gameOver g).state = pieceKey g := by
  obtain ⟨hs, h⟩ := gameOver_state_eq g
  rw [h]
  rfl

theorem nextLevel_key (g : Game) : pieceKey (nextLevel g).state = pieceKey g := by
  obtain ⟨c, h⟩ := nextLevel_state g
  rw [h]
  rfl

theorem updateGameTimer_key (g : Game) (b : Bool) :
    pieceKey (updateGameTimer g b).state = pieceKey g := by
  unfold updateGameTimer
  dsimp only
  split_ifs
  · exact gameOver_key _
  · exact nextLevel_key _
  · rfl
  · rfl

theorem moveAttempt_key (g : Game) (d : Int) :
    pieceKey (moveAttempt g d).state = pieceKey g := by
  rcases moveAttempt_cases g d with ⟨_, h⟩ | ⟨_, h⟩ | ⟨_, h⟩ <;> rw [h] <;> rfl

theorem updateGameMove_key (g : Game) (left right : Bool) :
    pieceKey (updateGameMove g left right).state = pieceKey g := by
  unfold updateGameMove
  dsimp only
  generalize (if left = true then (-1 : Int) else if right = true then 1 else 0) = md
  split_ifs
  · apply next_preserves (fun s => pieceKey s = pieceKey g)
    · exact moveAttempt_key g md
    · intro g1 h1
      exact h1
  · apply next_preserves (fun s => pieceKey s = pieceKey g)
    · exact moveAttempt_key _ md
    · intro g1 h1
      exact h1
  · rfl
  · rfl
  · rfl

theorem hardDropLoop_key (fuel : Nat) (g : Game) :
    pieceKey (hardDropLoop fuel g).state = pieceKey g := by
  induction fuel generalizing g with
  | zero => rfl
  | succ fuel ih =>
    rw [hardDropLoop]
    cases hcm : canMove g 0 1 with
    | error s =>
      rw [canMove_error_state g 0 1 s hcm]
      rfl
    | ok fits =>
      cases fits
      · rfl
      · dsimp only
        rw [if_pos rfl, ih]
        rfl

theorem lockPieceCommit_key (blocks : List (Int × Int)) (g : Game) :
    pieceKey (lockPieceCommit g blocks).state = pieceKey g := by
  induction blocks generalizing g with
  | nil => rfl
  | cons c rest ih =>
    rw [lockPieceCommit]
    split_ifs
    · rfl
    · rw [ih]
      rfl
    · exact ih g

theorem checkAndClearMatches_key (g : Game) :
    pieceKey (checkAndClearMatches g) = pieceKey g := by
  have h : ∃ gr sc, checkAndClearMatches g = { g with grid := gr, score := sc } := by
    unfold checkAndClearMatches
    by_cases h : (clearLoop g.grid).lines > 0
    · exact ⟨_, _, if_pos h⟩
    · exact ⟨_, g.score, if_neg h⟩
  obtain ⟨gr, sc, e⟩ := h
  rw [e]
  rfl

theorem lockPieceScore_key (g : Game) : pieceKey (lockPieceScore g) = pieceKey g := by
  unfold lockPieceScore
  dsimp only
  split_ifs <;> rfl

theorem lockPieceAdjust_key (g : Game) (s : List (Int × Int)) :
    pieceKey (lockPieceAdjust g s) = pieceKey g := by
  unfold lockPieceAdjust
  split_ifs <;> rfl

theorem lockPiece_key (g : Game) : pieceKey (lockPiece g).state = pieceKey g := by
  unfold lockPiece
  cases shapeAt g.fallingCol g.fallingRotation with
  | none => rfl
  | some shape =>
    dsimp only
    have h := lockPieceCommit_key shape (lockPieceAdjust g shape)
    rw [lockPieceAdjust_key] at h
    cases hc : lockPieceCommit (lockPieceAdjust g shape) shape with
    | error s =>
      rw [hc] at h
      exact h
    | ok g1 =>
      rw [hc] at h
      rw [state_ok] at h
      dsimp only
      rw [state_ok, checkAndClearMatches_key, lockPieceScore_key]
      exact h

theorem updateGameKeys_key (g : Game) (pause escape : Bool) :
    pieceKey (updateGameKeys g pause escape).state = pieceKey g := by
  unfold updateGameKeys
  dsimp only
  apply next_preserves (fun s => pieceKey s = pieceKey g)
  · split_ifs <;> rfl
  · intro g1 h1
    dsimp only
    split_ifs <;> exact h1

theorem goMod_four_range (x : Int) (hx : 0 ≤ x) : 0 ≤ goMod x 4 ∧ goMod x 4 ≤ 3 := by
  unfold goMod
  rw [Int.tmod_eq_emod hx (by omega)]
  omega

theorem rotatePiece_state (g : Game) (h1 : 0 ≤ g.fallingRotation) :
    ∃ r, (0 ≤ r ∧ r ≤ 3) ∧ (rotatePiece g).state = { g with fallingRotation := r } := by
  have ha := goMod_four_range (g.fallingRotation + 1) (by omega)
  have hb := goMod_four_range (goMod (g.fallingRotation + 1) 4 + 3) (by omega)
  have hc := goMod_four_range (goMod (goMod (g.fallingRotation + 1) 4 + 3) 4 + 1) (by omega)
  unfold rotatePiece
  dsimp only
  cases shapeAt g.fallingCol (goMod (g.fallingRotation + 1) 4) with
  | none => exact ⟨_, ha, rfl⟩
  | some b1 =>
    dsimp only
    split_ifs
    · cases shapeAt g.fallingCol (goMod (goMod (g.fallingRotation + 1) 4 + 3) 4) with
      | none => exact ⟨_, hb, rfl⟩
      | some b2 =>
        dsimp only
        split_ifs
        · exact ⟨_, hc, rfl⟩
        · exact ⟨_, hb, rfl⟩
    · exact ⟨_, ha, rfl⟩

theorem rotatePiece_inRange (g : Game) (h : PieceInRange g) :
    PieceInRange (rotatePiece g).state := by
  obtain ⟨r, hr, hst⟩ := rotatePiece_state g h.2.1.1
  rw [hst]
  exact ⟨h.1, hr, h.2.2⟩

theorem spawnPiece_inRange (g : Game) (d : Draw) (h : QueueInRange g) :
    PieceInRange (spawnPiece g d).state := by
  obtain ⟨hr, hq, hs, hall⟩ := h
  obtain ⟨q0, q1, q2, hq2⟩ : ∃ a b c, g.nextPieces = [a, b, c] := by
    match hl : g.nextPieces, hq with
    | [a, b, c], _ => exact ⟨a, b, c, rfl⟩
  obtain ⟨s0, s1, s2, hs2⟩ : ∃ a b c, g.nextSpecial = [a, b, c] := by
    match hl : g.nextSpecial, hs with
    | [a, b, c], _ => exact ⟨a, b, c, rfl⟩
  have hassign := spawnPieceAssign_eq g d q0 q1 q2 s0 s1 s2 hq2 hs2
  have hin : PieceInRange (spawnPieceAssign g d) := by
    rw [hassign]
    rw [hq2] at hall
    refine ⟨hall q0 (by simp), hr, rfl, rfl, ?_⟩
    intro q hq
    have hq3 : q = q1 ∨ q = q2 ∨ q = (d.intn.val : Int) + 1 := by simpa using hq
    rcases hq3 with e | e | e
    · rw [e]; exact hall q1 (by simp)
    · rw [e]; exact hall q2 (by simp)
    · rw [e]
      have := d.intn.isLt
      omega
  rcases spawnPiece_cases g d with ⟨s, _, h2⟩ | ⟨_, h2⟩ | ⟨_, h2⟩
  · rw [h2]; exact hin
  · rw [h2]; exact hin
  · rw [h2]
    exact pieceInRange_of_key _ _ (gameOver_key _) hin

theorem updateGameHardDrop_inRange (g : Game) (pressed : Bool) (d : Draw)
    (h : PieceInRange g) : PieceInRange (updateGameHardDrop g pressed d).state := by
  unfold updateGameHardDrop
  split_ifs
  · apply next_preserves PieceInRange
    · apply next_preserves PieceInRange
      · exact pieceInRange_of_key _ _ (hardDropLoop_key _ g) h
      · intro g1 h1
        exact pieceInRange_of_key _ _ (lockPiece_key g1) h1
    · intro g2 h2
      exact spawnPiece_inRange g2 d h2.2
  · exact h

theorem updateGameGravity_inRange (g : Game) (d : Draw) (h : PieceInRange g) :
    PieceInRange (updateGameGravity g d).state := by
  unfold updateGameGravity
  dsimp only
  split_ifs
  · cases hcm : canMove { g with framesCounter := 0 } 0 1 with
    | error s =>
      rw [canMove_error_state _ 0 1 s hcm]
      exact h
    | ok fits =>
      cases fits
      · dsimp only
        apply next_preserves PieceInRange
        · exact pieceInRange_of_key _ _ (lockPiece_key _) h
        · intro g3 h3
          exact spawnPiece_inRange g3 d h3.2
      · exact h
  · exact h

theorem updateGame_inRange (g : Game) (inp : Input) (h : PieceInRange g) :
    PieceInRange (updateGame g inp).state := by
  unfold updateGame
  apply next_preserves PieceInRange
  · apply next_preserves PieceInRange
    · apply next_preserves PieceInRange
      · apply next_preserves PieceInRange
        · exact pieceInRange_of_key _ _ (updateGameTimer_key g _) h
        · intro g1 h1
          exact pieceInRange_of_key _ _ (updateGameMove_key g1 _ _) h1
      · intro g2 h2
        apply updateGameHardDrop_inRange
        unfold updateGameSoftDrop
        split_ifs
        · exact h2
        · exact h2
    · intro g3 h3
      exact updateGameGravity_inRange g3 _ h3
  · intro g4 h4
    exact pieceInRange_of_key _ _ (updateGameKeys_key g4 _ _) h4

theorem startGame_inRange (g : Game) (d0 d1 d2 dSpawn : Draw)
    (hr1 : 0 ≤ g.fallingRotation) (hr2 : g.fallingRotation ≤ 3)
    (hq : g.nextPieces.length = 3) (hs : g.nextSpecial.length = 3) :
    PieceInRange (startGame g d0 d1 d2 dSpawn).state := by
  obtain ⟨q0, q1, q2, hq2⟩ : ∃ a b c, g.nextPieces = [a, b, c] := by
    match hl : g.nextPieces, hq with
    | [a, b, c], _ => exact ⟨a, b, c, rfl⟩
  obtain ⟨s0, s1, s2, hs2⟩ : ∃ a b c, g.nextSpecial = [a, b, c] := by
    match hl : g.nextSpecial, hs with
    | [a, b, c], _ => exact ⟨a, b, c, rfl⟩
  unfold startGame
  dsimp only
  rw [if_neg (by decide)]
  apply spawnPiece_inRange
  refine ⟨⟨hr1, hr2⟩, ?_, ?_, ?_⟩
  · simp [fillQueue, hq2]
  · simp [fillQueue, hs2]
  · intro q hq
    have hq3 : q = (d0.intn.val : Int) + 1 ∨ q = (d1.intn.val : Int) + 1 ∨
        q = (d2.intn.val : Int) + 1 := by
      simpa [fillQueue, hq2] using hq
    have := d0.intn.isLt
    have := d1.intn.isLt
    have := d2.intn.isLt
    rcases hq3 with e | e | e <;> rw [e] <;> omega

theorem sessionReach_inRange (g : Game) (h : SessionReach g) : PieceInRange g := by
  induction h with
  | start g0 d0 d1 d2 dSpawn h1 h2 h3 h4 => exact startGame_inRange g0 d0 d1 d2 dSpawn h1 h2 h3 h4
  | spawn g d _ ih => exact spawnPiece_inRange g d ih.2
  | rotate g _ ih => exact rotatePiece_inRange g ih
  | lock g _ ih => exact pieceInRange_of_key _ _ (lockPiece_key g) ih
  | tick g inp _ ih => exact updateGame_inRange g inp ih

theorem rotatePiece_returns (g : Game) (h : PieceInRange g) :
    (rotatePiece g).returned = true := by
  obtain ⟨⟨hc1, hc2⟩, ⟨hr1, hr2⟩, _⟩ := h
  have ha := goMod_four_range (g.fallingRotation + 1) (by omega)
  have hb := goMod_four_range (goMod (g.fallingRotation + 1) 4 + 3) (by omega)
  obtain ⟨b1, hs1, _⟩ := shapeAt_defined g.fallingCol _ hc1 hc2 ha.1 ha.2
  obtain ⟨b2, hs2, _⟩ := shapeAt_defined g.fallingCol _ hc1 hc2 hb.1 hb.2
  unfold rotatePiece
  dsimp only
  rw [hs1]
  dsimp only
  split_ifs
  · rw [hs2]
    dsimp only
    split_ifs <;> rfl
  · rfl

/-- C22: in every state of a session (reached from `startGame` by
`spawnPiece`, rotate requests, `lockPiece` and ticks of `updateGame`, with any
random draws) the active identifier and the three queued identifiers are in
1..11 and the rotation index is in 0..3; the shape lookup of `canMove` and
`lockPiece` is defined, `canMove` returns for every displacement, and the
rotate request returns. -/
theorem session_lookups_defined (g : Game) (h : SessionReach g) :
    (1 ≤ g.fallingCol ∧ g.fallingCol ≤ 11) ∧
    (g.nextPieces.length = 3 ∧ ∀ q ∈ g.nextPieces, 1 ≤ q ∧ q ≤ 11) ∧
    (0 ≤ g.fallingRotation ∧ g.fallingRotation ≤ 3) ∧
    (∃ blocks, shapeAt g.fallingCol g.fallingRotation = some blocks ∧ 0 < blocks.length) ∧
    (∀ q ∈ g.nextPieces, ∃ blocks, shapeAt q 0 = some blocks ∧ 0 < blocks.length) ∧
    (∀ dx dy : Int, (canMove g dx dy).returned = true) ∧
    (rotatePiece g).returned = true := by
  have hin := sessionReach_inRange g h
  have hret := rotatePiece_returns g hin
  obtain ⟨⟨hc1, hc2⟩, ⟨hr1, hr2⟩, hq, _, hall⟩ := hin
  obtain ⟨blocks, hs, hl⟩ := shapeAt_defined g.fallingCol g.fallingRotation hc1 hc2 hr1 hr2
  refine ⟨⟨hc1, hc2⟩, ⟨hq, hall⟩, ⟨hr1, hr2⟩, ⟨blocks, hs, hl⟩, ?_, ?_, hret⟩
  · intro q hq
    exact shapeAt_defined q 0 (hall q hq).1 (hall q hq).2 (le_refl _) (by omega)
  · intro dx dy
    rw [canMove_eq_ok g dx dy blocks hs hl]
    rfl

theorem sessionSample_reach : SessionReach sessionSample :=
  SessionReach.tick _ _
    (SessionReach.rotate _
      (SessionReach.start turnedGame sampleDraw sampleDraw sampleDraw sampleDraw
        (by decide) (by decide) (by decide) (by decide)))

theorem session_lookups_defined_witness :
    SessionReach sessionSample ∧
    ((1 ≤ sessionSample.fallingCol ∧ sessionSample.fallingCol ≤ 11) ∧
    (sessionSample.nextPieces.length = 3 ∧ ∀ q ∈ sessionSample.nextPieces, 1 ≤ q ∧ q ≤ 11) ∧
    (0 ≤ sessionSample.fallingRotation ∧ sessionSample.fallingRotation ≤ 3) ∧
    (∃ blocks, shapeAt sessionSample.fallingCol sessionSample.fallingRotation = some blocks ∧
      0 < blocks.length) ∧
    (∀ q ∈ sessionSample.nextPieces, ∃ blocks, shapeAt q 0 = some blocks ∧ 0 < blocks.length) ∧
    (∀ dx dy : Int, (canMove sessionSample dx dy).returned = true) ∧
    (rotatePiece sessionSample).returned = true) :=
  ⟨sessionSample_reach, session_lookups_defined sessionSample sessionSample_reach⟩

/-! ## Delayed auto-shift -/

theorem updateGameMove_first (s : Game) (left right : Bool) (dir : Int)
    (hdir : dir = if left then -1 else if right then 1 else 0) (hne : dir ≠ 0)
    (h : dir ≠ s.lastMoveDir) :
    updateGameMove s left right =
      (moveAttempt s dir).next fun g1 =>
        .ok { g1 with moveDelayCounter := 0, keyHeldFrames := 1, lastMoveDir := dir } := by
  unfold updateGameMove
  dsimp only
  rw [← hdir, if_pos hne, if_pos h]

theorem updateGameMove_repeat (s : Game) (left right : Bool) (dir : Int)
    (hdir : dir = if left then -1 else if right then 1 else 0) (hne : dir ≠ 0)
    (h : dir = s.lastMoveDir) (h3 : s.keyHeldFrames + 1 > s.initialMoveDelay)
    (h4 : s.moveDelayCounter + 1 ≥ s.moveDelay) :
    updateGameMove s left right =
      (moveAttempt { s with keyHeldFrames := s.keyHeldFrames + 1,
                            moveDelayCounter := s.moveDelayCounter + 1 } dir).next
        fun g3 => .ok { g3 with moveDelayCounter := 0 } := by
  unfold updateGameMove
  dsimp only
  rw [← hdir, if_pos hne, if_neg (not_not.mpr h), if_pos h3, if_pos h4]

theorem updateGameMove_wait (s : Game) (left right : Bool) (dir : Int)
    (hdir : dir = if left then -1 else if right then 1 else 0) (hne : dir ≠ 0)
    (h : dir = s.lastMoveDir) (h3 : s.keyHeldFrames + 1 > s.initialMoveDelay)
    (h4 : ¬ s.moveDelayCounter + 1 ≥ s.moveDelay) :
    updateGameMove s left right =
      .ok { s with keyHeldFrames := s.keyHeldFrames + 1,
                   moveDelayCounter := s.moveDelayCounter + 1 } := by
  unfold updateGameMove
  dsimp only
  rw [← hdir, if_pos hne, if_neg (not_not.mpr h), if_pos h3, if_neg h4]

theorem updateGameMove_delay (s : Game) (left right : Bool) (dir : Int)
    (hdir : dir = if left then -1 else if right then 1 else 0) (hne : dir ≠ 0)
    (h : dir = s.lastMoveDir) (h3 : ¬ s.keyHeldFrames + 1 > s.initialMoveDelay) :
    updateGameMove s left right = .ok { s with keyHeldFrames := s.keyHeldFrames + 1 } := by
  unfold updateGameMove
  dsimp only
  rw [← hdir, if_pos hne, if_neg (not_not.mpr h), if_neg h3]

theorem heldState_eq (g : Game) (x : Int) (n : Nat) (dir khf lmd mdc : Int)
    (h1 : khf = (n : Int)) (h2 : lmd = if n = 0 then 0 else dir)
    (h3 : mdc = if n ≤ 10 then 0 else ((n : Int) - 10) % 4) :
    ({ g with fallingX := x, keyHeldFrames := khf, lastMoveDir := lmd,
              moveDelayCounter := mdc } : Game) = heldState g x n dir := by
  subst h1 h2 h3
  rfl

theorem moveAttempt_held (g : Game) (s : Game) (dir : Int) (blocks : List (Int × Int))
    (hs : shapeAt g.fallingCol g.fallingRotation = some blocks) (hl : 0 < blocks.length)
    (h1 : s.grid = g.grid) (h3 : s.fallingY = g.fallingY)
    (h4 : s.fallingCol = g.fallingCol) (h5 : s.fallingRotation = g.fallingRotation) :
    moveAttempt s dir =
      .ok { s with fallingX :=
        if (canMove { g with fallingX := s.fallingX } dir 0 = .ok true) then s.fallingX + dir
        else s.fallingX } := by
  have hcongr : ∀ b, canMove s dir 0 = .ok b ↔
      canMove { g with fallingX := s.fallingX } dir 0 = .ok b := by
    intro b
    refine (canMove_congr { g with fallingX := s.fallingX } s dir 0 b ?_ ?_ ?_ ?_ ?_)
    · exact h1
    · rfl
    · exact h3
    · exact h4
    · exact h5
  rcases moveAttempt_cases s dir with ⟨hc, hm⟩ | ⟨hc, hm⟩ | ⟨hc, _⟩
  · rw [hm, if_pos ((hcongr true).mp hc)]
  · have hc2 := (hcongr false).mp hc
    rw [hm, hc2, if_neg (by intro h; cases h)]
  · rw [canMove_eq_ok s dir 0 blocks (by rw [h4, h5]; exact hs) hl] at hc
    cases hc

theorem updateGameMove_held (g : Game) (x : Int) (n : Nat) (dir : Int) (left right : Bool)
    (hdir : dir = if left then -1 else if right then 1 else 0) (hne : dir ≠ 0)
    (hd1 : g.initialMoveDelay = 10) (hd2 : g.moveDelay = 4)
    (blocks : List (Int × Int))
    (hs : shapeAt g.fallingCol g.fallingRotation = some blocks) (hl : 0 < blocks.length) :
    updateGameMove (heldState g x n dir) left right =
      .ok (heldState g
        (if (n = 0 ∨ (13 ≤ n ∧ (n - 10) % 4 = 3)) ∧
            canMove { g with fallingX := x } dir 0 = .ok true then x + dir else x)
        (n + 1) dir) := by
  obtain ⟨xm, hxm⟩ : ∃ xm : Int,
      xm = if (canMove { g with fallingX := x } dir 0 = .ok true) then x + dir else x := ⟨_, rfl⟩
  have hdue : (n = 0 ∨ (13 ≤ n ∧ (n - 10) % 4 = 3)) →
      (if (n = 0 ∨ (13 ≤ n ∧ (n - 10) % 4 = 3)) ∧
          canMove { g with fallingX := x } dir 0 = .ok true then x + dir else x) = xm := by
    intro h
    rw [hxm]
    by_cases hc : canMove { g with fallingX := x } dir 0 = .ok true
    · rw [if_pos ⟨h, hc⟩, if_pos hc]
    · rw [if_neg (fun h2 => hc h2.2), if_neg hc]
  have hnot : ¬ (n = 0 ∨ (13 ≤ n ∧ (n - 10) % 4 = 3)) →
      (if (n = 0 ∨ (13 ≤ n ∧ (n - 10) % 4 = 3)) ∧
          canMove { g with fallingX := x } dir 0 = .ok true then x + dir else x) = x := by
    intro h
    rw [if_neg (fun h2 => h h2.1)]
  have hm1 : moveAttempt (heldState g x n dir) dir =
      .ok { heldState g x n dir with fallingX := xm } := by
    rw [hxm]
    exact moveAttempt_held g (heldState g x n dir) dir blocks hs hl rfl rfl rfl rfl
  have hm2 : moveAttempt { heldState g x n dir with
        keyHeldFrames := (heldState g x n dir).keyHeldFrames + 1,
        moveDelayCounter := (heldState g x n dir).moveDelayCounter + 1 } dir =
      .ok { heldState g x n dir with
        keyHeldFrames := (heldState g x n dir).keyHeldFrames + 1,
        moveDelayCounter := (heldState g x n dir).moveDelayCounter + 1, fallingX := xm } := by
    rw [hxm]
    exact moveAttempt_held g _ dir blocks hs hl rfl rfl rfl rfl
  by_cases hn0 : n = 0
  · have hlmd : dir ≠ (heldState g x n dir).lastMoveDir := by
      show dir ≠ if n = 0 then 0 else dir
      rw [if_pos hn0]
      exact hne
    rw [updateGameMove_first _ left right dir hdir hne hlmd, hm1, hdue (Or.inl hn0)]
    refine congrArg Except.ok (heldState_eq g xm (n + 1) dir 1 dir 0 ?_ ?_ ?_)
    · rw [hn0]; rfl
    · rw [if_neg (by omega)]
    · rw [if_pos (by omega)]
  · have hlmd : dir = (heldState g x n dir).lastMoveDir := by
      show dir = if n = 0 then 0 else dir
      rw [if_neg hn0]
    by_cases h10 : n < 10
    · have h3 : ¬ (heldState g x n dir).keyHeldFrames + 1 >
          (heldState g x n dir).initialMoveDelay := by
        show ¬ (n : Int) + 1 > g.initialMoveDelay
        rw [hd1]
        omega
      rw [updateGameMove_delay _ left right dir hdir hne hlmd h3, hnot (by omega)]
      refine congrArg Except.ok (heldState_eq g x (n + 1) dir ((n : Int) + 1)
        (if n = 0 then 0 else dir) (if n ≤ 10 then 0 else ((n : Int) - 10) % 4) ?_ ?_ ?_)
      · push_cast; rfl
      · rw [if_neg hn0, if_neg (by omega)]
      · rw [if_pos (by omega), if_pos (by omega)]
    · have h3 : (heldState g x n dir).keyHeldFrames + 1 >
          (heldState g x n dir).initialMoveDelay := by
        show (n : Int) + 1 > g.initialMoveDelay
        rw [hd1]
        omega
      by_cases h13 : 13 ≤ n ∧ (n - 10) % 4 = 3
      · have h4 : (heldState g x n dir).moveDelayCounter + 1 ≥
            (heldState g x n dir).moveDelay := by
          show (if n ≤ 10 then 0 else ((n : Int) - 10) % 4) + 1 ≥ g.moveDelay
          rw [hd2, if_neg (by omega)]
          omega
        rw [updateGameMove_repeat _ left right dir hdir hne hlmd h3 h4, hm2,
          hdue (Or.inr h13)]
        refine congrArg Except.ok (heldState_eq g xm (n + 1) dir ((n : Int) + 1)
          (if n = 0 then 0 else dir) 0 ?_ ?_ ?_)
        · push_cast; rfl
        · rw [if_neg hn0, if_neg (by omega)]
        · rw [if_neg (by omega)]
          omega
      · have h4i : ¬ (if n ≤ 10 then 0 else ((n : Int) - 10) % 4) + 1 ≥ 4 := by
          rcases not_and_or.mp h13 with h | h
          · split_ifs <;> omega
          · split_ifs <;> omega
        have h4 : ¬ (heldState g x n dir).moveDelayCounter + 1 ≥
            (heldState g x n dir).moveDelay := by
          show ¬ (if n ≤ 10 then 0 else ((n : Int) - 10) % 4) + 1 ≥ g.moveDelay
          rw [hd2]
          exact h4i
        rw [updateGameMove_wait _ left right dir hdir hne hlmd h3 h4,
          hnot (fun h => h.elim hn0 h13)]
        refine congrArg Except.ok (heldState_eq g x (n + 1) dir ((n : Int) + 1)
          (if n = 0 then 0 else dir) ((if n ≤ 10 then 0 else ((n : Int) - 10) % 4) + 1) ?_ ?_ ?_)
        · push_cast; rfl
        · rw [if_neg hn0, if_neg (by omega)]
        · push_cast
          split_ifs at h4i ⊢ <;> omega

theorem moveAttemptDue_held (g : Game) (x : Int) (n : Nat) (dir : Int) (hne : dir ≠ 0)
    (hd1 : g.initialMoveDelay = 10) (hd2 : g.moveDelay = 4) :
    moveAttemptDue (heldState g x n dir) dir = true ↔
      (n = 0 ∨ (13 ≤ n ∧ (n - 10) % 4 = 3)) := by
  unfold moveAttemptDue
  rw [decide_eq_true_iff]
  show (dir ≠ 0 ∧ (dir ≠ (if n = 0 then 0 else dir) ∨
    ((n : Int) + 1 > g.initialMoveDelay ∧
      (if n ≤ 10 then 0 else ((n : Int) - 10) % 4) + 1 ≥ g.moveDelay))) ↔ _
  rw [hd1, hd2]
  by_cases hn0 : n = 0
  · rw [if_pos hn0]
    exact ⟨fun _ => Or.inl hn0, fun _ => ⟨hne, Or.inl hne⟩⟩
  · rw [if_neg hn0]
    constructor
    · rintro ⟨_, h | ⟨h1, h2⟩⟩
      · exact absurd rfl h
      · right
        split_ifs at h2 <;> omega
    · rintro (h | ⟨h1, h2⟩)
      · exact absurd h hn0
      · refine ⟨hne, Or.inr ⟨by omega, ?_⟩⟩
        rw [if_neg (by omega)]
        omega

theorem shiftCount_succ (n : Nat) :
    shiftCount (n + 1) =
      if n = 0 ∨ (13 ≤ n ∧ (n - 10) % 4 = 3) then shiftCount n + 1 else shiftCount n := by
  unfold shiftCount
  rw [if_neg (by omega)]
  by_cases hn0 : n = 0
  · rw [if_pos (Or.inl hn0), if_pos hn0, hn0]
  · rw [if_neg hn0]
    by_cases h13 : 13 ≤ n ∧ (n - 10) % 4 = 3
    · rw [if_pos (Or.inr h13)]
      omega
    · rw [if_neg (fun h => h.elim hn0 h13)]
      rcases not_and_or.mp h13 with h | h <;> omega

theorem holdTicks_held (g : Game) (left right : Bool) (dir : Int)
    (hdir : dir = if left then -1 else if right then 1 else 0) (hne : dir ≠ 0)
    (hrel : g.lastMoveDir = 0 ∧ g.keyHeldFrames = 0 ∧ g.moveDelayCounter = 0)
    (hd1 : g.initialMoveDelay = 10) (hd2 : g.moveDelay = 4)
    (blocks : List (Int × Int))
    (hs : shapeAt g.fallingCol g.fallingRotation = some blocks) (hl : 0 < blocks.length)
    (n : Nat) :
    ∃ x, holdTicks left right n g = .ok (heldState g x n dir) ∧
      ((∀ i : Nat, i < shiftCount n →
          canMove { g with fallingX := g.fallingX + dir * i } dir 0 = .ok true) →
        x = g.fallingX + dir * (shiftCount n : Int)) := by
  induction n with
  | zero =>
    refine ⟨g.fallingX, ?_, ?_⟩
    · rw [holdTicks]
      refine congrArg Except.ok (heldState_eq g g.fallingX 0 dir g.keyHeldFrames g.lastMoveDir
        g.moveDelayCounter ?_ ?_ ?_)
      · rw [hrel.2.1]; rfl
      · rw [hrel.1]; rfl
      · rw [hrel.2.2]; rfl
    · intro _
      have e : shiftCount 0 = 0 := rfl
      rw [e]
      simp
  | succ n ih =>
    obtain ⟨x, hrun, hx⟩ := ih
    have hstep := updateGameMove_held g x n dir left right hdir hne hd1 hd2 blocks hs hl
    have hsucc := shiftCount_succ n
    refine ⟨(if (n = 0 ∨ (13 ≤ n ∧ (n - 10) % 4 = 3)) ∧
        canMove { g with fallingX := x } dir 0 = .ok true then x + dir else x), ?_, ?_⟩
    · rw [holdTicks, hrun]
      exact hstep
    · intro hfree
      by_cases hdue : n = 0 ∨ (13 ≤ n ∧ (n - 10) % 4 = 3)
      · rw [if_pos hdue] at hsucc
        have hx2 : x = g.fallingX + dir * (shiftCount n : Int) :=
          hx (fun i hi => hfree i (by omega))
        have hc : canMove { g with fallingX := x } dir 0 = .ok true := by
          rw [hx2]
          exact hfree (shiftCount n) (by omega)
        rw [if_pos ⟨hdue, hc⟩, hx2, hsucc]
        push_cast
        ring
      · rw [if_neg hdue] at hsucc
        have hx2 : x = g.fallingX + dir * (shiftCount n : Int) :=
          hx (fun i hi => hfree i (by omega))
        rw [if_neg (fun h => hdue h.1), hx2, hsucc]

/-- C24: with one arrow key held on consecutive ticks 1, 2, 3, ... from a
released state (`initialMoveDelay = 10`, `moveDelay = 4`), the movement block
returns on every tick; on tick `k` it reaches its statement
`if g.canMove(moveDir, 0)` exactly when `k = 1` or `k = 10 + 4 j` with `j >= 1`
(on every other tick the anchor column is left as it is, and on these ticks a
successful test moves it by one cell); when every test made in the first `k`
ticks succeeds, the anchor column has moved by `1 + max 0 ((k - 10) / 4)` cells
in the held direction after `k` ticks. -/
theorem holdTicks_auto_shift (g : Game) (left right : Bool) (dir : Int)
    (blocks : List (Int × Int))
    (hdir : dir = if left then -1 else if right then 1 else 0) (hne : dir ≠ 0)
    (hrel : g.lastMoveDir = 0 ∧ g.keyHeldFrames = 0 ∧ g.moveDelayCounter = 0)
    (hd : g.initialMoveDelay = 10 ∧ g.moveDelay = 4)
    (hs : shapeAt g.fallingCol g.fallingRotation = some blocks)
    (k : Nat) (hk : 1 ≤ k) :
    (∃ s, holdTicks left right (k - 1) g = .ok s ∧
      (moveAttemptDue s dir = true ↔ (k = 1 ∨ ∃ j : Nat, 1 ≤ j ∧ k = 10 + 4 * j)) ∧
      (moveAttemptDue s dir = false →
        (updateGameMove s left right).state.fallingX = s.fallingX) ∧
      (moveAttemptDue s dir = true → canMove s dir 0 = .ok true →
        (updateGameMove s left right).state.fallingX = s.fallingX + dir)) ∧
    (holdTicks left right k g).returned = true ∧
    ((∀ i : Nat, i < 1 + (k - 10) / 4 →
        canMove { g with fallingX := g.fallingX + dir * i } dir 0 = .ok true) →
      (holdTicks left right k g).state.fallingX =
        g.fallingX + dir * (1 + max 0 (((k : Int) - 10) / 4))) := by
  obtain ⟨hc1, hc2, hr1, hr2⟩ := shapeAt_range _ _ _ hs
  obtain ⟨blocks2, hs2, hl2⟩ := shapeAt_defined _ _ hc1 hc2 hr1 hr2
  have hl : 0 < blocks.length := by
    rw [hs] at hs2
    cases hs2
    exact hl2
  obtain ⟨x1, hrun1, _⟩ :=
    holdTicks_held g left right dir hdir hne hrel hd.1 hd.2 blocks hs hl (k - 1)
  obtain ⟨x2, hrun2, hx2⟩ :=
    holdTicks_held g left right dir hdir hne hrel hd.1 hd.2 blocks hs hl k
  have hdue := moveAttemptDue_held g x1 (k - 1) dir hne hd.1 hd.2
  have hstep := updateGameMove_held g x1 (k - 1) dir left right hdir hne hd.1 hd.2 blocks hs hl
  refine ⟨⟨heldState g x1 (k - 1) dir, hrun1, ?_, ?_, ?_⟩, ?_, ?_⟩
  · rw [hdue]
    constructor
    · rintro (h | ⟨h1, h2⟩)
      · left; omega
      · right
        exact ⟨(k - 10) / 4, by omega, by omega⟩
    · rintro (h | ⟨j, hj1, hj2⟩)
      · left; omega
      · right; omega
  · intro hfalse
    have hnd : ¬ (k - 1 = 0 ∨ (13 ≤ k - 1 ∧ (k - 1 - 10) % 4 = 3)) := by
      intro h
      rw [hdue.mpr h] at hfalse
      cases hfalse
    rw [hstep, if_neg (fun h => hnd h.1)]
    rfl
  · intro htrue hcm
    have hc : canMove { g with fallingX := x1 } dir 0 = .ok true :=
      (canMove_congr { g with fallingX := x1 } (heldState g x1 (k - 1) dir) dir 0 true
        rfl rfl rfl rfl rfl).mp hcm
    rw [hstep, if_pos ⟨hdue.mp htrue, hc⟩]
    rfl
  · rw [hrun2]
    rfl
  · intro hfree
    have hsc : shiftCount k = 1 + (k - 10) / 4 := by
      unfold shiftCount
      rw [if_neg (by omega)]
    rw [hsc] at hx2
    rw [hrun2, state_ok]
    show x2 = _
    rw [hx2 hfree]
    have e : ((1 + (k - 10) / 4 : Nat) : Int) = 1 + max 0 (((k : Int) - 10) / 4) := by
      by_cases h : k ≤ 10
      · rw [max_eq_left (by omega)]
        omega
      · rw [max_eq_right (by omega)]
        omega
    rw [e]

theorem holdTicks_auto_shift_witness :
    ((-1 : Int) = (if true then -1 else if false then 1 else 0) ∧ (-1 : Int) ≠ 0 ∧
      (sampleGame.lastMoveDir = 0 ∧ sampleGame.keyHeldFrames = 0 ∧
        sampleGame.moveDelayCounter = 0) ∧
      (sampleGame.initialMoveDelay = 10 ∧ sampleGame.moveDelay = 4) ∧
      shapeAt sampleGame.fallingCol sampleGame.fallingRotation =
        some [(0, 0), (1, 0), (2, 0), (3, 0)] ∧ 1 ≤ 18) ∧
    (∀ i : Nat, i < 1 + (18 - 10) / 4 →
      canMove { sampleGame with fallingX := sampleGame.fallingX + -1 * i } (-1) 0 = .ok true) ∧
    ((∃ s, holdTicks true false (18 - 1) sampleGame = .ok s ∧
      (moveAttemptDue s (-1) = true ↔ (18 = 1 ∨ ∃ j : Nat, 1 ≤ j ∧ 18 = 10 + 4 * j)) ∧
      (moveAttemptDue s (-1) = false →
        (updateGameMove s true false).state.fallingX = s.fallingX) ∧
      (moveAttemptDue s (-1) = true → canMove s (-1) 0 = .ok true →
        (updateGameMove s true false).state.fallingX = s.fallingX + -1)) ∧
    (holdTicks true false 18 sampleGame).returned = true ∧
    ((∀ i : Nat, i < 1 + (18 - 10) / 4 →
        canMove { sampleGame with fallingX := sampleGame.fallingX + -1 * i } (-1) 0 = .ok true) →
      (holdTicks true false 18 sampleGame).state.fallingX =
        sampleGame.fallingX + -1 * (1 + max 0 ((((18 : Nat) : Int) - 10) / 4)))) :=
  ⟨by decide, by decide,
    holdTicks_auto_shift sampleGame true false (-1) [(0, 0), (1, 0), (2, 0), (3, 0)]
      (by decide) (by decide) (by decide) (by decide) (by decide) 18 (by decide)⟩

/-! ## Soft drop and gravity -/

theorem gameOver_pace (g : Game) : paceKey (gameOver g).state = paceKey g := by
  obtain ⟨hs, h⟩ := gameOver_state_eq g
  rw [h]
  rfl

theorem lockPieceCommit_pace (blocks : List (Int × Int)) (g : Game) :
    paceKey (lockPieceCommit g blocks).state = paceKey g := by
  induction blocks generalizing g with
  | nil => rfl
  | cons c rest ih =>
    rw [lockPieceCommit]
    split_ifs
    · rfl
    · rw [ih]
      rfl
    · exact ih g

theorem checkAndClearMatches_pace (g : Game) :
    paceKey (checkAndClearMatches g) = paceKey g := by
  have h : ∃ gr sc, checkAndClearMatches g = { g with grid := gr, score := sc } := by
    unfold checkAndClearMatches
    by_cases h : (clearLoop g.grid).lines > 0
    · exact ⟨_, _, if_pos h⟩
    · exact ⟨_, g.score, if_neg h⟩
  obtain ⟨gr, sc, e⟩ := h
  rw [e]
  rfl

theorem lockPieceScore_pace (g : Game) : paceKey (lockPieceScore g) = paceKey g := by
  unfold lockPieceScore
  dsimp only
  split_ifs <;> rfl

theorem lockPieceAdjust_pace (g : Game) (s : List (Int × Int)) :
    paceKey (lockPieceAdjust g s) = paceKey g := by
  unfold lockPieceAdjust
  split_ifs <;> rfl

theorem lockPiece_pace (g : Game) : paceKey (lockPiece g).state = paceKey g := by
  unfold lockPiece
  cases shapeAt g.fallingCol g.fallingRotation with
  | none => rfl
  | some shape =>
    dsimp only
    have h := lockPieceCommit_pace shape (lockPieceAdjust g shape)
    rw [lockPieceAdjust_pace] at h
    cases hc : lockPieceCommit (lockPieceAdjust g shape) shape with
    | error s =>
      rw [hc] at h
      exact h
    | ok g1 =>
      rw [hc] at h
      rw [state_ok] at h
      dsimp only
      rw [state_ok, checkAndClearMatches_pace, lockPieceScore_pace]
      exact h

theorem spawnPiece_pace (g : Game) (d : Draw) :
    paceKey (spawnPiece g d).state = paceKey g := by
  have ha : paceKey (spawnPieceAssign g d) = paceKey g := rfl
  rcases spawnPiece_cases g d with ⟨s, _, h2⟩ | ⟨_, h2⟩ | ⟨_, h2⟩
  · rw [h2]; exact ha
  · rw [h2]; exact ha
  · rw [h2, gameOver_pace]; exact ha

theorem updateGameGravity_idle (g : Game) (d : Draw)
    (h : ¬ g.framesCounter + 1 ≥ g.speed) :
    updateGameGravity g d = .ok { g with framesCounter := g.framesCounter + 1 } := by
  unfold updateGameGravity
  dsimp only
  rw [if_neg h]

theorem updateGameGravity_fall (g : Game) (d : Draw)
    (h : g.framesCounter + 1 ≥ g.speed) (hc : canMove g 0 1 = .ok true) :
    updateGameGravity g d =
      .ok { g with framesCounter := 0, fallingY := g.fallingY + 1 } := by
  have h2 : canMove { g with framesCounter := 0 } 0 1 = .ok true := by
    refine (canMove_congr g _ 0 1 true ?_ ?_ ?_ ?_ ?_).mpr hc <;> rfl
  unfold updateGameGravity
  dsimp only
  rw [if_pos h, h2]
  rfl

theorem updateGameGravity_fire_pace (g : Game) (d : Draw)
    (h : g.framesCounter + 1 ≥ g.speed) :
    paceKey (updateGameGravity g d).state = (g.speed, 0) := by
  unfold updateGameGravity
  dsimp only
  rw [if_pos h]
  cases hcm : canMove { g with framesCounter := 0 } 0 1 with
  | error s =>
    rw [canMove_error_state _ 0 1 s hcm]
    rfl
  | ok fits =>
    cases fits
    · dsimp only
      apply next_preserves (fun s => paceKey s = (g.speed, 0))
      · rw [lockPiece_pace]
        rfl
      · intro g3 h3
        rw [spawnPiece_pace]
        exact h3
    · rfl

theorem framesCounter_congr (g : Game) (a b : Int) (h : a = b) :
    ({ g with framesCounter := a } : Game) = { g with framesCounter := b } := by
  rw [h]

theorem goDiv_four (s : Int) (hs : 0 ≤ s) : goDiv s 4 = s / 4 := by
  unfold goDiv
  exact Int.tdiv_eq_ediv hs (by omega)

theorem dropTicks_idle (down : Bool) (draws : Nat → Draw) (g : Game) (inc : Int)
    (hinc : inc = (if down then goDiv g.speed 4 else 0) + 1) (hfc : g.framesCounter = 0)
    (n : Nat) (hidle : ∀ m : Nat, m < n → ¬ ((m : Int) * inc + inc ≥ g.speed)) :
    dropTicks down draws n g = .ok { g with framesCounter := (n : Int) * inc } := by
  induction n with
  | zero =>
    rw [dropTicks]
    exact congrArg Except.ok (framesCounter_congr g g.framesCounter _ (by rw [hfc]; simp))
  | succ n ih =>
    rw [dropTicks, ih (fun m hm => hidle m (by omega))]
    have hn := hidle n (by omega)
    show updateGameGravity (updateGameSoftDrop { g with framesCounter := (n : Int) * inc } down)
      (draws n) = _
    cases down with
    | false =>
      have e : inc = 1 := by rw [hinc]; rfl
      have hsoft : updateGameSoftDrop { g with framesCounter := (n : Int) * inc } false =
          { g with framesCounter := (n : Int) * inc } := rfl
      rw [hsoft, updateGameGravity_idle _ _ (by
        show ¬ (n : Int) * inc + 1 ≥ g.speed
        rw [e] at hn
        rw [e]
        exact hn)]
      exact congrArg Except.ok (framesCounter_congr g ((n : Int) * inc + 1) _
        (by rw [e]; push_cast; ring))
    | true =>
      have e : inc = goDiv g.speed 4 + 1 := by rw [hinc]; rfl
      have hsoft : updateGameSoftDrop { g with framesCounter := (n : Int) * inc } true =
          { g with framesCounter := (n : Int) * inc + goDiv g.speed 4 } := rfl
      rw [hsoft, updateGameGravity_idle _ _ (by
        show ¬ (n : Int) * inc + goDiv g.speed 4 + 1 ≥ g.speed
        rw [e] at hn
        rw [e]
        intro h
        apply hn
        omega)]
      exact congrArg Except.ok (framesCounter_congr g ((n : Int) * inc + goDiv g.speed 4 + 1) _
        (by rw [e]; push_cast; ring))

theorem dropTicks_fire (down : Bool) (draws : Nat → Draw) (g : Game) (inc : Int)
    (hinc : inc = (if down then goDiv g.speed 4 else 0) + 1) (n : Nat)
    (hrun : dropTicks down draws n g = .ok { g with framesCounter := (n : Int) * inc })
    (hdue : (n : Int) * inc + inc ≥ g.speed) :
    ((dropTicks down draws (n + 1) g).state.framesCounter = 0 ∧
      (dropTicks down draws (n + 1) g).state.speed = g.speed) ∧
    (canMove g 0 1 = .ok true →
      dropTicks down draws (n + 1) g =
        .ok { g with framesCounter := 0, fallingY := g.fallingY + 1 }) := by
  obtain ⟨c, hc⟩ : ∃ c : Int, c = (n : Int) * inc + (inc - 1) := ⟨_, rfl⟩
  have hsoft : updateGameSoftDrop { g with framesCounter := (n : Int) * inc } down =
      { g with framesCounter := c } := by
    rw [hc]
    cases down with
    | false =>
      have e : inc = 1 := by rw [hinc]; rfl
      exact framesCounter_congr g _ _ (by rw [e]; ring)
    | true =>
      have e : inc = goDiv g.speed 4 + 1 := by rw [hinc]; rfl
      exact framesCounter_congr g ((n : Int) * inc + goDiv g.speed 4) _ (by rw [e]; ring)
  have hdue2 : ({ g with framesCounter := c } : Game).framesCounter + 1 ≥
      ({ g with framesCounter := c } : Game).speed := by
    show c + 1 ≥ g.speed
    omega
  have hstep : dropTicks down draws (n + 1) g =
      updateGameGravity { g with framesCounter := c } (draws n) := by
    rw [dropTicks, hrun]
    show updateGameGravity (updateGameSoftDrop { g with framesCounter := (n : Int) * inc } down)
      (draws n) = _
    rw [hsoft]
  rw [hstep]
  have hp := updateGameGravity_fire_pace { g with framesCounter := c } (draws n) hdue2
  unfold paceKey at hp
  simp only [Prod.mk.injEq] at hp
  refine ⟨⟨hp.2, hp.1⟩, ?_⟩
  intro hcm
  have hcm2 : canMove { g with framesCounter := c } 0 1 = .ok true := by
    refine (canMove_congr g _ 0 1 true ?_ ?_ ?_ ?_ ?_).mpr hcm <;> rfl
  rw [updateGameGravity_fall _ _ hdue2 hcm2]

/-- C25, evaluation: `sampleGame` has fall speed 60 (a multiple of 4, with
`60 / 4 = 15`) and `framesCounter = 0`.  With the soft-drop key held the
gravity step fires on tick 4 and again on tick 8, not once every 15 ticks:
after 15 ticks the piece is 3 rows down, not 1. -/
theorem softDrop_not_four_times :
    sampleGame.framesCounter = 0 ∧ sampleGame.speed = 60 ∧ goDiv sampleGame.speed 4 = 15 ∧
    (dropTicks true (fun _ => sampleDraw) 3 sampleGame).state.framesCounter = 48 ∧
    gravityDue (dropTicks true (fun _ => sampleDraw) 3 sampleGame).state true = true ∧
    dropTicks true (fun _ => sampleDraw) 4 sampleGame = .ok { sampleGame with fallingY := 1 } ∧
    dropTicks true (fun _ => sampleDraw) 8 sampleGame = .ok { sampleGame with fallingY := 2 } ∧
    (dropTicks true (fun _ => sampleDraw) 15 sampleGame).state.fallingY = 3 := by
  decide

/-! ## Gravity: every period -/

theorem withinWalls_iff (g : Game) :
    withinWalls g = true ↔
      ∃ blocks, shapeAt g.fallingCol g.fallingRotation = some blocks ∧
        ∀ c ∈ blocks, 0 ≤ g.fallingX + c.1 ∧ g.fallingX + c.1 < 10 ∧ g.fallingY + c.2 ≤ 17 := by
  unfold withinWalls
  cases hs : shapeAt g.fallingCol g.fallingRotation with
  | none =>
    constructor
    · intro h; cases h
    · rintro ⟨blocks, hb, _⟩; cases hb
  | some blocks =>
    dsimp only
    rw [List.all_eq_true]
    constructor
    · intro h
      exact ⟨blocks, rfl, fun c hc => of_decide_eq_true (h c hc)⟩
    · rintro ⟨b2, hb, h⟩ c hc
      cases hb
      exact decide_eq_true (h c hc)

theorem dropReady_of_key (g g2 : Game) (hk : dropKey g2 = dropKey g) (h : DropReady g) :
    DropReady g2 := by
  unfold dropKey pieceKey at hk
  simp only [Prod.mk.injEq] at hk
  obtain ⟨h1, h2, h3, h4, h5, h6, h7, h8⟩ := hk
  unfold DropReady QueueInRange withinWalls at *
  rw [h1, h2, h3, h4, h5, h6, h7, h8]
  exact h

theorem ok_of_returned (r : Exec Game) (h : r.returned = true) : r = .ok r.state := by
  cases r with
  | ok g => rfl
  | error s => cases h

theorem lockPieceScore_form (g : Game) : ∃ sc, lockPieceScore g = { g with score := sc } := by
  unfold lockPieceScore
  dsimp only
  split_ifs
  · exact ⟨_, rfl⟩
  · exact ⟨_, rfl⟩

theorem lockPieceAdjust_form (g : Game) (blocks : List (Int × Int)) :
    ∃ y, lockPieceAdjust g blocks = { g with fallingY := y } := by
  unfold lockPieceAdjust
  split_ifs
  · exact ⟨_, rfl⟩
  · exact ⟨g.fallingY, rfl⟩

theorem checkAndClearMatches_form (g : Game) :
    ∃ gr sc, gr = (clearLoop g.grid).grid ∧
      checkAndClearMatches g = { g with grid := gr, score := sc } := by
  have h : ∃ gr sc, checkAndClearMatches g = { g with grid := gr, score := sc } := by
    unfold checkAndClearMatches
    by_cases h : (clearLoop g.grid).lines > 0
    · exact ⟨_, _, if_pos h⟩
    · exact ⟨_, g.score, if_neg h⟩
  obtain ⟨gr, sc, e⟩ := h
  refine ⟨gr, sc, ?_, e⟩
  have hg := checkAndClearMatches_grid g
  rw [e] at hg
  exact hg

theorem lockPiece_form (g : Game) (hwf : g.grid.WF) (blocks : List (Int × Int))
    (hs : shapeAt g.fallingCol g.fallingRotation = some blocks)
    (hin : ∀ c ∈ blocks,
      0 ≤ g.fallingX + c.1 ∧ g.fallingX + c.1 < 10 ∧ g.fallingY + c.2 ≤ 17) :
    ∃ grid3 sc y, grid3.WF ∧
      lockPiece g = .ok { g with grid := grid3, score := sc, fallingY := y } := by
  have hb := (lockPiece_correction_bounds g hwf blocks hs hin).1
  obtain ⟨y, hadj⟩ := lockPieceAdjust_form g blocks
  rw [hadj] at hb
  obtain ⟨grid2, hwf2, hcommit⟩ :=
    lockPieceCommit_ok blocks { g with fallingY := y } hwf hb
  obtain ⟨sc1, hsc⟩ := lockPieceScore_form { g with fallingY := y, grid := grid2 }
  obtain ⟨gr, sc2, hgr, hclear⟩ :=
    checkAndClearMatches_form { g with fallingY := y, grid := grid2, score := sc1 }
  have hwf3 : gr.WF := by
    rw [hgr]
    exact clearLoop_wf grid2 hwf2
  refine ⟨gr, sc2, y, hwf3, ?_⟩
  unfold lockPiece
  rw [hs]
  dsimp only
  rw [hadj, hcommit]
  dsimp only
  rw [hsc, hclear]

theorem spawnPieceAssign_inRange (g : Game) (d : Draw) (h : QueueInRange g) :
    PieceInRange (spawnPieceAssign g d) := by
  obtain ⟨hr, hq, hs, hall⟩ := h
  obtain ⟨q0, q1, q2, hq2⟩ := length_three _ hq
  obtain ⟨s0, s1, s2, hs2⟩ := length_three _ hs
  rw [spawnPieceAssign_eq g d q0 q1 q2 s0 s1 s2 hq2 hs2]
  rw [hq2] at hall
  refine ⟨hall q0 (by simp), hr, rfl, rfl, ?_⟩
  intro q hq
  have hq3 : q = q1 ∨ q = q2 ∨ q = (d.intn.val : Int) + 1 := by simpa using hq
  rcases hq3 with e | e | e
  · rw [e]; exact hall q1 (by simp)
  · rw [e]; exact hall q2 (by simp)
  · rw [e]
    have := d.intn.isLt
    omega

theorem spawnPiece_ready (g : Game) (d : Draw) (hwf : g.grid.WF) (hq : QueueInRange g)
    (hb : 0 ≤ g.currentBgm ∧ g.currentBgm < bgmsLen) :
    ∃ g4, spawnPiece g d = .ok g4 ∧ DropReady g4 := by
  have hin := spawnPieceAssign_inRange g d hq
  obtain ⟨⟨hc1, hc2⟩, hq4⟩ := hin
  obtain ⟨blocks, hs, hl⟩ := shapeAt_defined _ _ hc1 hc2 hq4.1.1 hq4.1.2
  have hready : DropReady (spawnPieceAssign g d) := by
    refine ⟨hwf, hq4, hb, ?_⟩
    rw [withinWalls_iff]
    refine ⟨blocks, hs, ?_⟩
    intro c hc
    have hoff := shapeAt_offsets _ _ _ hs c hc
    show 0 ≤ (5 : Int) + c.1 ∧ (5 : Int) + c.1 < 10 ∧ (0 : Int) + c.2 ≤ 17
    omega
  rcases spawnPiece_cases g d with ⟨s, h1, _⟩ | ⟨_, h2⟩ | ⟨_, h2⟩
  · rw [canMove_eq_ok _ 0 0 blocks hs hl] at h1
    cases h1
  · exact ⟨_, h2, hready⟩
  · have hret := gameOver_returned (spawnPieceAssign g d) hb
    obtain ⟨hs2, hst⟩ := gameOver_state_eq (spawnPieceAssign g d)
    have hok := ok_of_returned _ hret
    rw [hst] at hok
    refine ⟨_, h2.trans hok, ?_⟩
    exact dropReady_of_key (spawnPieceAssign g d) _ rfl hready

theorem lockPiece_ready (g : Game) (h : DropReady g) :
    ∃ g3, lockPiece g = .ok g3 ∧ g3.grid.WF ∧ QueueInRange g3 ∧
      (0 ≤ g3.currentBgm ∧ g3.currentBgm < bgmsLen) := by
  obtain ⟨hwf, hq, hb, hw⟩ := h
  obtain ⟨blocks, hs, hin⟩ := (withinWalls_iff g).mp hw
  obtain ⟨grid3, sc, y, hwf3, hlock⟩ := lockPiece_form g hwf blocks hs hin
  exact ⟨_, hlock, hwf3, hq, hb⟩

theorem gravityTick_ready (g : Game) (down : Bool) (d : Draw) (h : DropReady g) :
    ∃ g2, updateGameGravity (updateGameSoftDrop g down) d = .ok g2 ∧ DropReady g2 := by
  have hsoft : DropReady (updateGameSoftDrop g down) := by
    apply dropReady_of_key g _ _ h
    unfold updateGameSoftDrop
    split_ifs <;> rfl
  obtain ⟨s, hsdef⟩ : ∃ s, s = updateGameSoftDrop g down := ⟨_, rfl⟩
  rw [← hsdef] at hsoft ⊢
  by_cases hdue : s.framesCounter + 1 ≥ s.speed
  · have hs0 : DropReady { s with framesCounter := 0 } := dropReady_of_key s _ rfl hsoft
    obtain ⟨blocks, hsh, hin⟩ := (withinWalls_iff _).mp hs0.2.2.2
    obtain ⟨hc1, hc2, hr1, hr2⟩ := shapeAt_range _ _ _ hsh
    obtain ⟨blocks2, hsh2, hl2⟩ := shapeAt_defined _ _ hc1 hc2 hr1 hr2
    have hl : 0 < blocks.length := by
      rw [hsh] at hsh2
      cases hsh2
      exact hl2
    have hcm := canMove_eq_ok { s with framesCounter := 0 } 0 1 blocks hsh hl
    unfold updateGameGravity
    dsimp only
    rw [if_pos hdue, hcm]
    dsimp only
    cases hfit : canMoveBlocks { s with framesCounter := 0 } 0 1 blocks
    · rw [if_neg (by intro h; cases h)]
      obtain ⟨g3, hlock, hwf3, hq3, hb3⟩ := lockPiece_ready _ hs0
      rw [hlock]
      exact spawnPiece_ready g3 d hwf3 hq3 hb3
    · rw [if_pos rfl]
      refine ⟨_, rfl, hs0.1, hs0.2.1, hs0.2.2.1, ?_⟩
      rw [withinWalls_iff]
      refine ⟨blocks, hsh, ?_⟩
      intro c hc
      have hnb := canMoveBlocks_true_bounds _ 0 1 blocks hfit c hc
      unfold blocked at hnb
      have hnb2 : ¬ (s.fallingX + c.1 + 0 < 0 ∨ s.fallingX + c.1 + 0 ≥ 10 ∨
          s.fallingY + c.2 + 1 ≥ 17) := fun h3 => hnb (by
        rcases h3 with h3 | h3 | h3
        · exact Or.inl h3
        · exact Or.inr (Or.inl h3)
        · exact Or.inr (Or.inr (Or.inl h3)))
      show 0 ≤ s.fallingX + c.1 ∧ s.fallingX + c.1 < 10 ∧ s.fallingY + 1 + c.2 ≤ 17
      omega
  · rw [updateGameGravity_idle s d hdue]
    exact ⟨_, rfl, dropReady_of_key s _ rfl hsoft⟩

theorem dropTicks_ready (g : Game) (down : Bool) (draws : Nat → Draw) (h : DropReady g)
    (n : Nat) : ∃ gn, dropTicks down draws n g = .ok gn ∧ DropReady gn := by
  induction n with
  | zero => exact ⟨g, rfl, h⟩
  | succ n ih =>
    obtain ⟨gn, hrun, hready⟩ := ih
    obtain ⟨g2, hstep, hready2⟩ := gravityTick_ready gn down (draws n) hready
    refine ⟨g2, ?_, hready2⟩
    rw [dropTicks, hrun]
    exact hstep

theorem succ_mod_cases (n S : Nat) (hS : 0 < S) :
    (n + 1) % S = if n % S + 1 = S then 0 else n % S + 1 := by
  have hlt := Nat.mod_lt n hS
  have hd := Nat.div_add_mod n S
  by_cases h : n % S + 1 = S
  · rw [if_pos h]
    have e : n + 1 = S * (n / S + 1) := by
      rw [Nat.mul_add, Nat.mul_one]
      omega
    rw [e, Nat.mul_mod_right]
  · rw [if_neg h]
    have e : n + 1 = S * (n / S) + (n % S + 1) := by omega
    rw [e, Nat.mul_add_mod, Nat.mod_eq_of_lt (by omega)]

theorem dropTicks_ok_prev (down : Bool) (draws : Nat → Draw) (g g2 : Game) (n : Nat)
    (h : dropTicks down draws (n + 1) g = .ok g2) :
    ∃ gn, dropTicks down draws n g = .ok gn ∧
      updateGameGravity (updateGameSoftDrop gn down) (draws n) = .ok g2 := by
  rw [dropTicks] at h
  cases hrun : dropTicks down draws n g with
  | error s =>
    rw [hrun] at h
    cases h
  | ok gn =>
    rw [hrun] at h
    exact ⟨gn, rfl, h⟩

theorem gravityTick_pace (g g2 : Game) (down : Bool) (d : Draw)
    (h : updateGameGravity (updateGameSoftDrop g down) d = .ok g2) :
    g2.speed = g.speed ∧
    g2.framesCounter =
      if gravityDue g down = true then 0
      else g.framesCounter + (if down then goDiv g.speed 4 else 0) + 1 := by
  have hsp : (updateGameSoftDrop g down).speed = g.speed := by
    unfold updateGameSoftDrop
    split_ifs <;> rfl
  have hfc : (updateGameSoftDrop g down).framesCounter =
      g.framesCounter + (if down then goDiv g.speed 4 else 0) := by
    unfold updateGameSoftDrop
    split_ifs
    · rfl
    · exact (add_zero _).symm
  unfold gravityDue
  by_cases hdue : (updateGameSoftDrop g down).framesCounter + 1 ≥ (updateGameSoftDrop g down).speed
  · have hp := updateGameGravity_fire_pace _ d hdue
    rw [h, state_ok] at hp
    unfold paceKey at hp
    simp only [Prod.mk.injEq] at hp
    rw [if_pos (decide_eq_true hdue)]
    exact ⟨hp.1.trans hsp, hp.2⟩
  · rw [updateGameGravity_idle _ d hdue] at h
    have e := Except.ok.inj h
    rw [if_neg (by rw [decide_eq_true_iff]; exact hdue), ← e]
    refine ⟨hsp, ?_⟩
    show (updateGameSoftDrop g down).framesCounter + 1 = _
    rw [hfc]

theorem gravityDue_iff (g : Game) (down : Bool) :
    gravityDue g down = true ↔
      g.framesCounter + (if down then goDiv g.speed 4 else 0) + 1 ≥ g.speed := by
  unfold gravityDue updateGameSoftDrop
  rw [decide_eq_true_iff]
  cases down
  · show g.framesCounter + 1 ≥ g.speed ↔ g.framesCounter + 0 + 1 ≥ g.speed
    rw [add_zero]
  · exact Iff.rfl

theorem dropTicks_soft_pace (g : Game) (draws : Nat → Draw) (hfc : g.framesCounter = 0)
    (hs : 13 ≤ g.speed) (n : Nat) (gn : Game) (h : dropTicks true draws n g = .ok gn) :
    gn.speed = g.speed ∧
    gn.framesCounter = ((n % 4 : Nat) : Int) * (goDiv g.speed 4 + 1) := by
  have hq := goDiv_four g.speed (by omega)
  induction n generalizing gn with
  | zero =>
    rw [dropTicks] at h
    cases h
    refine ⟨rfl, ?_⟩
    rw [hfc]
    simp
  | succ n ih =>
    obtain ⟨gm, hrun, hstep⟩ := dropTicks_ok_prev true draws g gn n h
    obtain ⟨hsp, hfcm⟩ := ih gm hrun
    obtain ⟨hsp2, hfc2⟩ := gravityTick_pace gm gn true (draws n) hstep
    refine ⟨hsp2.trans hsp, ?_⟩
    have hdue := gravityDue_iff gm true
    rw [hsp, hfcm] at hdue
    simp only [if_true] at hdue hfc2
    rw [hsp, hfcm] at hfc2
    rw [hfc2, hq]
    rw [hq] at hdue
    have h4 : n % 4 = 0 ∨ n % 4 = 1 ∨ n % 4 = 2 ∨ n % 4 = 3 := by omega
    rcases h4 with e | e | e | e
    · have e2 : (n + 1) % 4 = 1 := by omega
      rw [e] at hdue ⊢
      rw [e2, if_neg (by rw [hdue]; push_cast; omega)]
      push_cast
      ring
    · have e2 : (n + 1) % 4 = 2 := by omega
      rw [e] at hdue ⊢
      rw [e2, if_neg (by rw [hdue]; push_cast; omega)]
      push_cast
      ring
    · have e2 : (n + 1) % 4 = 3 := by omega
      rw [e] at hdue ⊢
      rw [e2, if_neg (by rw [hdue]; push_cast; omega)]
      push_cast
      ring
    · have e2 : (n + 1) % 4 = 0 := by omega
      rw [e] at hdue ⊢
      rw [e2, if_pos (by rw [hdue]; push_cast; omega)]
      simp

theorem dropTicks_plain_pace (g : Game) (draws : Nat → Draw) (hfc : g.framesCounter = 0)
    (hs : 1 ≤ g.speed) (n : Nat) (gn : Game) (h : dropTicks false draws n g = .ok gn) :
    gn.speed = g.speed ∧
    gn.framesCounter = ((n % g.speed.toNat : Nat) : Int) := by
  have hS : 0 < g.speed.toNat := by omega
  have hSc : ((g.speed.toNat : Nat) : Int) = g.speed := by omega
  induction n generalizing gn with
  | zero =>
    rw [dropTicks] at h
    cases h
    refine ⟨rfl, ?_⟩
    rw [hfc]
    simp
  | succ n ih =>
    obtain ⟨gm, hrun, hstep⟩ := dropTicks_ok_prev false draws g gn n h
    obtain ⟨hsp, hfcm⟩ := ih gm hrun
    obtain ⟨hsp2, hfc2⟩ := gravityTick_pace gm gn false (draws n) hstep
    refine ⟨hsp2.trans hsp, ?_⟩
    have hdue := gravityDue_iff gm false
    rw [hsp, hfcm] at hdue
    simp only [Bool.false_eq_true, if_false, add_zero] at hdue hfc2
    rw [hfcm] at hfc2
    have hlt := Nat.mod_lt n hS
    rw [hfc2, succ_mod_cases n _ hS]
    by_cases hw : n % g.speed.toNat + 1 = g.speed.toNat
    · rw [if_pos hw, if_pos (by rw [hdue]; omega)]
      rfl
    · rw [if_neg hw, if_neg (by rw [hdue]; omega)]
      push_cast
      rfl

theorem dropTicks_soft_pace_general (g : Game) (draws : Nat → Draw)
    (hfc : g.framesCounter = 0) (hs : 1 ≤ g.speed) (P : Nat) (hP : 1 ≤ P)
    (hlow : ((P : Int) - 1) * (goDiv g.speed 4 + 1) < g.speed)
    (hup : g.speed ≤ (P : Int) * (goDiv g.speed 4 + 1))
    (n : Nat) (gn : Game) (h : dropTicks true draws n g = .ok gn) :
    gn.speed = g.speed ∧
    gn.framesCounter = ((n % P : Nat) : Int) * (goDiv g.speed 4 + 1) ∧
    (gravityDue gn true = true ↔ (n + 1) % P = 0) := by
  have hq := goDiv_four g.speed (by omega)
  obtain ⟨inc, hinc⟩ : ∃ inc : Int, inc = goDiv g.speed 4 + 1 := ⟨_, rfl⟩
  rw [← hinc] at hlow hup ⊢
  have hinc0 : 0 ≤ inc := by rw [hinc, hq]; omega
  have kf1 : ∀ m : Nat, m + 1 = P → (m : Int) * inc + inc ≥ g.speed := by
    intro m hm
    have e : (m : Int) * inc + inc = (P : Int) * inc := by
      rw [← hm]
      push_cast
      ring
    rw [e]
    exact hup
  have kf2 : ∀ m : Nat, m + 1 < P → ¬ ((m : Int) * inc + inc ≥ g.speed) := by
    intro m hm hge
    have h1 : (m : Int) + 1 ≤ (P : Int) - 1 := by omega
    have h2 : ((m : Int) + 1) * inc ≤ ((P : Int) - 1) * inc :=
      mul_le_mul_of_nonneg_right h1 hinc0
    have e : (m : Int) * inc + inc = ((m : Int) + 1) * inc := by ring
    rw [e] at hge
    omega
  have hPpos : 0 < P := hP
  have hpace : ∀ (n : Nat) (gn : Game), dropTicks true draws n g = .ok gn →
      gn.speed = g.speed ∧ gn.framesCounter = ((n % P : Nat) : Int) * inc := by
    intro n
    induction n with
    | zero =>
      intro gn h
      rw [dropTicks] at h
      cases h
      refine ⟨rfl, ?_⟩
      rw [hfc]
      simp
    | succ n ih =>
      intro gn h
      obtain ⟨gm, hrun, hstep⟩ := dropTicks_ok_prev true draws g gn n h
      obtain ⟨hsp, hfcm⟩ := ih gm hrun
      obtain ⟨hsp2, hfc2⟩ := gravityTick_pace gm gn true (draws n) hstep
      refine ⟨hsp2.trans hsp, ?_⟩
      have hdue := gravityDue_iff gm true
      simp only [if_true] at hdue hfc2
      rw [hsp, hfcm, add_assoc, ← hinc] at hdue
      rw [hsp, hfcm, add_assoc, ← hinc] at hfc2
      have hlt := Nat.mod_lt n hPpos
      rw [hfc2, succ_mod_cases n P hPpos]
      by_cases hw : n % P + 1 = P
      · rw [if_pos hw, if_pos (hdue.mpr (kf1 _ hw))]
        simp
      · rw [if_neg hw, if_neg (fun hd => kf2 _ (by omega) (hdue.mp hd))]
        push_cast
        ring
  obtain ⟨hsp, hfcn⟩ := hpace n gn h
  refine ⟨hsp, hfcn, ?_⟩
  have hlt := Nat.mod_lt n hPpos
  rw [gravityDue_iff, hsp, hfcn, succ_mod_cases n P hPpos]
  simp only [if_true]
  rw [add_assoc, ← hinc]
  by_cases hw : n % P + 1 = P
  · rw [if_pos hw]
    exact ⟨fun _ => rfl, fun _ => kf1 _ hw⟩
  · rw [if_neg hw]
    constructor
    · intro hd
      exact absurd hd (kf2 _ (by omega))
    · intro h0
      omega

/-- C25, amended: let the soft-drop statement and the gravity block run on
consecutive ticks from a state with `framesCounter = 0` and fall speed `s`.
With the soft-drop key held and `s >= 13`, after `n` ticks that returned the
speed is unchanged, the counter is `(n mod 4) * (s / 4 + 1)`, and the gravity
test of the next tick succeeds exactly when `n + 1` is a multiple of 4; for
every `s >= 1` the same holds with 4 replaced by `P`, the least number of
ticks with `P * (s / 4 + 1) >= s`.  Without soft drop and for every `s >= 1`
the counter is `n mod s` and the test of the next tick succeeds exactly when
`n + 1` is a multiple of `s`.  From a state of play (`DropReady`) every tick
returns, in a state of play again.  A tick whose test fails changes the
counter only; a tick whose test succeeds moves a piece that can move down by
one row and resets the counter. -/
theorem gravity_period (g : Game) (draws : Nat → Draw) (hfc : g.framesCounter = 0) :
    (13 ≤ g.speed → ∀ (n : Nat) (gn : Game), dropTicks true draws n g = .ok gn →
      gn.speed = g.speed ∧
      gn.framesCounter = ((n % 4 : Nat) : Int) * (goDiv g.speed 4 + 1) ∧
      (gravityDue gn true = true ↔ (n + 1) % 4 = 0)) ∧
    (1 ≤ g.speed → ∀ P : Nat, 1 ≤ P →
      ((P : Int) - 1) * (goDiv g.speed 4 + 1) < g.speed →
      g.speed ≤ (P : Int) * (goDiv g.speed 4 + 1) →
      ∀ (n : Nat) (gn : Game), dropTicks true draws n g = .ok gn →
        gn.speed = g.speed ∧
        gn.framesCounter = ((n % P : Nat) : Int) * (goDiv g.speed 4 + 1) ∧
        (gravityDue gn true = true ↔ (n + 1) % P = 0)) ∧
    (1 ≤ g.speed → ∀ (n : Nat) (gn : Game), dropTicks false draws n g = .ok gn →
      gn.speed = g.speed ∧
      gn.framesCounter = ((n % g.speed.toNat : Nat) : Int) ∧
      (gravityDue gn false = true ↔ (n + 1) % g.speed.toNat = 0)) ∧
    (DropReady g → ∀ (down : Bool) (n : Nat),
      ∃ gn, dropTicks down draws n g = .ok gn ∧ DropReady gn) ∧
    (∀ (gn : Game) (down : Bool) (d : Draw), gravityDue gn down = false →
      ∃ fc, updateGameGravity (updateGameSoftDrop gn down) d =
        .ok { gn with framesCounter := fc }) ∧
    (∀ (gn : Game) (down : Bool) (d : Draw), gravityDue gn down = true →
      canMove gn 0 1 = .ok true →
      updateGameGravity (updateGameSoftDrop gn down) d =
        .ok { gn with framesCounter := 0, fallingY := gn.fallingY + 1 }) := by
  refine ⟨?_, fun hs P hP hlow hup n gn hrun =>
      dropTicks_soft_pace_general g draws hfc hs P hP hlow hup n gn hrun,
    ?_, fun h down n => dropTicks_ready g down draws h n, ?_, ?_⟩
  · intro hs n gn hrun
    obtain ⟨hsp, hfcn⟩ := dropTicks_soft_pace g draws hfc hs n gn hrun
    refine ⟨hsp, hfcn, ?_⟩
    rw [gravityDue_iff, hsp, hfcn]
    simp only [if_true]
    rw [goDiv_four g.speed (by omega)]
    have h4 : n % 4 = 0 ∨ n % 4 = 1 ∨ n % 4 = 2 ∨ n % 4 = 3 := by omega
    rcases h4 with e | e | e | e <;> rw [e] <;> constructor <;> intro h <;> omega
  · intro hs n gn hrun
    obtain ⟨hsp, hfcn⟩ := dropTicks_plain_pace g draws hfc hs n gn hrun
    refine ⟨hsp, hfcn, ?_⟩
    have hS : 0 < g.speed.toNat := by omega
    have hlt := Nat.mod_lt n hS
    rw [gravityDue_iff, hsp, hfcn, succ_mod_cases n _ hS]
    simp only [Bool.false_eq_true, if_false, add_zero]
    by_cases hw : n % g.speed.toNat + 1 = g.speed.toNat
    · rw [if_pos hw]
      constructor
      · intro _; rfl
      · intro _; omega
    · rw [if_neg hw]
      constructor
      · intro h; omega
      · intro h; omega
  · intro gn down d hnot
    have hn : ¬ (updateGameSoftDrop gn down).framesCounter + 1 ≥
        (updateGameSoftDrop gn down).speed := by
      intro h
      unfold gravityDue at hnot
      rw [decide_eq_true h] at hnot
      cases hnot
    rw [updateGameGravity_idle _ d hn]
    cases down
    · exact ⟨_, rfl⟩
    · exact ⟨_, rfl⟩
  · intro gn down d hdue hcm
    have hd : (updateGameSoftDrop gn down).framesCounter + 1 ≥
        (updateGameSoftDrop gn down).speed := by
      unfold gravityDue at hdue
      exact of_decide_eq_true hdue
    have hcm2 : canMove (updateGameSoftDrop gn down) 0 1 = .ok true := by
      refine (canMove_congr gn _ 0 1 true ?_ ?_ ?_ ?_ ?_).mpr hcm <;>
        (unfold updateGameSoftDrop; split_ifs <;> rfl)
    rw [updateGameGravity_fall _ d hd hcm2]
    cases down
    · rfl
    · rfl

theorem gravity_period_witness :
    sampleGame.framesCounter = 0 ∧
    (13 ≤ sampleGame.speed ∧ 1 ≤ sampleGame.speed ∧ DropReady sampleGame ∧
      canMove sampleGame 0 1 = .ok true) ∧
    ((13 ≤ sampleGame.speed → ∀ (n : Nat) (gn : Game),
      dropTicks true (fun _ => sampleDraw) n sampleGame = .ok gn →
      gn.speed = sampleGame.speed ∧
      gn.framesCounter = ((n % 4 : Nat) : Int) * (goDiv sampleGame.speed 4 + 1) ∧
      (gravityDue gn true = true ↔ (n + 1) % 4 = 0)) ∧
    (1 ≤ sampleGame.speed → ∀ P : Nat, 1 ≤ P →
      ((P : Int) - 1) * (goDiv sampleGame.speed 4 + 1) < sampleGame.speed →
      sampleGame.speed ≤ (P : Int) * (goDiv sampleGame.speed 4 + 1) →
      ∀ (n : Nat) (gn : Game), dropTicks true (fun _ => sampleDraw) n sampleGame = .ok gn →
        gn.speed = sampleGame.speed ∧
        gn.framesCounter = ((n % P : Nat) : Int) * (goDiv sampleGame.speed 4 + 1) ∧
        (gravityDue gn true = true ↔ (n + 1) % P = 0)) ∧
    (1 ≤ sampleGame.speed → ∀ (n : Nat) (gn : Game),
      dropTicks false (fun _ => sampleDraw) n sampleGame = .ok gn →
      gn.speed = sampleGame.speed ∧
      gn.framesCounter = ((n % sampleGame.speed.toNat : Nat) : Int) ∧
      (gravityDue gn false = true ↔ (n + 1) % sampleGame.speed.toNat = 0)) ∧
    (DropReady sampleGame → ∀ (down : Bool) (n : Nat),
      ∃ gn, dropTicks down (fun _ => sampleDraw) n sampleGame = .ok gn ∧ DropReady gn) ∧
    (∀ (gn : Game) (down : Bool) (d : Draw), gravityDue gn down = false →
      ∃ fc, updateGameGravity (updateGameSoftDrop gn down) d =
        .ok { gn with framesCounter := fc }) ∧
    (∀ (gn : Game) (down : Bool) (d : Draw), gravityDue gn down = true →
      canMove gn 0 1 = .ok true →
      updateGameGravity (updateGameSoftDrop gn down) d =
        .ok { gn with framesCounter := 0, fallingY := gn.fallingY + 1 })) :=
  ⟨by decide, by decide, gravity_period sampleGame (fun _ => sampleDraw) (by decide)⟩

end Fetris
